import Mathlib

/-!
# The script/native bridge of LÖVE: a shallow embedding

Embedding of the bridge helpers of `src/common/runtime.h` and of the wrapper
functions of `src/modules/math/wrap_Math.cpp`,
`src/modules/filesystem/wrap_Filesystem.cpp` and
`src/modules/physics/box2d/wrap_RevoluteJoint.cpp`.

Conventions of the embedding:

* a nullable C++ pointer is an `Option`; a non-null object pointer is a `Nat` address;
* a function that may leave through `lua_error` (a `longjmp`) returns `Except LuaError _`,
  or an `Outcome` when it also runs callbacks that may throw C++ exceptions;
* `lua_Number` (a C `double`) is modelled by `LuaNumber`: NaN, the two infinities and the
  finite values as rationals. Only comparisons are performed on numbers by the code
  embedded here, and every finite double is a rational, so the comparisons are exact.
-/

namespace Love

/-! ## Data model -/

/-- Modelled from the spec: the Type Descriptor `love::Type` (declared in `types.h`, which is
not among the sources): a name and a nullable parent descriptor, forming a single-inheritance
forest. A descriptor is identified by its name and parent chain. -/
inductive LoveType where
  | root (name : String)
  | derived (name : String) (parent : LoveType)
deriving DecidableEq, Repr

/-- Modelled from the spec: `Type::getName`, the registered name of a descriptor. -/
def LoveType.getName : LoveType → String
  | .root n => n
  | .derived n _ => n

/-- Modelled from the spec: the nullable parent of a descriptor. -/
def LoveType.parent : LoveType → Option LoveType
  | .root _ => none
  | .derived _ p => some p

/-- Modelled from the spec: `Type::isa` (section 4.1): true iff `other` equals this descriptor
or is an ancestor, walking the parent chain to the root. -/
def LoveType.isa : LoveType → LoveType → Bool
  | .root n, other => decide (LoveType.root n = other)
  | .derived n p, other => decide (LoveType.derived n p = other) || p.isa other

/-- The parent chain of a descriptor: the descriptor itself, its parent, ..., the root. -/
def LoveType.chain : LoveType → List LoveType
  | .root n => [.root n]
  | .derived n p => .derived n p :: p.chain

/-- A non-null `love::Object *`. -/
abbrev ObjPtr := Nat

/-- The `Proxy` stored in a full userdata: a type pointer and an object pointer, both nullable. -/
structure Proxy where
  type : Option LoveType
  object : Option ObjPtr
deriving DecidableEq, Repr

/-- A `lua_Number`, that is a C `double`, as far as comparisons can tell values apart. -/
inductive LuaNumber where
  | nan
  | negInf
  | fin (q : ℚ)
  | posInf
deriving DecidableEq

/-- The C comparison `a < b` on doubles: false as soon as one side is NaN. -/
def LuaNumber.lt : LuaNumber → LuaNumber → Bool
  | .nan, _ => false
  | _, .nan => false
  | .negInf, .negInf => false
  | .negInf, _ => true
  | .fin _, .negInf => false
  | .fin a, .fin b => decide (a < b)
  | .fin _, .posInf => true
  | .posInf, _ => false

/-- The C comparison `a <= b` on doubles: false as soon as one side is NaN. -/
def LuaNumber.le : LuaNumber → LuaNumber → Bool
  | .nan, _ => false
  | _, .nan => false
  | .negInf, _ => true
  | .fin _, .negInf => false
  | .fin a, .fin b => decide (a ≤ b)
  | .fin _, .posInf => true
  | .posInf, .posInf => true
  | .posInf, _ => false

/-- The type tags returned by `lua_type`. -/
inductive LuaType where
  | LUA_TNONE
  | LUA_TNIL
  | LUA_TBOOLEAN
  | LUA_TLIGHTUSERDATA
  | LUA_TNUMBER
  | LUA_TSTRING
  | LUA_TTABLE
  | LUA_TFUNCTION
  | LUA_TUSERDATA
  | LUA_TTHREAD
deriving DecidableEq, Repr

/-- A value on the Lua stack. Tables, functions and threads are references; a full userdata
created by the bridge holds a `Proxy`. -/
inductive LuaValue where
  | nil
  | boolean (b : Bool)
  | lightuserdata (p : Nat)
  | number (x : LuaNumber)
  | string (s : String)
  | table (ref : Nat)
  | func (ref : Nat)
  | userdata (u : Proxy)
  | thread (ref : Nat)
deriving DecidableEq

/-- The part of a `lua_State` the bridge helpers read and write: the stack of the running
function (index 1 first) and the position prefix `luaL_where(L, 1)` that `luaL_error` puts in
front of its message. -/
structure LuaState where
  stack : List LuaValue
  where1 : String
deriving DecidableEq

/-- The two conversions of the Lua engine between strings and numbers, used by
`lua_tonumber` and `lua_tostring`. They belong to the engine, not to the repository. -/
structure LuaLib where
  str2d : String → Option LuaNumber
  fmtnum : LuaNumber → String

/-- A script-level error, as raised through `lua_error`. -/
inductive LuaError where
  /-- Raised by `luax_typerror(L, narg, tname)`: argument `narg` is not a `tname`. -/
  | typerror (narg : Int) (tname : String)
  /-- Raised by `luaL_checknumber` and the like: argument `narg` has not the type `expected`. -/
  | argtype (narg : Int) (expected : LuaType)
  /-- Raised by `luaL_error`: the formatted message behind the position prefix. -/
  | error (msg : String)
  /-- Raised by `luax_enumerror(L, enumName, value)`: `value` is no constant of the enum. -/
  | enumerror (enumName : String) (value : String)
  /-- Raised by `luaL_argerror(L, narg, extramsg)`: bad argument `narg`, with the reason. -/
  | argerror (narg : Int) (extramsg : String)
deriving DecidableEq

/-! ## The Lua API used by the bridge -/

/-- The value at an acceptable stack index: `1 ..` count from the bottom, `-1 ..` from the top.
`none` is the pseudo-value of type `LUA_TNONE`. -/
def index2value (L : LuaState) (idx : Int) : Option LuaValue :=
  if 0 < idx then L.stack.get? (idx.toNat - 1)
  else if idx < 0 ∧ (-idx).toNat ≤ L.stack.length then L.stack.get? (L.stack.length - (-idx).toNat)
  else none

/-- The `lua_type` of the Lua API. -/
def lua_type (L : LuaState) (idx : Int) : LuaType :=
  match index2value L idx with
  | none => .LUA_TNONE
  | some .nil => .LUA_TNIL
  | some (.boolean _) => .LUA_TBOOLEAN
  | some (.lightuserdata _) => .LUA_TLIGHTUSERDATA
  | some (.number _) => .LUA_TNUMBER
  | some (.string _) => .LUA_TSTRING
  | some (.table _) => .LUA_TTABLE
  | some (.func _) => .LUA_TFUNCTION
  | some (.userdata _) => .LUA_TUSERDATA
  | some (.thread _) => .LUA_TTHREAD

/-- The `lua_touserdata` of the Lua API, cast to `Proxy *` as the bridge does: the block of a
full userdata, null for a value that is no full userdata. -/
def lua_touserdata (L : LuaState) (idx : Int) : Option Proxy :=
  match index2value L idx with
  | some (.userdata u) => some u
  | _ => none

/-- The `lua_pushstring` of the Lua API. -/
def lua_pushstring (L : LuaState) (s : String) : LuaState :=
  { L with stack := L.stack ++ [.string s] }

/-- The `lua_pushnumber` of the Lua API. -/
def lua_pushnumber (L : LuaState) (x : LuaNumber) : LuaState :=
  { L with stack := L.stack ++ [.number x] }

/-- The pointer that `lua_tostring` of the Lua API returns: the string at `idx`, a number being
formatted by the engine, null for any other value. The state that the call leaves is the one
of `lua_tolstring`, of which `lua_tostring` is a macro. -/
def lua_tostring (lib : LuaLib) (L : LuaState) (idx : Int) : Option String :=
  match index2value L idx with
  | some (.string s) => some s
  | some (.number x) => some (lib.fmtnum x)
  | _ => none

/-- The `lua_tolstring` of the Lua API: the string at `idx` with the state it leaves. A number
at `idx` is formatted by the engine and replaced in its stack slot by that string; any other
value gives a null pointer and is left alone. -/
def lua_tolstring (lib : LuaLib) (L : LuaState) (idx : Int) : Option String × LuaState :=
  match index2value L idx with
  | some (.string s) => (some s, L)
  | some (.number x) =>
    (some (lib.fmtnum x),
      ⟨L.stack.set (if 0 < idx then idx.toNat - 1 else L.stack.length - (-idx).toNat)
        (.string (lib.fmtnum x)), L.where1⟩)
  | _ => (none, L)

/-- The error raised by `luaL_error(L, fmt, ...)` once `fmt` is expanded to `msg`:
`luaL_where(L, 1)` followed by `msg`. -/
def luaL_error (L : LuaState) (msg : String) : LuaError :=
  .error (L.where1 ++ msg)

/-- What `luaL_error(L, "%s", s)` expands to: `s`, or `(null)` for a null pointer. -/
def fmt_s (s : Option String) : String :=
  match s with
  | some m => m
  | none => "(null)"

/-- The `lua_tonumber` of the Lua API together with `lua_isnumber`: the number at `idx`, a
string being converted by the engine; `none` when the value is not convertible. -/
def lua_tonumber (lib : LuaLib) (L : LuaState) (idx : Int) : Option LuaNumber :=
  match index2value L idx with
  | some (.number x) => some x
  | some (.string s) => lib.str2d s
  | _ => none

/-- The `luaL_checknumber` of the auxiliary library: the number at `narg`, or a type error. -/
def luaL_checknumber (lib : LuaLib) (L : LuaState) (narg : Int) : Except LuaError LuaNumber :=
  match lua_tonumber lib L narg with
  | some d => .ok d
  | none => .error (.argtype narg .LUA_TNUMBER)

/-- Modelled from the spec: `luax_typerror` (declared in `runtime.h`, defined in `runtime.cpp`
which is not among the sources): raises the type-mismatch error naming the expected type. -/
def luax_typerror (_L : LuaState) (narg : Int) (tname : String) : LuaError :=
  .typerror narg tname

/-! ## Typed-object extraction (`runtime.h`) -/

/-- The `luax_checktype<T>(L, idx, type)` of `runtime.h`. The test
`u->type == nullptr || !u->type->isa(type)` is the match on `u.type` followed by the test of
`isa`; each error call leaves the function (it does not return). -/
def luax_checktype (L : LuaState) (idx : Int) (type : LoveType) : Except LuaError ObjPtr :=
  if lua_type L idx ≠ .LUA_TUSERDATA then
    .error (luax_typerror L idx type.getName)
  else
    match lua_touserdata L idx with
    | none => .error (luax_typerror L idx type.getName)
    | some u =>
      match u.type with
      | none => .error (luax_typerror L idx type.getName)
      | some t =>
        if t.isa type = false then
          .error (luax_typerror L idx type.getName)
        else
          match u.object with
          | none => .error (luaL_error L "Cannot use object after it has been released.")
          | some o => .ok o

/-- The `luax_totype<T>(L, idx, type)` of `runtime.h`; `.ok none` is the null result. The test
`p->type != nullptr && p->type->isa(type)` is the match on `p.type` followed by the test of
`isa`. -/
def luax_totype (L : LuaState) (idx : Int) (type : LoveType) : Except LuaError (Option ObjPtr) :=
  if lua_type L idx ≠ .LUA_TUSERDATA then
    .ok none
  else
    match lua_touserdata L idx with
    | none => .ok none
    | some p =>
      match p.type with
      | none => .ok none
      | some t =>
        if t.isa type = true then
          match p.object with
          | none => .error (luaL_error L "Cannot use object after it has been released.")
          | some o => .ok (some o)
        else
          .ok none

/-! ## Clamped numeric marshaling (`runtime.h`) -/

/-- The `std::max(a, b)` of the C++ library: `(a < b) ? b : a`. -/
def std_max (a b : LuaNumber) : LuaNumber := if a.lt b then b else a

/-- The `std::min(a, b)` of the C++ library: `(b < a) ? b : a`. -/
def std_min (a b : LuaNumber) : LuaNumber := if b.lt a then b else a

/-- The `luax_checknumberclamped(L, idx, minv, maxv)` of `runtime.h`. -/
def luax_checknumberclamped (lib : LuaLib) (L : LuaState) (idx : Int) (minv maxv : LuaNumber) :
    Except LuaError LuaNumber :=
  match luaL_checknumber lib L idx with
  | .error e => .error e
  | .ok x => .ok (std_min (std_max x minv) maxv)

/-- The `luax_checknumberclamped01(L, idx)` of `runtime.h`. -/
def luax_checknumberclamped01 (lib : LuaLib) (L : LuaState) (idx : Int) :
    Except LuaError LuaNumber :=
  match luaL_checknumber lib L idx with
  | .error e => .error e
  | .ok x => .ok (std_min (std_max x (.fin 0)) (.fin 1))

/-! ## The exception bridge (`runtime.h`) -/

/-- A C++ exception in flight, by the handlers that catch it. -/
inductive CppException where
  /-- A `love::Exception`, which derives from `std::exception`. -/
  | love (what : String)
  /-- An exception of another class derived from `std::exception`. -/
  | std (what : String)
  /-- A thrown value whose type does not derive from `std::exception`. -/
  | foreign
deriving DecidableEq

/-- What `catch (const std::exception &e)` sees: `e.what()`, when the handler matches. -/
def CppException.stdWhat : CppException → Option String
  | .love m => some m
  | .std m => some m
  | .foreign => none

/-- The state a bridged call works on: the Lua state and the native memory `H` (the objects
and, for a lambda capturing by reference, the captured local variables). -/
structure World (H : Type) where
  lua : LuaState
  native : H

/-- How a C++ function ends: it returns, a C++ exception leaves it, or `lua_error` leaves it
by `longjmp`. Each carries the state at that point. -/
inductive Outcome (H : Type) (α : Type) where
  | ret (a : α) (w : World H)
  | throw (e : CppException) (w : World H)
  | raise (e : LuaError) (w : World H)

/-- The steps of a bridged call that the claims on the exception bridge speak of, logged in
program order. Callbacks cannot write to the log. -/
inductive Event where
  /-- The guarded callback `func()` is invoked. -/
  | call_func
  /-- Control enters the `catch` handler. -/
  | catch_enter
  /-- The handler calls `release()` on the object. -/
  | release (o : ObjPtr)
  /-- The statement `should_error = true`. -/
  | set_should_error
  /-- The call `lua_pushstring(L, e.what())`. -/
  | pushstring (m : String)
  /-- Control leaves the `catch` handler (the exception object is destroyed). -/
  | catch_exit
  /-- The call `finallyfunc(arg)`. -/
  | call_finallyfunc (arg : Bool)
  /-- The call of `luaL_error`, raising the given script error. -/
  | error_transfer (e : LuaError)
  /-- The call of `luax_ioError` with the given message. -/
  | report_io_error (msg : String)
deriving DecidableEq

/-- The `try { func(); } catch (const std::exception &e) { should_error = true;
lua_pushstring(L, e.what()); }` block of both overloads of `luax_catchexcept`. `.ok` holds
the value of `should_error` and the state after the block; `.error` is a non-local exit that
the block does not stop (a `longjmp`, or an exception the handler does not match). -/
def try_func {H : Type} (func : World H → Outcome H Unit) (w : World H) :
    List Event × Except (Outcome H Int) (Bool × World H) :=
  match func w with
  | .ret _ w1 => ([.call_func], .ok (false, w1))
  | .raise e w1 => ([.call_func], .error (.raise e w1))
  | .throw e w1 =>
    match e.stdWhat with
    | none => ([.call_func], .error (.throw e w1))
    | some m =>
      ([.call_func, .catch_enter, .set_should_error, .pushstring m, .catch_exit],
        .ok (true, { w1 with lua := lua_pushstring w1.lua m }))

/-- The one-callback `luax_catchexcept(L, func)` of `runtime.h`, with the log of its steps. The
value that `lua_tostring(L, -1)` reads is the string that the handler has just pushed, so the
call leaves the state as it is. -/
def luax_catchexcept {H : Type} (lib : LuaLib) (func : World H → Outcome H Unit) (w : World H) :
    List Event × Outcome H Int :=
  match try_func func w with
  | (tr, .error out) => (tr, out)
  | (tr, .ok (should_error, w1)) =>
    if should_error then
      (tr ++ [.error_transfer (luaL_error w1.lua (fmt_s (lua_tostring lib w1.lua (-1))))],
        .raise (luaL_error w1.lua (fmt_s (lua_tostring lib w1.lua (-1)))) w1)
    else
      (tr, .ret 0 w1)

/-- The two-callback `luax_catchexcept(L, func, finallyfunc)` of `runtime.h`, with the log of
its steps. `finallyfunc` is called outside any `try`, so a non-local exit of it leaves
`luax_catchexcept` at once. The script error is raised in the state that `lua_tostring(L, -1)`
leaves, which differs from the state after `finallyfunc` when that left a number on top. -/
def luax_catchexcept_finally {H : Type} (lib : LuaLib) (func : World H → Outcome H Unit)
    (finallyfunc : Bool → World H → Outcome H Unit) (w : World H) : List Event × Outcome H Int :=
  match try_func func w with
  | (tr, .error out) => (tr, out)
  | (tr, .ok (should_error, w1)) =>
    match finallyfunc should_error w1 with
    | .throw e w2 => (tr ++ [.call_finallyfunc should_error], .throw e w2)
    | .raise e w2 => (tr ++ [.call_finallyfunc should_error], .raise e w2)
    | .ret _ w2 =>
      if should_error then
        (tr ++ [.call_finallyfunc should_error,
            .error_transfer (luaL_error w2.lua (fmt_s (lua_tostring lib w2.lua (-1))))],
          .raise (luaL_error w2.lua (fmt_s (lua_tostring lib w2.lua (-1))))
            { w2 with lua := (lua_tolstring lib w2.lua (-1)).2 })
      else
        (tr ++ [.call_finallyfunc should_error], .ret 0 w2)

/-- Whether the event is a call of `luaL_error`. -/
def Event.isErrorTransfer : Event → Bool
  | .error_transfer _ => true
  | _ => false

/-- Whether the event is a call of `finallyfunc`. -/
def Event.isFinally : Event → Bool
  | .call_finallyfunc _ => true
  | _ => false

/-- The entries of `Module::ModuleType` used below. -/
inductive ModuleType where
  | M_MATH
  | M_FILESYSTEM
deriving DecidableEq, Repr

/-- A native module object: the slot it belongs to and its reference count. -/
structure ModuleObject where
  moduleType : ModuleType
  count : Nat
deriving DecidableEq, Repr

/-- The native memory of the module system: the module objects constructed so far (the address
of an object is its position) and the process-wide table read by `Module::getInstance`. -/
structure Modules where
  objects : List ModuleObject
  instances : ModuleType → Option ObjPtr

/-- Modelled from the spec: the construction of a native module object (`Object.h` and
`Module.cpp` are not among the sources). The new object starts with a reference count of one
(`luax_register_module` expects "a +1 reference count" from its caller). -/
def Modules.construct (m : Modules) (t : ModuleType) : ObjPtr × Modules :=
  (m.objects.length, { m with objects := m.objects ++ [⟨t, 1⟩] })

/-- Modelled from the spec: `Object::retain` (section 4.2) increments the count. -/
def Modules.retain (m : Modules) (p : ObjPtr) : Modules :=
  { m with objects :=
      match m.objects.get? p with
      | some ob => m.objects.set p { ob with count := ob.count + 1 }
      | none => m.objects }

/-- The `instance()` macro: `Module::getInstance<T>(type)`. -/
def Module_getInstance (m : Modules) (t : ModuleType) : Option ObjPtr := m.instances t

/-- The fields of `WrappedModule` (`runtime.h`); the function and type tables are kept as the
number of their entries. -/
structure WrappedModule where
  module : Option ObjPtr
  name : String
  type : LoveType
  functions : Nat
  types : Nat

/-- Modelled from the spec: `luax_register_module` (section 4.4; defined in `runtime.cpp`, not
among the sources). It stores the module singleton in the process-wide module registry, under
the slot of the module object, and does not itself retain; it leaves the namespace table
`tbl` on the stack and returns 1. -/
def luax_register_module (m : WrappedModule) (tbl : Nat) (w : World Modules) :
    Int × World Modules :=
  (1, { lua := { w.lua with stack := w.lua.stack ++ [.table tbl] },
        native :=
          match m.module with
          | none => w.native
          | some p =>
            match w.native.objects.get? p with
            | none => w.native
            | some ob =>
              { w.native with instances := Function.update w.native.instances ob.moduleType (some p) } })

/-- The lambdas `[&](){ instance = new Math(); }` and
`[&](){ instance = new physfs::Filesystem(); }`. The local variable `instance`, captured by
reference, is the second component of the native state. `ctor` is the exception thrown by the
constructor, if it throws. -/
def new_module_lambda (t : ModuleType) (ctor : Option CppException)
    (w : World (Modules × Option ObjPtr)) : Outcome (Modules × Option ObjPtr) Unit :=
  match ctor with
  | some e => .throw e w
  | none => .ret () { w with native := ((w.native.1.construct t).2, some (w.native.1.construct t).1) }

/-- The first statements of both open functions: `instance = instance(); if (instance ==
nullptr) luax_catchexcept(L, [&](){ instance = new T(); }); else instance->retain();`. -/
def acquire_instance (lib : LuaLib) (t : ModuleType) (ctor : Option CppException)
    (w : World Modules) : Outcome (Modules × Option ObjPtr) Int :=
  match Module_getInstance w.native t with
  | none =>
    (luax_catchexcept lib (new_module_lambda t ctor) { lua := w.lua, native := (w.native, none) }).2
  | some p => .ret 0 { lua := w.lua, native := (w.native.retain p, some p) }

/-- The descriptor `Module::type`. -/
def Module_type : LoveType := .derived "Module" (.root "Object")

/-- The descriptor `Filesystem::type`. -/
def Filesystem_type : LoveType := .derived "filesystem" Module_type

/-- The `luaopen_love_math` of `wrap_Math.cpp`. `ctor` is the exception thrown by `new Math()`,
if any; `chunk` is the error raised by the call of the `wrap_Math.lua` chunk, if any (the call
`lua_call(L, 2, 0)` leaves the stack as it was before the chunk and its two arguments were
pushed). -/
def luaopen_love_math (lib : LuaLib) (ctor : Option CppException) (tbl : Nat)
    (chunk : Option LuaError) (w : World Modules) : Outcome Modules Int :=
  match acquire_instance lib .M_MATH ctor w with
  | .throw e w1 => .throw e { lua := w1.lua, native := w1.native.1 }
  | .raise e w1 => .raise e { lua := w1.lua, native := w1.native.1 }
  | .ret _ w1 =>
    match luax_register_module
        { module := w1.native.2, name := "math", type := Module_type, functions := 11, types := 3 }
        tbl { lua := w1.lua, native := w1.native.1 } with
    | (n, w2) =>
      match chunk with
      | some e => .raise e w2
      | none => .ret n w2

/-- The `luaopen_love_filesystem` of `wrap_Filesystem.cpp`. `ctor` is the exception thrown by
`new physfs::Filesystem()`, if any. The two calls of `luax_register_searcher` change the
`package.loaders` table only, which is no part of the state modelled here. -/
def luaopen_love_filesystem (lib : LuaLib) (ctor : Option CppException) (tbl : Nat)
    (w : World Modules) : Outcome Modules Int :=
  match acquire_instance lib .M_FILESYSTEM ctor w with
  | .throw e w1 => .throw e { lua := w1.lua, native := w1.native.1 }
  | .raise e w1 => .raise e { lua := w1.lua, native := w1.native.1 }
  | .ret _ w1 =>
    match luax_register_module
        { module := w1.native.2, name := "filesystem", type := Filesystem_type, functions := 43,
          types := 3 }
        tbl { lua := w1.lua, native := w1.native.1 } with
    | (n, w2) => .ret n w2

/-- The state after `n` open calls in a row that all return; `none` if one of them does not. -/
def open_calls (open1 : World Modules → Outcome Modules Int) : Nat → World Modules →
    Option (World Modules)
  | 0, w => some w
  | n + 1, w =>
    match open1 w with
    | .ret _ w1 => open_calls open1 n w1
    | _ => none

/-! ## Pushing an object: the object registry -/

/-- The per-script-state memory `luax_pushtype` works on: the reference counts of the native
objects, the Proxies allocated so far (the handle of a Proxy is its position; `none` once the
collector has swept it), the weak object registry from object identity to Proxy handle, and
the handles on the stack. -/
structure ObjectRegistry where
  refcount : ObjPtr → Nat
  proxies : List (Option Proxy)
  registry : List (ObjPtr × Nat)
  stack : List Nat

/-- The live Proxy registered for the object, if any: an entry of the weak table whose Proxy has
not been collected. -/
def ObjectRegistry.find (s : ObjectRegistry) (o : ObjPtr) : Option Nat :=
  match s.registry.find? (fun e => decide (e.1 = o) && (s.proxies.getD e.2 none).isSome) with
  | some e => some e.2
  | none => none

/-- Modelled from the spec: `luax_pushtype(L, type, object)` (only declared in `runtime.h`; its
body is in `runtime.cpp`, not among the sources), the `pushExisting` of section 4.3:
1. a null `object` is a programming error (no result is defined: `none`);
2. look the identity of `object` up in the registry;
3. if found and alive, push the existing Proxy, without a new retain;
4. if absent, retain `object` once, allocate a new Proxy, insert it into the registry keyed by
   identity (a stale entry is evicted) and push it. -/
def luax_pushtype (s : ObjectRegistry) (type : LoveType) (object : Option ObjPtr) :
    Option ObjectRegistry :=
  match object with
  | none => none
  | some o =>
    match s.find o with
    | some h => some { s with stack := s.stack ++ [h] }
    | none =>
      some { refcount := Function.update s.refcount o (s.refcount o + 1)
             proxies := s.proxies ++ [some { type := some type, object := some o }]
             registry := (o, s.proxies.length) :: s.registry.filter (fun e => decide (e.1 ≠ o))
             stack := s.stack ++ [s.proxies.length] }

/-- The state after `n` calls of `luax_pushtype(L, type, object)` in a row. -/
def push_calls (type : LoveType) (object : Option ObjPtr) : Nat → ObjectRegistry →
    Option ObjectRegistry
  | 0, s => some s
  | n + 1, s =>
    match luax_pushtype s type object with
    | some s1 => push_calls type object n s1
    | none => none

/-! ## The RevoluteJoint wrappers (`wrap_RevoluteJoint.cpp`) -/

/-- The methods of the native `RevoluteJoint` (its code is not among the sources), taken as
parameters over the native memory `H`, with `RevoluteJoint::type` and the C conversion from
`double` to `float`. The three limit setters may throw a `love::Exception`, whose message is
the `.error` result; `getLimits` pushes its results itself and returns their number. -/
structure RevoluteJointApi (H : Type) where
  type : LoveType
  toFloat : LuaNumber → LuaNumber
  isValid : H → ObjPtr → Bool
  getJointAngle : H → ObjPtr → LuaNumber
  getJointSpeed : H → ObjPtr → LuaNumber
  setMotorEnabled : H → ObjPtr → Bool → H
  isMotorEnabled : H → ObjPtr → Bool
  setMaxMotorTorque : H → ObjPtr → LuaNumber → H
  setMotorSpeed : H → ObjPtr → LuaNumber → H
  getMotorSpeed : H → ObjPtr → LuaNumber
  getMotorTorque : H → ObjPtr → LuaNumber → LuaNumber
  getMaxMotorTorque : H → ObjPtr → LuaNumber
  setLimitsEnabled : H → ObjPtr → Bool → H
  areLimitsEnabled : H → ObjPtr → Bool
  setUpperLimit : H → ObjPtr → LuaNumber → Except String H
  setLowerLimit : H → ObjPtr → LuaNumber → Except String H
  setLimits : H → ObjPtr → LuaNumber → LuaNumber → Except String H
  getLowerLimit : H → ObjPtr → LuaNumber
  getUpperLimit : H → ObjPtr → LuaNumber
  getLimits : ObjPtr → World H → Outcome H Int
  getReferenceAngle : H → ObjPtr → LuaNumber

/-- Modelled from the spec: `luax_checkboolean` (declared in `runtime.h`: "Returns the boolean
value at idx. Causes a Lua error if the value is not a boolean."). -/
def luax_checkboolean (L : LuaState) (idx : Int) : Except LuaError Bool :=
  match index2value L idx with
  | some (.boolean b) => .ok b
  | _ => .error (.argtype idx .LUA_TBOOLEAN)

/-- Modelled from the spec: `luax_pushboolean` (declared in `runtime.h`: the same as
`lua_pushboolean`, with a `bool`). -/
def luax_pushboolean (L : LuaState) (b : Bool) : LuaState :=
  { L with stack := L.stack ++ [.boolean b] }

/-- The `lua_remove` of the Lua API, for a positive index. -/
def lua_remove (L : LuaState) (idx : Nat) : LuaState :=
  { L with stack := L.stack.eraseIdx (idx - 1) }

/-- The `luax_checkrevolutejoint(L, idx)` of `wrap_RevoluteJoint.cpp`. -/
def luax_checkrevolutejoint {H : Type} (api : RevoluteJointApi H) (w : World H) (idx : Int) :
    Except LuaError ObjPtr :=
  match luax_checktype w.lua idx api.type with
  | .error e => .error e
  | .ok j =>
    if api.isValid w.native j = false then
      .error (luaL_error w.lua "Attempt to use destroyed joint.")
    else
      .ok j

/-- The `w_RevoluteJoint_getJointAngle` of `wrap_RevoluteJoint.cpp`. -/
def w_RevoluteJoint_getJointAngle {H : Type} (api : RevoluteJointApi H) (w : World H) : Outcome H Int :=
  match luax_checkrevolutejoint api w 1 with
  | .error e => .raise e w
  | .ok t => .ret 1 { w with lua := lua_pushnumber w.lua (api.getJointAngle w.native t) }

/-- The `w_RevoluteJoint_getJointSpeed` of `wrap_RevoluteJoint.cpp`. -/
def w_RevoluteJoint_getJointSpeed {H : Type} (api : RevoluteJointApi H) (w : World H) : Outcome H Int :=
  match luax_checkrevolutejoint api w 1 with
  | .error e => .raise e w
  | .ok t => .ret 1 { w with lua := lua_pushnumber w.lua (api.getJointSpeed w.native t) }

/-- The `w_RevoluteJoint_getMotorSpeed` of `wrap_RevoluteJoint.cpp`. -/
def w_RevoluteJoint_getMotorSpeed {H : Type} (api : RevoluteJointApi H) (w : World H) : Outcome H Int :=
  match luax_checkrevolutejoint api w 1 with
  | .error e => .raise e w
  | .ok t => .ret 1 { w with lua := lua_pushnumber w.lua (api.getMotorSpeed w.native t) }

/-- The `w_RevoluteJoint_getMaxMotorTorque` of `wrap_RevoluteJoint.cpp`. -/
def w_RevoluteJoint_getMaxMotorTorque {H : Type} (api : RevoluteJointApi H) (w : World H) : Outcome H Int :=
  match luax_checkrevolutejoint api w 1 with
  | .error e => .raise e w
  | .ok t => .ret 1 { w with lua := lua_pushnumber w.lua (api.getMaxMotorTorque w.native t) }

/-- The `w_RevoluteJoint_getLowerLimit` of `wrap_RevoluteJoint.cpp`. -/
def w_RevoluteJoint_getLowerLimit {H : Type} (api : RevoluteJointApi H) (w : World H) : Outcome H Int :=
  match luax_checkrevolutejoint api w 1 with
  | .error e => .raise e w
  | .ok t => .ret 1 { w with lua := lua_pushnumber w.lua (api.getLowerLimit w.native t) }

/-- The `w_RevoluteJoint_getUpperLimit` of `wrap_RevoluteJoint.cpp`. -/
def w_RevoluteJoint_getUpperLimit {H : Type} (api : RevoluteJointApi H) (w : World H) : Outcome H Int :=
  match luax_checkrevolutejoint api w 1 with
  | .error e => .raise e w
  | .ok t => .ret 1 { w with lua := lua_pushnumber w.lua (api.getUpperLimit w.native t) }

/-- The `w_RevoluteJoint_getReferenceAngle` of `wrap_RevoluteJoint.cpp`. -/
def w_RevoluteJoint_getReferenceAngle {H : Type} (api : RevoluteJointApi H) (w : World H) : Outcome H Int :=
  match luax_checkrevolutejoint api w 1 with
  | .error e => .raise e w
  | .ok t => .ret 1 { w with lua := lua_pushnumber w.lua (api.getReferenceAngle w.native t) }

/-- The `w_RevoluteJoint_isMotorEnabled` of `wrap_RevoluteJoint.cpp`. -/
def w_RevoluteJoint_isMotorEnabled {H : Type} (api : RevoluteJointApi H) (w : World H) : Outcome H Int :=
  match luax_checkrevolutejoint api w 1 with
  | .error e => .raise e w
  | .ok t => .ret 1 { w with lua := luax_pushboolean w.lua (api.isMotorEnabled w.native t) }

/-- The `w_RevoluteJoint_areLimitsEnabled` of `wrap_RevoluteJoint.cpp`. -/
def w_RevoluteJoint_areLimitsEnabled {H : Type} (api : RevoluteJointApi H) (w : World H) : Outcome H Int :=
  match luax_checkrevolutejoint api w 1 with
  | .error e => .raise e w
  | .ok t => .ret 1 { w with lua := luax_pushboolean w.lua (api.areLimitsEnabled w.native t) }

/-- The `w_RevoluteJoint_getMotorTorque` of `wrap_RevoluteJoint.cpp`. -/
def w_RevoluteJoint_getMotorTorque {H : Type} (lib : LuaLib) (api : RevoluteJointApi H)
    (w : World H) : Outcome H Int :=
  match luax_checkrevolutejoint api w 1 with
  | .error e => .raise e w
  | .ok t =>
    match luaL_checknumber lib w.lua 2 with
    | .error e => .raise e w
    | .ok dt =>
      .ret 1 { w with lua := lua_pushnumber w.lua (api.getMotorTorque w.native t (api.toFloat dt)) }

/-- The `w_RevoluteJoint_setMotorEnabled` of `wrap_RevoluteJoint.cpp`. -/
def w_RevoluteJoint_setMotorEnabled {H : Type} (api : RevoluteJointApi H) (w : World H) : Outcome H Int :=
  match luax_checkrevolutejoint api w 1 with
  | .error e => .raise e w
  | .ok t =>
    match luax_checkboolean w.lua 2 with
    | .error e => .raise e w
    | .ok arg1 => .ret 0 { w with native := api.setMotorEnabled w.native t arg1 }

/-- The `w_RevoluteJoint_setLimitsEnabled` of `wrap_RevoluteJoint.cpp`. -/
def w_RevoluteJoint_setLimitsEnabled {H : Type} (api : RevoluteJointApi H) (w : World H) : Outcome H Int :=
  match luax_checkrevolutejoint api w 1 with
  | .error e => .raise e w
  | .ok t =>
    match luax_checkboolean w.lua 2 with
    | .error e => .raise e w
    | .ok arg1 => .ret 0 { w with native := api.setLimitsEnabled w.native t arg1 }

/-- The `w_RevoluteJoint_setMaxMotorTorque` of `wrap_RevoluteJoint.cpp`. -/
def w_RevoluteJoint_setMaxMotorTorque {H : Type} (lib : LuaLib) (api : RevoluteJointApi H) (w : World H) :
    Outcome H Int :=
  match luax_checkrevolutejoint api w 1 with
  | .error e => .raise e w
  | .ok t =>
    match luaL_checknumber lib w.lua 2 with
    | .error e => .raise e w
    | .ok d => .ret 0 { w with native := api.setMaxMotorTorque w.native t (api.toFloat d) }

/-- The `w_RevoluteJoint_setMotorSpeed` of `wrap_RevoluteJoint.cpp`. -/
def w_RevoluteJoint_setMotorSpeed {H : Type} (lib : LuaLib) (api : RevoluteJointApi H) (w : World H) :
    Outcome H Int :=
  match luax_checkrevolutejoint api w 1 with
  | .error e => .raise e w
  | .ok t =>
    match luaL_checknumber lib w.lua 2 with
    | .error e => .raise e w
    | .ok d => .ret 0 { w with native := api.setMotorSpeed w.native t (api.toFloat d) }

/-- A native call that throws a `love::Exception` with the given message or updates the
native memory, as the body of a lambda passed to `luax_catchexcept`. -/
def native_call {H : Type} (r : H → Except String H) (w : World H) : Outcome H Unit :=
  match r w.native with
  | .error m => .throw (.love m) w
  | .ok h => .ret () { w with native := h }

/-- The `w_RevoluteJoint_setUpperLimit` of `wrap_RevoluteJoint.cpp`; the result of
`luax_catchexcept` is dropped, the wrapper returns 0 when it comes back. -/
def w_RevoluteJoint_setUpperLimit {H : Type} (lib : LuaLib) (api : RevoluteJointApi H) (w : World H) :
    Outcome H Int :=
  match luax_checkrevolutejoint api w 1 with
  | .error e => .raise e w
  | .ok t =>
    match luaL_checknumber lib w.lua 2 with
    | .error e => .raise e w
    | .ok d =>
      match (luax_catchexcept lib (native_call (fun h => api.setUpperLimit h t (api.toFloat d))) w).2 with
      | .ret _ w1 => .ret 0 w1
      | .throw e w1 => .throw e w1
      | .raise e w1 => .raise e w1

/-- The `w_RevoluteJoint_setLowerLimit` of `wrap_RevoluteJoint.cpp`; the result of
`luax_catchexcept` is dropped, the wrapper returns 0 when it comes back. -/
def w_RevoluteJoint_setLowerLimit {H : Type} (lib : LuaLib) (api : RevoluteJointApi H) (w : World H) :
    Outcome H Int :=
  match luax_checkrevolutejoint api w 1 with
  | .error e => .raise e w
  | .ok t =>
    match luaL_checknumber lib w.lua 2 with
    | .error e => .raise e w
    | .ok d =>
      match (luax_catchexcept lib (native_call (fun h => api.setLowerLimit h t (api.toFloat d))) w).2 with
      | .ret _ w1 => .ret 0 w1
      | .throw e w1 => .throw e w1
      | .raise e w1 => .raise e w1

/-- The `w_RevoluteJoint_setLimits` of `wrap_RevoluteJoint.cpp`; the result of
`luax_catchexcept` is dropped, the wrapper returns 0 when it comes back. -/
def w_RevoluteJoint_setLimits {H : Type} (lib : LuaLib) (api : RevoluteJointApi H) (w : World H) :
    Outcome H Int :=
  match luax_checkrevolutejoint api w 1 with
  | .error e => .raise e w
  | .ok t =>
    match luaL_checknumber lib w.lua 2 with
    | .error e => .raise e w
    | .ok d1 =>
      match luaL_checknumber lib w.lua 3 with
      | .error e => .raise e w
      | .ok d2 =>
        match (luax_catchexcept lib
            (native_call (fun h => api.setLimits h t (api.toFloat d1) (api.toFloat d2))) w).2 with
        | .ret _ w1 => .ret 0 w1
        | .throw e w1 => .throw e w1
        | .raise e w1 => .raise e w1

/-- The `w_RevoluteJoint_getLimits` of `wrap_RevoluteJoint.cpp`, which delegates to the joint. -/
def w_RevoluteJoint_getLimits {H : Type} (api : RevoluteJointApi H) (w : World H) :
    Outcome H Int :=
  match luax_checkrevolutejoint api w 1 with
  | .error e => .raise e w
  | .ok t => api.getLimits t { w with lua := lua_remove w.lua 1 }

/-- The table `w_RevoluteJoint_functions` of `wrap_RevoluteJoint.cpp`, without its sentinel. -/
def w_RevoluteJoint_functions {H : Type} (lib : LuaLib) (api : RevoluteJointApi H) :
    List (String × (World H → Outcome H Int)) :=
  [ ("getJointAngle", w_RevoluteJoint_getJointAngle api),
    ("getJointSpeed", w_RevoluteJoint_getJointSpeed api),
    ("setMotorEnabled", w_RevoluteJoint_setMotorEnabled api),
    ("isMotorEnabled", w_RevoluteJoint_isMotorEnabled api),
    ("setMaxMotorTorque", w_RevoluteJoint_setMaxMotorTorque lib api),
    ("setMotorSpeed", w_RevoluteJoint_setMotorSpeed lib api),
    ("getMotorSpeed", w_RevoluteJoint_getMotorSpeed api),
    ("getMotorTorque", w_RevoluteJoint_getMotorTorque lib api),
    ("getMaxMotorTorque", w_RevoluteJoint_getMaxMotorTorque api),
    ("setLimitsEnabled", w_RevoluteJoint_setLimitsEnabled api),
    ("areLimitsEnabled", w_RevoluteJoint_areLimitsEnabled api),
    ("setUpperLimit", w_RevoluteJoint_setUpperLimit lib api),
    ("setLowerLimit", w_RevoluteJoint_setLowerLimit lib api),
    ("setLimits", w_RevoluteJoint_setLimits lib api),
    ("getLowerLimit", w_RevoluteJoint_getLowerLimit api),
    ("getUpperLimit", w_RevoluteJoint_getUpperLimit api),
    ("getLimits", w_RevoluteJoint_getLimits api),
    ("getReferenceAngle", w_RevoluteJoint_getReferenceAngle api) ]

/-- The setters among the wrappers: the functions registered under a name starting with
`set`. Every other wrapper but `getLimits` is a getter. -/
def RevoluteJoint_setters : List String :=
  ["setMotorEnabled", "setMaxMotorTorque", "setMotorSpeed", "setLimitsEnabled", "setUpperLimit",
    "setLowerLimit", "setLimits"]

/-- The kinds of argument that the wrappers check after the joint. -/
inductive ArgKind where
  | number
  | boolean

/-- The arguments that each wrapper checks after the joint, from index 2 on. -/
def RevoluteJoint_arguments (name : String) : List ArgKind :=
  if name = "getMotorTorque" ∨ name = "setMaxMotorTorque" ∨ name = "setMotorSpeed" ∨
      name = "setUpperLimit" ∨ name = "setLowerLimit" then [.number]
  else if name = "setMotorEnabled" ∨ name = "setLimitsEnabled" then [.boolean]
  else if name = "setLimits" then [.number, .number]
  else []

/-- The checks of the arguments of the given kinds from index `idx` on, in order: the script
error of the first check that fails, if any. -/
def check_arguments (lib : LuaLib) (L : LuaState) : List ArgKind → Int → Option LuaError
  | [], _ => none
  | .number :: ks, idx =>
    match luaL_checknumber lib L idx with
    | .error e => some e
    | .ok _ => check_arguments lib L ks (idx + 1)
  | .boolean :: ks, idx =>
    match luax_checkboolean L idx with
    | .error e => some e
    | .ok _ => check_arguments lib L ks (idx + 1)

/-- The wrappers whose native method may throw a `love::Exception`. -/
def RevoluteJoint_throwing : List String :=
  ["setUpperLimit", "setLowerLimit", "setLimits"]

/-- The message of the script error contains the text `m`. -/
def LuaError.contains (e : LuaError) (m : String) : Prop :=
  match e with
  | .error msg => m.data <:+: msg.data
  | _ => False

/-- The state at the end of a call, however it ends. -/
def Outcome.world {H α : Type} : Outcome H α → World H
  | .ret _ w => w
  | .throw _ w => w
  | .raise _ w => w

/-- The calling convention of a wrapper at a state, for a wrapper that pushes `pushes` values:
a failed check of argument 1 is raised as it is, with nothing done before; the wrapper never
lets a C++ exception out; and when it returns, argument 1 passed the check, the value returned
is `pushes` and the stack has grown by exactly that many values. -/
def WrapperContract {H : Type} (api : RevoluteJointApi H) (pushes : Nat)
    (f : World H → Outcome H Int) (w : World H) : Prop :=
  (∀ e, luax_checkrevolutejoint api w 1 = .error e → f w = .raise e w) ∧
  (∀ e w1, f w ≠ .throw e w1) ∧
  (∀ n w1, f w = .ret n w1 →
    (∃ t, luax_checkrevolutejoint api w 1 = .ok t) ∧ n = (pushes : Int) ∧
      ∃ vs : List LuaValue, vs.length = pushes ∧ w1.lua.stack = w.lua.stack ++ vs)

/-- A native joint for the examples: every joint is valid, the getters return 0 and false, the
setters ignore their argument, and the limit setters throw "bad limit" for a NaN. -/
def exampleJointApi : RevoluteJointApi Unit where
  type := .derived "RevoluteJoint" (.derived "Joint" (.root "Object"))
  toFloat := fun x => x
  isValid := fun _ _ => true
  getJointAngle := fun _ _ => .fin 0
  getJointSpeed := fun _ _ => .fin 0
  setMotorEnabled := fun h _ _ => h
  isMotorEnabled := fun _ _ => false
  setMaxMotorTorque := fun h _ _ => h
  setMotorSpeed := fun h _ _ => h
  getMotorSpeed := fun _ _ => .fin 0
  getMotorTorque := fun _ _ _ => .fin 0
  getMaxMotorTorque := fun _ _ => .fin 0
  setLimitsEnabled := fun h _ _ => h
  areLimitsEnabled := fun _ _ => false
  setUpperLimit := fun h _ x => if x = .nan then .error "bad limit" else .ok h
  setLowerLimit := fun h _ x => if x = .nan then .error "bad limit" else .ok h
  setLimits := fun h _ x y => if x = .nan ∨ y = .nan then .error "bad limit" else .ok h
  getLowerLimit := fun _ _ => .fin 0
  getUpperLimit := fun _ _ => .fin 0
  getLimits := fun _ w =>
    .ret 2 { w with lua := lua_pushnumber (lua_pushnumber w.lua (.fin 0)) (.fin 0) }
  getReferenceAngle := fun _ _ => .fin 0

/-- A state for the examples: a live joint as argument 1. -/
def exampleJointWorld : World Unit :=
  { lua := { stack := [.userdata { type := some exampleJointApi.type, object := some 3 }],
             where1 := "main.lua:1: " },
    native := () }

/-! ## Module lookup (`runtime.h`) -/

/-- How a bridge helper that works on the Lua state alone ends: it returns, it leaves through
`lua_error`, or its behaviour is undefined (it reads through a null pointer, or reads a `Proxy`
where there is none). The first two carry the Lua state at that point. -/
inductive LuaResult (α : Type) where
  | ret (a : α) (L : LuaState)
  | raise (e : LuaError) (L : LuaState)
  | undefined

/-- The table of `REGISTRY_MODULES`: its reference and its fields by name, `nil` for a name
without a field. A registry not created yet is a registry without fields. -/
structure ModuleRegistry where
  ref : Nat
  fields : String → LuaValue

/-- Modelled from the spec: `luax_insistregistry(L, REGISTRY_MODULES)` (declared in
`runtime.h`: "Gets (creates if needed) the specified Registry, and pushes it into the
stack."). -/
def luax_insistregistry (reg : ModuleRegistry) (L : LuaState) : LuaState :=
  { L with stack := L.stack ++ [.table reg.ref] }

/-- The `lua_getfield(L, -1, name)` of the Lua API, with the registry table at index -1. -/
def lua_getfield_registry (reg : ModuleRegistry) (L : LuaState) (name : String) : LuaState :=
  { L with stack := L.stack ++ [reg.fields name] }

/-- The `lua_isuserdata` of the Lua API: true for a full and for a light userdata. -/
def lua_isuserdata (L : LuaState) (idx : Int) : Bool :=
  match index2value L idx with
  | some (.userdata _) => true
  | some (.lightuserdata _) => true
  | _ => false

/-- The `lua_pop(L, n)` of the Lua API. -/
def lua_pop (L : LuaState) (n : Nat) : LuaState :=
  { L with stack := L.stack.take (L.stack.length - n) }

/-- The `luax_getmodule<T>(L, type)` of `runtime.h`. A light userdata passes `lua_isuserdata`
and is then read as a `Proxy`, which it is not: undefined. -/
def luax_getmodule (reg : ModuleRegistry) (L : LuaState) (type : LoveType) :
    LuaResult (Option ObjPtr) :=
  let name := type.getName
  let L1 := luax_insistregistry reg L
  let L2 := lua_getfield_registry reg L1 name
  if lua_isuserdata L2 (-1) = false then
    .raise (luaL_error L2 ("Tried to get nonexistent module " ++ name ++ ".")) L2
  else
    match lua_touserdata L2 (-1) with
    | none => .undefined
    | some u =>
      match u.type with
      | none => .raise (luaL_error L2 ("Incorrect module " ++ name)) L2
      | some t =>
        if t.isa type = false then
          .raise (luaL_error L2 ("Incorrect module " ++ name)) L2
        else
          .ret u.object (lua_pop L2 2)

/-- The `luax_optmodule<T>(L, type)` of `runtime.h`. The test `!u->type->isa(type)` reads
through `u->type` without a null check: undefined for a null type pointer. -/
def luax_optmodule (reg : ModuleRegistry) (L : LuaState) (type : LoveType) :
    LuaResult (Option ObjPtr) :=
  let name := type.getName
  let L1 := luax_insistregistry reg L
  let L2 := lua_getfield_registry reg L1 name
  if lua_isuserdata L2 (-1) = false then
    .ret none (lua_pop L2 2)
  else
    match lua_touserdata L2 (-1) with
    | none => .undefined
    | some u =>
      match u.type with
      | none => .undefined
      | some t =>
        if t.isa type = false then
          .raise (luaL_error L2 ("Incorrect module " ++ name)) L2
        else
          .ret u.object (lua_pop L2 2)

/-! ## Checking the fields of a table (`runtime.h`) -/

/-- A Lua table: its key-value pairs, in the order in which `lua_next` traverses them. -/
abbrev LuaTable := List (LuaValue × LuaValue)

/-- The tables of the Lua heap; the reference of a table is its position. -/
structure LuaHeap where
  tables : List LuaTable

/-- The table behind a reference; a dangling reference has no pairs. -/
def LuaHeap.get (h : LuaHeap) (ref : Nat) : LuaTable := h.tables.getD ref []

/-- The `lua_pushnil` of the Lua API. -/
def lua_pushnil (L : LuaState) : LuaState :=
  { L with stack := L.stack ++ [.nil] }

/-- The `luaL_checkstring` of the auxiliary library: the string that `lua_tolstring` gives at
`narg`, with the state that the conversion leaves, or a type error. -/
def luaL_checkstring (lib : LuaLib) (L : LuaState) (narg : Int) :
    Except LuaError (String × LuaState) :=
  match lua_tolstring lib L narg with
  | (some s, L1) => .ok (s, L1)
  | (none, _) => .error (.argtype narg .LUA_TSTRING)

/-- Modelled from the spec: `luax_enumerror(L, enumName, value)` (declared in `runtime.h`,
defined in `runtime.cpp` which is not among the sources): raises the script error that names
the enum and the value that is none of its constants. -/
def luax_enumerror (_L : LuaState) (enumName : String) (value : String) : LuaError :=
  .enumerror enumName value

/-- The loop `while (lua_next(L, idx)) { ... lua_pop(L, 1); }` of `luax_checktablefields` over
the pairs that `lua_next` has still to deliver. `L` is the state without the key and the value
that `lua_next` keeps on top of the stack: each pass runs with the pair pushed, and the last
`lua_next` pops the last key and pushes nothing. -/
def checktablefields_loop (lib : LuaLib) (L : LuaState) (enumName : String)
    (getConstant : String → Bool) : LuaTable → LuaResult Unit
  | [] => .ret () L
  | (k, v) :: rest =>
    if lua_type { L with stack := L.stack ++ [k, v] } (-2) ≠ .LUA_TSTRING then
      .raise (luax_typerror { L with stack := L.stack ++ [k, v] } (-2) "string")
        { L with stack := L.stack ++ [k, v] }
    else
      match luaL_checkstring lib { L with stack := L.stack ++ [k, v] } (-2) with
      | .error e => .raise e { L with stack := L.stack ++ [k, v] }
      | .ok (key, L1) =>
        if getConstant key = false then
          .raise (luax_enumerror L1 enumName key) L1
        else
          checktablefields_loop lib L enumName getConstant rest

/-- The `luax_checktablefields<T>(L, idx, enumName, getConstant)` of `runtime.h`. `getConstant`
is taken by what it returns for a key. `lua_next(L, idx)` is called with the key on top of the
stack, so the table it traverses is the value found at `idx` once one more value has been
pushed; when that is no table the behaviour is undefined. -/
def luax_checktablefields (lib : LuaLib) (heap : LuaHeap) (L : LuaState) (idx : Int)
    (enumName : String) (getConstant : String → Bool) : LuaResult Unit :=
  if lua_type L idx ≠ .LUA_TTABLE then
    .raise (.argtype idx .LUA_TTABLE) L
  else
    match index2value (lua_pushnil L) idx with
    | some (.table ref) => checktablefields_loop lib L enumName getConstant (heap.get ref)
    | _ => .undefined

/-! ## Reading a file argument (`wrap_Filesystem.cpp`) -/

/-- The native memory of the filesystem objects: the reference count of each object. -/
abbrev RefCounts := ObjPtr → Int

/-- Modelled from the spec: `Object::retain` (section 4.2) increments the count. -/
def RefCounts.retain (rc : RefCounts) (o : ObjPtr) : RefCounts :=
  Function.update rc o (rc o + 1)

/-- Modelled from the spec: `Object::release` (section 4.2) decrements the count (the
destruction at zero is not modelled). -/
def RefCounts.release (rc : RefCounts) (o : ObjPtr) : RefCounts :=
  Function.update rc o (rc o - 1)

/-- The functions called by `luax_getfile`, `luax_getdata` and `luax_getfiledata` whose code is
not among the sources, taken as parameters, with the type descriptors of the three classes.
The two native methods return a new object or throw a `love::Exception`, whose message is the
`.error` result; `luax_ioError` returns the number of values it pushed. -/
structure FilesystemApi where
  File_type : LoveType
  FileData_type : LoveType
  Data_type : LoveType
  /-- The `instance()->openFile(filename, File::MODE_CLOSED)`. -/
  openFile : String → RefCounts → Except String (ObjPtr × RefCounts)
  /-- The `File::read()`. -/
  read : ObjPtr → RefCounts → Except String (ObjPtr × RefCounts)
  /-- The `luax_ioError(L, "%s", msg)`. -/
  luax_ioError : String → LuaState → Int × LuaState

/-- The `lua_isstring` of the Lua API: true for a string and for a number. -/
def lua_isstring (L : LuaState) (idx : Int) : Bool :=
  match index2value L idx with
  | some (.string _) => true
  | some (.number _) => true
  | _ => false

/-- Modelled from the spec: `luax_istype(L, idx, type)` (declared in `runtime.h`: "True if the
value is Proxy of the specified type, false otherwise."). -/
def luax_istype (L : LuaState) (idx : Int) (type : LoveType) : Bool :=
  match index2value L idx with
  | some (.userdata u) =>
    match u.type with
    | some t => t.isa type
    | none => false
  | _ => false

/-- The `luax_getfile(L, idx)` of `wrap_Filesystem.cpp`. `luax_checkfile`, whose code is not
among the sources, is `luax_checktype<File>`. The handler of the `try` calls `luax_ioError`,
which returns, so that a null pointer is returned when the file cannot be opened. -/
def luax_getfile (lib : LuaLib) (api : FilesystemApi) (idx : Int) (w : World RefCounts) :
    Outcome RefCounts (Option ObjPtr) :=
  if lua_isstring w.lua idx = true then
    match luaL_checkstring lib w.lua idx with
    | .error e => .raise e w
    | .ok (filename, L1) =>
      match api.openFile filename w.native with
      | .ok (file, h1) => .ret (some file) { lua := L1, native := h1 }
      | .error m => .ret none { lua := (api.luax_ioError m L1).2, native := w.native }
  else
    match luax_checktype w.lua idx api.File_type with
    | .error e => .raise e w
    | .ok file => .ret (some file) { w with native := w.native.retain file }

/-- The first statements of `luax_getdata` and `luax_getfiledata`: the file or the data behind
the argument, `other` being `Data::type` or `FileData::type`. The result is the pair of the
local variables `file` and `data`. -/
def luax_getfile_or_data (lib : LuaLib) (api : FilesystemApi) (other : LoveType) (idx : Int)
    (w : World RefCounts) : Outcome RefCounts (Option ObjPtr × Option ObjPtr) :=
  if lua_isstring w.lua idx = true ∨ luax_istype w.lua idx api.File_type = true then
    match luax_getfile lib api idx w with
    | .ret file w1 => .ret (file, none) w1
    | .throw e w1 => .throw e w1
    | .raise e w1 => .raise e w1
  else if luax_istype w.lua idx other = true then
    match luax_checktype w.lua idx other with
    | .error e => .raise e w
    | .ok data => .ret (none, some data) { w with native := w.native.retain data }
  else
    .ret (none, none) w

/-- The lambda `[&]() { data = file->read(); }` of `luax_getdata`; the local variable `data`,
captured by reference, is the second component of the native state. -/
def read_lambda (api : FilesystemApi) (file : ObjPtr) (w : World (RefCounts × Option ObjPtr)) :
    Outcome (RefCounts × Option ObjPtr) Unit :=
  match api.read file w.native.1 with
  | .error m => .throw (.love m) w
  | .ok (data, h) => .ret () { w with native := (h, some data) }

/-- The lambda `[&](bool) { file->release(); }` of `luax_getdata`. -/
def release_lambda (file : ObjPtr) (_should_error : Bool)
    (w : World (RefCounts × Option ObjPtr)) : Outcome (RefCounts × Option ObjPtr) Unit :=
  .ret () { w with native := (w.native.1.release file, w.native.2) }

/-- The `luax_getdata(L, idx)` of `wrap_Filesystem.cpp`, with the log of the bridged call. -/
def luax_getdata (lib : LuaLib) (api : FilesystemApi) (idx : Int) (w : World RefCounts) :
    List Event × Outcome RefCounts (Option ObjPtr) :=
  match luax_getfile_or_data lib api api.Data_type idx w with
  | .throw e w1 => ([], .throw e w1)
  | .raise e w1 => ([], .raise e w1)
  | .ret (none, none) w1 =>
    ([], .raise (.argerror idx "filename, File, or Data expected") w1)
  | .ret (none, some data) w1 => ([], .ret (some data) w1)
  | .ret (some file, data) w1 =>
    match luax_catchexcept_finally lib (read_lambda api file) (release_lambda file)
        { lua := w1.lua, native := (w1.native, data) } with
    | (tr, .ret _ w2) => (tr, .ret w2.native.2 { lua := w2.lua, native := w2.native.1 })
    | (tr, .throw e w2) => (tr, .throw e { lua := w2.lua, native := w2.native.1 })
    | (tr, .raise e w2) => (tr, .raise e { lua := w2.lua, native := w2.native.1 })

/-- The `luax_getfiledata(L, idx, ioerror, nresults)` of `wrap_Filesystem.cpp`, with the log of
its steps; the result is the pair of the pointer returned and `nresults`. -/
def luax_getfiledata (lib : LuaLib) (api : FilesystemApi) (idx : Int) (ioerror : Bool)
    (w : World RefCounts) : List Event × Outcome RefCounts (Option ObjPtr × Int) :=
  match luax_getfile_or_data lib api api.FileData_type idx w with
  | .throw e w1 => ([], .throw e w1)
  | .raise e w1 => ([], .raise e w1)
  | .ret (none, none) w1 =>
    ([], .raise (.argerror idx "filename, File, or FileData expected") w1)
  | .ret (none, some data) w1 => ([], .ret (some data, 0) w1)
  | .ret (some _, some data) w1 => ([], .ret (some data, 0) w1)
  | .ret (some file, none) w1 =>
    match api.read file w1.native with
    | .ok (data, h2) =>
      ([.call_func, .release file], .ret (some data, 0) { w1 with native := h2.release file })
    | .error m =>
      if ioerror = true then
        ([.call_func, .catch_enter, .release file, .report_io_error m, .catch_exit],
          .ret (none, (api.luax_ioError m w1.lua).1)
            { lua := (api.luax_ioError m w1.lua).2, native := w1.native.release file })
      else
        ([.call_func, .catch_enter, .release file, .error_transfer (luaL_error w1.lua m)],
          .raise (luaL_error w1.lua m) { w1 with native := w1.native.release file })

/-- A filesystem for the examples: every file opens as the new object 5 with one reference,
no file can be read, and `luax_ioError` pushes nil and the message and returns 2. -/
def exampleFilesystemApi : FilesystemApi where
  File_type := .derived "File" (.root "Object")
  FileData_type := .derived "FileData" (.derived "Data" (.root "Object"))
  Data_type := .derived "Data" (.root "Object")
  openFile := fun _ rc => .ok (5, Function.update rc 5 1)
  read := fun _ _ => .error "Could not open file."
  luax_ioError := fun m L => (2, { L with stack := L.stack ++ [.nil, .string m] })

/-! ## The modal draw (`Event.cpp`) -/

/-- Modelled from the spec: the `Variant` of `Variant.h` (not among the sources), a tagged
union of nil, boolean, number, string, object reference and table; `modalDraw` looks at the tag
only. -/
inductive Variant where
  | nil
  | boolean (b : Bool)
  | number (x : LuaNumber)
  | string (s : String)
  | object (o : ObjPtr)
  | table (ref : Nat)
deriving DecidableEq

/-- Whether `getType()` is `Variant::NIL`. -/
def Variant.isNil : Variant → Bool
  | .nil => true
  | _ => false

/-- A draw callback of a `ModalDrawData`, called with its context and pointers to the two
deferred return values: it may write the two values, and it returns or throws. -/
abbrev DrawCallback := Variant × Variant → (Variant × Variant) × Option CppException

/-- The fields of an `Event` that `modalDraw` uses; a null `draw` pointer is `none`. -/
structure EventState where
  modalDraw : Option DrawCallback
  defaultModalDraw : Option DrawCallback
  deferredExceptionMessage : String
  deferredReturnValues : Variant × Variant

/-- Which draw callback a call of `modalDraw` invoked. -/
inductive DrawCall where
  | modal
  | defaultModal
deriving DecidableEq, Repr

/-- The `try` block of `Event::modalDraw` once a callback has run: the values it wrote are
kept; a `std::exception` is caught and its message stored; any other exception leaves
`modalDraw`. The result is the exception that propagates, if any, and the state. -/
def Event_afterDraw (s : EventState) (r : (Variant × Variant) × Option CppException) :
    Option CppException × EventState :=
  match r.2 with
  | none => (none, { s with deferredReturnValues := r.1 })
  | some e =>
    match e.stdWhat with
    | some m => (none, { s with deferredReturnValues := r.1, deferredExceptionMessage := m })
    | none => (some e, { s with deferredReturnValues := r.1 })

/-- The `Event::modalDraw` of `Event.cpp`: the callbacks invoked, in order, the exception that
leaves the call, if any, and the state after the call. -/
def Event_modalDraw (s : EventState) : List DrawCall × Option CppException × EventState :=
  if s.deferredExceptionMessage ≠ "" then
    ([], none, s)
  else if s.deferredReturnValues.1.isNil = false then
    ([], none, s)
  else
    match s.modalDraw with
    | some draw => ([.modal], Event_afterDraw s (draw s.deferredReturnValues))
    | none =>
      match s.defaultModalDraw with
      | some draw => ([.defaultModal], Event_afterDraw s (draw s.deferredReturnValues))
      | none => ([], none, s)

/-! ## Tables on the Lua heap -/

/-- The value of a table under a key, `nil` when there is none (no metamethods). -/
def LuaTable.get : LuaTable → LuaValue → LuaValue
  | [], _ => .nil
  | (k1, v1) :: t, k => if k1 = k then v1 else LuaTable.get t k

/-- The table without the pair of a key. -/
def LuaTable.erase : LuaTable → LuaValue → LuaTable
  | [], _ => []
  | (k1, v1) :: t, k => if k1 = k then LuaTable.erase t k else (k1, v1) :: LuaTable.erase t k

/-- The table with a value under a key: a present key keeps its place, a new key comes last. -/
def LuaTable.put : LuaTable → LuaValue → LuaValue → LuaTable
  | [], k, v => [(k, v)]
  | (k1, v1) :: t, k, v => if k1 = k then (k, v) :: t else (k1, v1) :: LuaTable.put t k v

/-- The assignment `t[k] = v` (no metamethods): a `nil` value removes the pair. -/
def LuaTable.set (t : LuaTable) (k v : LuaValue) : LuaTable :=
  if v = .nil then t.erase k else t.put k v

/-- A `std::string`: its characters. -/
abbrev CppString := List Char

/-- The `std::string::npos`, for a `size_t` of 64 bits. -/
def npos : Nat := 18446744073709551615

/-- The sum of two `size_t` values. -/
def size_add (a b : Nat) : Nat := (a + b) % 18446744073709551616

/-- The difference of two `size_t` values. -/
def size_sub (a b : Nat) : Nat :=
  (a + (18446744073709551616 - b % 18446744073709551616)) % 18446744073709551616

/-- The double quote character. -/
def dquote : Char := Char.ofNat 34

/-- The search of `find`: the index of the first `c` in the characters, which start at index
`i`; `npos` when there is none. -/
def find_from : List Char → Char → Nat → Nat
  | [], _, _ => npos
  | x :: xs, c, i => if x = c then i else find_from xs c (i + 1)

/-- The `std::string::find(char c, size_t pos)`. -/
def CppString.find (s : CppString) (c : Char) (pos : Nat) : Nat :=
  find_from (s.drop pos) c pos

/-- The search of `rfind`: the index of the last `c` in the characters, which start at index
`i`; `found` when there is none. -/
def rfind_from : List Char → Char → Nat → Nat → Nat
  | [], _, _, found => found
  | x :: xs, c, i, found => rfind_from xs c (i + 1) (if x = c then i else found)

/-- The `std::string::rfind(char c, size_t pos)`: the last `c` at or before `pos`. -/
def CppString.rfind (s : CppString) (c : Char) (pos : Nat) : Nat :=
  rfind_from (s.take (pos + 1)) c 0 npos

/-- The `std::string::substr(pos, n)`: `none` stands for the `std::out_of_range` thrown when
`pos > size()`. -/
def CppString.substr (s : CppString) (pos n : Nat) : Option CppString :=
  if pos > s.length then none else some ((s.drop pos).take n)

/-- The `std::string::operator[]`; at `size()` it gives the null character. -/
def CppString.index (s : CppString) (pos : Nat) : Char :=
  s.getD pos (Char.ofNat 0)

/-- The `std::unordered_map<std::string, std::string>` of a `BMFontLine`, as the list of its
pairs, one for each key. -/
abbrev Attributes := List (CppString × CppString)

/-- The `attributes.find(name)`: the value under the key, when there is one. -/
def Attributes.lookup : Attributes → CppString → Option CppString
  | [], _ => none
  | (k1, v1) :: m, k => if k1 = k then some v1 else Attributes.lookup m k

/-- The `attributes[key] = value`. -/
def Attributes.assign : Attributes → CppString → CppString → Attributes
  | [], k, v => [(k, v)]
  | (k1, v1) :: m, k, v => if k1 = k then (k, v) :: m else (k1, v1) :: Attributes.assign m k v

/-- How a piece of code with a loop ends in the model: with a result, with the
`std::out_of_range` of `substr`, or with the loop still running when the passes allowed to it
are used up. -/
inductive Parsed (α : Type) where
  | done (a : α)
  | out_of_range
  | out_of_fuel
deriving DecidableEq

/-- The class `BMFontLine`. -/
structure BMFontLine where
  tag : CppString
  attributes : Attributes
deriving DecidableEq

/-- The `valstart` and `valend` that the loop of the constructor computes for the `=` at
`fpos`. -/
def value_bounds (line : CppString) (fpos : Nat) : Nat × Nat :=
  if line.index (size_add fpos 1) = dquote then
    (size_add (size_add fpos 1) 1,
      min (size_sub (line.find dquote (size_add (size_add fpos 1) 1)) 1) (size_sub line.length 1))
  else
    (size_add fpos 1,
      min (size_sub (line.find ' ' (size_add (size_add fpos 1) 1)) 1) (size_sub line.length 1))

/-- The loop `while (startpos < line.length())` of the constructor of `BMFontLine`, for at most
the given number of passes. -/
def BMFontLine_loop (line : CppString) : Nat → Nat → Attributes → Parsed Attributes
  | 0, startpos, attributes =>
    if startpos < line.length then .out_of_fuel else .done attributes
  | fuel + 1, startpos, attributes =>
    if startpos < line.length then
      if line.find '=' startpos = npos ∨
          size_add (line.find '=' startpos) 1 ≥ line.length then
        .done attributes
      else if line.rfind ' ' (line.find '=' startpos) = npos then
        .done attributes
      else
        match line.substr (size_add (line.rfind ' ' (line.find '=' startpos)) 1)
            (size_sub (line.find '=' startpos)
              (size_add (line.rfind ' ' (line.find '=' startpos)) 1)) with
        | none => .out_of_range
        | some key =>
          match line.substr (value_bounds line (line.find '=' startpos)).1
              (size_add (size_sub (value_bounds line (line.find '=' startpos)).2
                (value_bounds line (line.find '=' startpos)).1) 1) with
          | none => .out_of_range
          | some value =>
            BMFontLine_loop line fuel
              (size_add (value_bounds line (line.find '=' startpos)).2 1)
              (attributes.assign key value)
    else .done attributes

/-- The constructor `BMFontLine::BMFontLine(const std::string &line)`. Every pass of the loop
moves `startpos` forward, so `line.length() + 1` passes are allowed. -/
def BMFontLine_ctor (line : CppString) : Parsed BMFontLine :=
  match line.substr 0 (line.find ' ' 0) with
  | none => .out_of_range
  | some tag =>
    match BMFontLine_loop line (line.length + 1) 0 [] with
    | .done attributes => .done ⟨tag, attributes⟩
    | .out_of_range => .out_of_range
    | .out_of_fuel => .out_of_fuel

/-- The `isspace` of the C library in the "C" locale. -/
def isspace (c : Char) : Bool :=
  c = ' ' || (9 ≤ c.toNat && c.toNat ≤ 13)

/-- The `isdigit` of the C library. -/
def isdigit (c : Char) : Bool :=
  48 ≤ c.toNat && c.toNat ≤ 57

/-- The number that `strtol` accumulates from a run of decimal digits. -/
def digits_value (ds : List Char) : Nat :=
  ds.foldl (fun a c => 10 * a + (c.toNat - 48)) 0

/-- The `strtol(s.c_str(), nullptr, 10)` of the C library for a `long` of `long_bits` bits:
the characters up to the first null character are the C string; white space is skipped, a
sign is read, then the digits; a value out of the range of `long` is clamped. -/
def strtol (long_bits : Nat) (s : CppString) : Int :=
  let body := (s.takeWhile (fun c => c ≠ Char.ofNat 0)).dropWhile isspace
  let digits :=
    match body with
    | '-' :: t => t.takeWhile isdigit
    | '+' :: t => t.takeWhile isdigit
    | _ => body.takeWhile isdigit
  let value : Int :=
    match body with
    | '-' :: _ => -(digits_value digits : Int)
    | _ => (digits_value digits : Int)
  max (-(2 ^ (long_bits - 1))) (min value (2 ^ (long_bits - 1) - 1))

/-- The conversion `(int)` of a `long`: the value modulo 2^32 in the range of `int`. -/
def to_int (z : Int) : Int := (z + 2147483648) % 4294967296 - 2147483648

/-- The `BMFontLine::getAttributeInt(name)`. -/
def BMFontLine.getAttributeInt (long_bits : Nat) (l : BMFontLine) (name : CppString) : Int :=
  match l.attributes.lookup name with
  | none => 0
  | some v => to_int (strtol long_bits v)

/-- The `BMFontLine::getAttributeString(name)`. -/
def BMFontLine.getAttributeString (l : BMFontLine) (name : CppString) : CppString :=
  match l.attributes.lookup name with
  | none => []
  | some v => v

/-- One ` key=value` group of a line, as written: the value bare, or between double quotes. -/
structure Group where
  key : CppString
  value : CppString
  quoted : Bool

/-- The text of a group. -/
def Group.render (g : Group) : CppString :=
  ' ' :: g.key ++ '=' :: (if g.quoted then dquote :: g.value ++ [dquote] else g.value)

/-- The text of a line: the tag, then the groups. -/
def render_line (tag : CppString) : List Group → CppString
  | [] => tag
  | g :: gs => render_line (tag ++ g.render) gs

/-- A group of the form that a BMFont line has: no space or `=` in the key; a bare value is not
empty and has no space, `=` or double quote; a quoted value has no double quote. -/
def Group.wellFormed (g : Group) : Prop :=
  ' ' ∉ g.key ∧ '=' ∉ g.key ∧
    if g.quoted then dquote ∉ g.value
    else g.value ≠ [] ∧ ' ' ∉ g.value ∧ '=' ∉ g.value ∧ dquote ∉ g.value

/-- The value listed for a key in the groups, the last one when the key is repeated. -/
def listed_value : List Group → CppString → Option CppString
  | [], _ => none
  | g :: gs, k =>
    match listed_value gs k with
    | some v => some v
    | none => if g.key = k then some g.value else none

/-- The integer that a run of decimal digits denotes. -/
def decimal (ds : List Char) : Nat :=
  Nat.ofDigits 10 (ds.reverse.map (fun c => c.toNat - 48))

/-! ## `BMFontRasterizer::parseConfig` (`BMFontRasterizer.cpp`) -/

/-- The key-value maps of the rasterizer, as the list of their pairs: the value under a key. -/
def map_lookup {κ ν : Type} [DecidableEq κ] : List (κ × ν) → κ → Option ν
  | [], _ => none
  | (k1, v1) :: m, k => if k1 = k then some v1 else map_lookup m k

/-- The assignment `m[k] = v` of a key-value map. -/
def map_assign {κ ν : Type} [DecidableEq κ] : List (κ × ν) → κ → ν → List (κ × ν)
  | [], k, v => [(k, v)]
  | (k1, v1) :: m, k, v => if k1 = k then (k, v) :: m else (k1, v1) :: map_assign m k v

/-- What `parseConfig` uses of an `image::ImageData` (its code is not among the sources):
whether `getFormat()` is `PIXELFORMAT_RGBA8_UNORM`, and `inside(x, y)`. -/
structure ImageData where
  rgba8 : Bool
  inside : Int → Int → Bool

/-- The `GlyphMetrics` of `GlyphData.h`. -/
structure GlyphMetrics where
  height : Int
  width : Int
  advance : Int
  bearingX : Int
  bearingY : Int
deriving DecidableEq

/-- The `FontMetrics` of `Rasterizer.h`. -/
structure FontMetrics where
  advance : Int
  ascent : Int
  descent : Int
  height : Int
deriving DecidableEq

/-- The `BMFontCharacter` of `BMFontRasterizer.h` (not among the sources), with the fields that
`parseConfig` assigns; `glyph` is a `uint32`. -/
structure BMFontCharacter where
  x : Int
  y : Int
  page : Int
  metrics : GlyphMetrics
  glyph : Nat
deriving DecidableEq

/-- The members of a `BMFontRasterizer` that `parseConfig` reads or writes. -/
structure BMFontRasterizer where
  fontFolder : CppString
  images : List (Int × ImageData)
  characters : List BMFontCharacter
  characterIndices : List (Nat × Int)
  kerning : List (Nat × Int)
  fontSize : Int
  unicode : Bool
  lineHeight : Int
  metrics : FontMetrics

/-- What `parseConfig` asks of the other modules to load a page image: whether
`Module::getInstance` gives the filesystem and the image module, and
`imagemodule->newImageData(filesystem->read(filename))`, which gives the image or throws a
`love::Exception` with the given message. The reference counts of the file data and of the
image are not modelled. -/
structure PageEnv where
  filesystem : Bool
  imagemodule : Bool
  newImageData : CppString → Except String ImageData

/-- The conversion `(uint32)` of an `int`. -/
def to_uint32 (z : Int) : Nat := (z % 4294967296).toNat

/-- The rasterizer as its constructor leaves it before the call of `parseConfig`: the members
initialised to zero, the font folder and the images given to it. -/
def BMFontRasterizer.init (fontFolder : CppString) (images : List (Int × ImageData)) :
    BMFontRasterizer :=
  ⟨fontFolder, images, [], [], [], 0, false, 0, ⟨0, 0, 0, 0⟩⟩

/-- The `nullchar` of `parseConfig`: all zero but the page. -/
def nullchar : BMFontCharacter := ⟨0, 0, -1, ⟨0, 0, 0, 0, 0⟩, 0⟩

/-- The lines that `while (std::getline(ss, line))` reads: the pieces between line feeds; after
the last line feed a piece counts when it is not empty. The second argument is the piece read
so far. -/
def getlines_from : List Char → CppString → List CppString
  | [], line => if line = [] then [] else [line]
  | c :: cs, line => if c = '\n' then line :: getlines_from cs [] else getlines_from cs (line ++ [c])

/-- The branch `tag == "page"` of `parseConfig`. -/
def parse_page (long_bits : Nat) (env : PageEnv) (r : BMFontRasterizer) (cline : BMFontLine) :
    Except String BMFontRasterizer :=
  match map_lookup r.images (cline.getAttributeInt long_bits "id".toList) with
  | some _ => .ok r
  | none =>
    if env.filesystem = false then .error "Filesystem module not loaded!"
    else if env.imagemodule = false then .error "Image module not loaded!"
    else
      match env.newImageData
        ((if r.fontFolder ≠ [] then
            r.fontFolder ++ '/' :: cline.getAttributeString "file".toList
          else cline.getAttributeString "file".toList).takeWhile
            (fun c => c ≠ Char.ofNat 0)) with
      | .error m => .error m
      | .ok imagedata =>
        if imagedata.rgba8 = false then
          .error "Only 32-bit RGBA images are supported in BMFonts."
        else
          .ok { r with
            images := map_assign r.images (cline.getAttributeInt long_bits "id".toList)
              imagedata }

/-- The `BMFontCharacter c` that the branch `tag == "char"` builds. -/
def char_of_line (long_bits : Nat) (cline : BMFontLine) : BMFontCharacter :=
  ⟨cline.getAttributeInt long_bits "x".toList,
    cline.getAttributeInt long_bits "y".toList,
    cline.getAttributeInt long_bits "page".toList,
    ⟨cline.getAttributeInt long_bits "height".toList,
      cline.getAttributeInt long_bits "width".toList,
      cline.getAttributeInt long_bits "xadvance".toList,
      cline.getAttributeInt long_bits "xoffset".toList,
      to_int (-(cline.getAttributeInt long_bits "yoffset".toList))⟩,
    to_uint32 (cline.getAttributeInt long_bits "id".toList)⟩

/-- The body of the loop over the lines of `parseConfig`, for one parsed line. Arithmetic on
`int` wraps. -/
def parse_line (long_bits : Nat) (env : PageEnv) (r : BMFontRasterizer) (cline : BMFontLine) :
    Except String BMFontRasterizer :=
  if cline.tag = "info".toList then
    .ok { r with
      fontSize := cline.getAttributeInt long_bits "size".toList,
      unicode := decide (cline.getAttributeInt long_bits "unicode".toList > 0) }
  else if cline.tag = "common".toList then
    .ok { r with
      lineHeight := cline.getAttributeInt long_bits "lineHeight".toList,
      metrics := ⟨r.metrics.advance, cline.getAttributeInt long_bits "base".toList,
        to_int (cline.getAttributeInt long_bits "base".toList -
          cline.getAttributeInt long_bits "lineHeight".toList), r.metrics.height⟩ }
  else if cline.tag = "page".toList then parse_page long_bits env r cline
  else if cline.tag = "char".toList then
    .ok { r with
      characters := r.characters ++ [char_of_line long_bits cline],
      characterIndices := map_assign r.characterIndices (char_of_line long_bits cline).glyph
        (to_int ((r.characters ++ [char_of_line long_bits cline]).length - 1)),
      metrics := ⟨max r.metrics.advance (char_of_line long_bits cline).metrics.advance,
        r.metrics.ascent, r.metrics.descent, r.metrics.height⟩ }
  else if cline.tag = "kerning".toList then
    .ok { r with
      kerning := map_assign r.kerning
        (to_uint32 (cline.getAttributeInt long_bits "first".toList) * 4294967296 +
          to_uint32 (cline.getAttributeInt long_bits "second".toList))
        (cline.getAttributeInt long_bits "amount".toList) }
  else .ok r

/-- The loop `while (std::getline(ss, line))` of `parseConfig` over the lines read. -/
def parse_lines (long_bits : Nat) (env : PageEnv) :
    BMFontRasterizer → List CppString → Parsed (Except String BMFontRasterizer)
  | r, [] => .done (.ok r)
  | r, line :: rest =>
    match BMFontLine_ctor line with
    | .done cline =>
      match parse_line long_bits env r cline with
      | .error m => .done (.error m)
      | .ok r1 => parse_lines long_bits env r1 rest
    | .out_of_range => .out_of_range
    | .out_of_fuel => .out_of_fuel

/-- The loop `for (const auto &c : characters)` of `parseConfig`, which verifies the characters
and guesses the line height: the line height at the end, or the message of the exception. -/
def verify_characters (r : BMFontRasterizer) (guessheight : Bool) :
    List BMFontCharacter → Int → Except String Int
  | [], lineHeight => .ok lineHeight
  | c :: cs, lineHeight =>
    if c.glyph = 0 then verify_characters r guessheight cs lineHeight
    else if r.unicode = false ∧ c.glyph > 127 then
      .error "Invalid BMFont character id (only unicode and ASCII are supported)"
    else
      match (if c.page < 0 then none else map_lookup r.images c.page) with
      | none => .error ("Invalid BMFont character page id: " ++ toString c.page)
      | some id =>
        if id.inside c.x c.y = false then
          .error ("Invalid coordinates for BMFont character " ++ toString c.glyph ++ ".")
        else if c.metrics.width > 0 ∧
            id.inside (to_int (to_int (c.x + c.metrics.width) - 1)) c.y = false then
          .error ("Invalid width " ++ toString c.metrics.width ++ " for BMFont character " ++
            toString c.glyph ++ ".")
        else if c.metrics.height > 0 ∧
            id.inside c.x (to_int (to_int (c.y + c.metrics.height) - 1)) = false then
          .error ("Invalid height " ++ toString c.metrics.height ++ " for BMFont character " ++
            toString c.glyph ++ ".")
        else
          verify_characters r guessheight cs
            (if guessheight = true then max lineHeight c.metrics.height else lineHeight)

/-- The `BMFontRasterizer::parseConfig(configtext)`, on the rasterizer `r`: the rasterizer at the
end, or the message of the `love::Exception` thrown. -/
def parseConfig (long_bits : Nat) (env : PageEnv) (r : BMFontRasterizer) (configtext : CppString) :
    Parsed (Except String BMFontRasterizer) :=
  match parse_lines long_bits env
      { r with
        characters := r.characters ++ [nullchar],
        characterIndices := map_assign r.characterIndices 0
          (to_int ((r.characters ++ [nullchar]).length - 1)) }
      (getlines_from configtext []) with
  | .done (.ok r2) =>
    if r2.characters.length = 0 then
      .done (.error "Invalid BMFont file (no character definitions?)")
    else
      match verify_characters r2 (decide (r2.lineHeight = 0)) r2.characters r2.lineHeight with
      | .error m => .done (.error m)
      | .ok lineHeight =>
        .done (.ok { r2 with
          lineHeight := lineHeight,
          metrics := ⟨r2.metrics.advance, r2.metrics.ascent, r2.metrics.descent, lineHeight⟩ })
  | .done (.error m) => .done (.error m)
  | .out_of_range => .out_of_range
  | .out_of_fuel => .out_of_fuel

/-- The `BMFontRasterizer::getLineHeight()`. -/
def BMFontRasterizer.getLineHeight (r : BMFontRasterizer) : Int := r.lineHeight

/-- The lines of a config text, parsed one by one. -/
def ParsedLines (configtext : CppString) (clines : List BMFontLine) : Prop :=
  List.Forall₂ (fun line cline => BMFontLine_ctor line = .done cline)
    (getlines_from configtext []) clines

/-- The last line with the tag `common`, when there is one. -/
def last_common (clines : List BMFontLine) : Option BMFontLine :=
  (clines.filter (fun l => l.tag = "common".toList)).getLast?

/-- The `height` attributes of the character definitions with a non-zero id, in order. -/
def char_heights (long_bits : Nat) (clines : List BMFontLine) : List Int :=
  ((clines.filter (fun l => l.tag = "char".toList)).filter
    (fun l => to_uint32 (l.getAttributeInt long_bits "id".toList) ≠ 0)).map
    (fun l => l.getAttributeInt long_bits "height".toList)

/-- An image in which every point is inside, for concrete calls. -/
def exampleImage : ImageData := ⟨true, fun _ _ => true⟩

/-- An environment without modules, for concrete calls. -/
def examplePageEnv : PageEnv := ⟨false, false, fun _ => .error "Could not open file."⟩

/-! ## The event queue (`Event.cpp`) -/

/-- The members of an `Event` that `push`, `poll` and `clear` use: the `std::deque<Message *>
queue`, front first, with the reference counts of the messages. Calls are serialised by the
`Lock` on the mutex of the event module, so each runs as one step. -/
structure EventQueue where
  queue : List ObjPtr
  counts : RefCounts

/-- The `Event::push(Message *msg, bool pushFront)`. -/
def Event_push (s : EventQueue) (msg : ObjPtr) (pushFront : Bool) : EventQueue :=
  if pushFront = true then ⟨msg :: s.queue, s.counts.retain msg⟩
  else ⟨s.queue ++ [msg], s.counts.retain msg⟩

/-- The `Event::push(Message *msg)`. -/
def Event_push_back (s : EventQueue) (msg : ObjPtr) : EventQueue :=
  Event_push s msg false

/-- The `Event::poll(Message *&msg)`: the value returned, the output argument `msg` after the
call (a null pointer is `none`), and the queue. -/
def Event_poll (s : EventQueue) (msg : Option ObjPtr) : Bool × Option ObjPtr × EventQueue :=
  match s.queue with
  | [] => (false, msg, s)
  | front :: rest => (true, some front, ⟨rest, s.counts⟩)

/-- The loop `while (!queue.empty())` of `Event::clear`, over the queue from its front: the
reference counts at the end. -/
def Event_clear_loop : List ObjPtr → RefCounts → RefCounts
  | [], counts => counts
  | front :: rest, counts => Event_clear_loop rest (counts.release front)

/-- The `Event::clear()`. -/
def Event_clear (s : EventQueue) : EventQueue :=
  ⟨[], Event_clear_loop s.queue s.counts⟩

/-- Successive calls of `Event::poll` with the same variable as output argument: the values
returned with the variable after each call, and the queue at the end. -/
def Event_poll_times : Nat → EventQueue → Option ObjPtr → List (Bool × Option ObjPtr) × EventQueue
  | 0, s, _ => ([], s)
  | n + 1, s, msg =>
    (((Event_poll s msg).1, (Event_poll s msg).2.1) ::
      (Event_poll_times n (Event_poll s msg).2.2 (Event_poll s msg).2.1).1,
      (Event_poll_times n (Event_poll s msg).2.2 (Event_poll s msg).2.1).2)

/-- A call on the event queue. -/
inductive EventCall where
  | push (msg : ObjPtr) (pushFront : Bool)
  | poll
  | clear

/-- A sequence of calls on the event queue, with the list of the messages that `poll` handed to
its callers so far. -/
def Event_run : List EventCall → EventQueue × List ObjPtr → EventQueue × List ObjPtr
  | [], st => st
  | .push msg pushFront :: calls, (s, polled) => Event_run calls (Event_push s msg pushFront, polled)
  | .poll :: calls, (s, polled) =>
    Event_run calls ((Event_poll s none).2.2,
      if (Event_poll s none).1 = true then polled ++ (Event_poll s none).2.1.toList else polled)
  | .clear :: calls, (s, polled) => Event_run calls (Event_clear s, polled)

/-! ## Theorems -/

/-! ### Ancestry and typed-object extraction -/

/-- The ancestry test is membership in the parent chain. -/
theorem LoveType.isa_iff_mem_chain (t T : LoveType) : t.isa T = true ↔ T ∈ t.chain := by
  induction t with
  | root n =>
    simp only [LoveType.isa, LoveType.chain, decide_eq_true_eq, List.mem_singleton]
    exact eq_comm
  | derived n p ih =>
    simp only [LoveType.isa, LoveType.chain, Bool.or_eq_true, decide_eq_true_eq, ih,
      List.mem_cons]
    exact or_congr_left eq_comm

/-- Every descriptor is its own ancestor in the sense of `isa`. -/
theorem LoveType.isa_self (t : LoveType) : t.isa t = true := by
  cases t <;> simp [LoveType.isa]

/-- A value is a full userdata exactly when `lua_touserdata` finds its `Proxy`. -/
theorem lua_type_userdata_iff (L : LuaState) (idx : Int) :
    lua_type L idx = .LUA_TUSERDATA ↔ ∃ u, index2value L idx = some (.userdata u) := by
  unfold lua_type
  cases h : index2value L idx with
  | none => simp
  | some v => cases v <;> simp

/-- The results of `luax_checktype`, case by case. -/
theorem luax_checktype_cases (L : LuaState) (idx : Int) (T : LoveType) :
    (∀ o, luax_checktype L idx T = .ok o ↔
        ∃ u t, index2value L idx = some (.userdata u) ∧ u.type = some t ∧ t.isa T = true ∧
          u.object = some o) ∧
    (∀ t : LoveType, t.isa T = true ↔ T ∈ t.chain) ∧
    T.isa T = true ∧
    (∀ n t, t.isa T = true → (LoveType.derived n t).isa T = true) ∧
    (lua_type L idx ≠ .LUA_TUSERDATA →
        luax_checktype L idx T = .error (.typerror idx T.getName)) ∧
    (∀ u t, index2value L idx = some (.userdata u) → u.type = some t → t.isa T = false →
        luax_checktype L idx T = .error (.typerror idx T.getName)) := by
  refine ⟨?_, fun t => LoveType.isa_iff_mem_chain t T, LoveType.isa_self T, ?_, ?_, ?_⟩
  · intro o
    unfold luax_checktype lua_touserdata
    by_cases hty : lua_type L idx = .LUA_TUSERDATA
    · obtain ⟨u, hu⟩ := (lua_type_userdata_iff L idx).1 hty
      rcases u with ⟨ty, ob⟩
      cases ty with
      | none => simp [hty, hu, luax_typerror]
      | some t =>
        cases hisa : t.isa T <;> cases ob <;> simp [hty, hu, hisa, luax_typerror, luaL_error]
    · have hno : ¬ ∃ u, index2value L idx = some (.userdata u) :=
        fun h => hty ((lua_type_userdata_iff L idx).2 h)
      simp only [hty, ne_eq, not_false_eq_true, if_true]
      constructor
      · intro h; cases h
      · rintro ⟨u, _, hu, _⟩; exact absurd ⟨u, hu⟩ hno
  · intro n t h
    simp [LoveType.isa, h]
  · intro hty
    simp [luax_checktype, hty, luax_typerror]
  · intro u t hu htype hisa
    have hty : lua_type L idx = .LUA_TUSERDATA := (lua_type_userdata_iff L idx).2 ⟨u, hu⟩
    simp [luax_checktype, lua_touserdata, hty, hu, htype, hisa, luax_typerror]

/-- C1: `luax_checktype` returns the object pointer `o` iff the value at `idx` is a userdata
Proxy with a non-null type that satisfies `isa(T)` and with object pointer `o` (non-null);
`isa(T)` holds iff `T` is on the parent chain of the type, in particular for the type itself and
for every descriptor derived from one that qualifies; a value that is no userdata, and a Proxy
whose non-null type does not satisfy `isa(T)`, raise the type-mismatch error naming `T`. -/
theorem luax_checktype_spec (L : LuaState) (idx : Int) (T : LoveType) :
    (∀ o, luax_checktype L idx T = .ok o ↔
        ∃ u t, index2value L idx = some (.userdata u) ∧ u.type = some t ∧ t.isa T = true ∧
          u.object = some o) ∧
    (∀ t : LoveType, t.isa T = true ↔ T ∈ t.chain) ∧
    T.isa T = true ∧
    (∀ n t, t.isa T = true → (LoveType.derived n t).isa T = true) ∧
    (lua_type L idx ≠ .LUA_TUSERDATA →
        luax_checktype L idx T = .error (.typerror idx T.getName)) ∧
    (∀ u t, index2value L idx = some (.userdata u) → u.type = some t → t.isa T = false →
        luax_checktype L idx T = .error (.typerror idx T.getName)) :=
  luax_checktype_cases L idx T

/-- C1, at a concrete stack: a Proxy whose type is a strict descendant of the target type is
accepted and its object returned. -/
theorem luax_checktype_spec_witness :
    luax_checktype
      { stack := [.userdata { type := some (.derived "File" (.root "Object")), object := some 7 }],
        where1 := "" } 1 (.root "Object") = .ok 7 :=
  ((luax_checktype_spec _ 1 (.root "Object")).1 7).2
    ⟨_, .derived "File" (.root "Object"), rfl, rfl, by decide, rfl⟩

/-- C2, as stated, fails: on a Proxy whose type pointer and object pointer are both null,
`luax_checktype` raises the type-mismatch error, not the used-after-release error. -/
theorem luax_checktype_released_counterexample :
    luax_checktype { stack := [.userdata { type := none, object := none }], where1 := "" } 1
        (.root "Object") = .error (.typerror 1 "Object") ∧
    luax_checktype { stack := [.userdata { type := none, object := none }], where1 := "" } 1
        (.root "Object") ≠
      .error (luaL_error { stack := [.userdata { type := none, object := none }], where1 := "" }
        "Cannot use object after it has been released.") := by
  constructor
  · rfl
  · intro h
    have h2 : LuaError.typerror 1 "Object" = luaL_error
        { stack := [.userdata { type := none, object := none }], where1 := "" }
        "Cannot use object after it has been released." := Except.error.inj h
    cases h2

/-- The results of `luax_checktype` on a Proxy whose object pointer is null. -/
theorem luax_checktype_null_object (L : LuaState) (idx : Int) (T : LoveType) (u : Proxy)
    (hu : index2value L idx = some (.userdata u)) (hobj : u.object = none) :
    (∀ t, u.type = some t → t.isa T = true →
        luax_checktype L idx T =
          .error (.error (L.where1 ++ "Cannot use object after it has been released."))) ∧
    (u.type = none → luax_checktype L idx T = .error (.typerror idx T.getName)) ∧
    (∀ t, u.type = some t → t.isa T = false →
        luax_checktype L idx T = .error (.typerror idx T.getName)) := by
  have hty : lua_type L idx = .LUA_TUSERDATA := (lua_type_userdata_iff L idx).2 ⟨u, hu⟩
  refine ⟨?_, ?_, ?_⟩
  · intro t ht hisa
    simp [luax_checktype, lua_touserdata, hty, hu, ht, hisa, hobj, luaL_error]
  · intro ht
    simp [luax_checktype, lua_touserdata, hty, hu, ht, luax_typerror]
  · intro t ht hisa
    simp [luax_checktype, lua_touserdata, hty, hu, ht, hisa, luax_typerror]

/-- C2, amended: for a Proxy whose object pointer is null, `luax_checktype` fails with the
used-after-release error (the position prefix followed by "Cannot use object after it has been
released.") when the type pointer is non-null and satisfies `isa(T)`; when the type pointer is
null as well, or does not satisfy `isa(T)`, it fails with the type-mismatch error naming `T`. -/
theorem luax_checktype_released (L : LuaState) (idx : Int) (T : LoveType) (u : Proxy)
    (hu : index2value L idx = some (.userdata u)) (hobj : u.object = none) :
    (∀ t, u.type = some t → t.isa T = true →
        luax_checktype L idx T =
          .error (.error (L.where1 ++ "Cannot use object after it has been released."))) ∧
    (u.type = none → luax_checktype L idx T = .error (.typerror idx T.getName)) ∧
    (∀ t, u.type = some t → t.isa T = false →
        luax_checktype L idx T = .error (.typerror idx T.getName)) :=
  luax_checktype_null_object L idx T u hu hobj

/-- C2, amended, at a concrete stack: a File whose object pointer was cleared, checked as an
Object. -/
theorem luax_checktype_released_witness :
    luax_checktype
      { stack := [.userdata { type := some (.derived "File" (.root "Object")), object := none }],
        where1 := "main.lua:3: " } 1 (.root "Object") =
      .error (.error ("main.lua:3: " ++ "Cannot use object after it has been released.")) :=
  (luax_checktype_released
    { stack := [.userdata { type := some (.derived "File" (.root "Object")), object := none }],
      where1 := "main.lua:3: " } 1 (.root "Object")
    { type := some (.derived "File" (.root "Object")), object := none } rfl rfl).1
    (.derived "File" (.root "Object")) rfl (by decide)

/-- C3, as stated, fails: on a Proxy whose type satisfies `isa(T)` and whose object pointer is
null, `luax_totype` raises a script error instead of returning the object or null. -/
theorem luax_totype_counterexample :
    luax_totype
        { stack := [.userdata { type := some (.root "Object"), object := none }], where1 := "" }
        1 (.root "Object") =
      .error (.error "Cannot use object after it has been released.") := by
  rfl

/-- C3, amended: `luax_totype` returns the object `o` iff the value is a userdata Proxy whose
type is non-null and satisfies `isa(T)` and whose object pointer is `o` (non-null); it raises a
script error iff the value is such a Proxy with a null object pointer, and the error is the
used-after-release error; in every other case (no userdata, null type, in particular a Proxy
with both pointers null, or a type that does not satisfy `isa(T)`) it returns null. -/
theorem luax_totype_spec (L : LuaState) (idx : Int) (T : LoveType) :
    (∀ o, luax_totype L idx T = .ok (some o) ↔
        ∃ u t, index2value L idx = some (.userdata u) ∧ u.type = some t ∧ t.isa T = true ∧
          u.object = some o) ∧
    (∀ e, luax_totype L idx T = .error e ↔
        (∃ u t, index2value L idx = some (.userdata u) ∧ u.type = some t ∧ t.isa T = true ∧
          u.object = none) ∧
        e = .error (L.where1 ++ "Cannot use object after it has been released.")) ∧
    (luax_totype L idx T = .ok none ↔
        (lua_type L idx ≠ .LUA_TUSERDATA ∨
          ∃ u, index2value L idx = some (.userdata u) ∧
            (u.type = none ∨ ∃ t, u.type = some t ∧ t.isa T = false))) := by
  unfold luax_totype lua_touserdata
  by_cases hty : lua_type L idx = .LUA_TUSERDATA
  · obtain ⟨u, hu⟩ := (lua_type_userdata_iff L idx).1 hty
    rcases u with ⟨ty, ob⟩
    cases ty with
    | none => simp [hty, hu]
    | some t =>
      cases hisa : t.isa T <;> cases ob <;> simp [hty, hu, hisa, luaL_error]
      exact fun e => eq_comm
  · have hno : ∀ u, index2value L idx ≠ some (.userdata u) :=
      fun u h => hty ((lua_type_userdata_iff L idx).2 ⟨u, h⟩)
    simp [hty, hno]

/-! ### Clamped numeric marshaling -/

/-- Clamping of a number that is not NaN between bounds in order. -/
theorem clamp_cases (x minv maxv : LuaNumber) (hnan : x ≠ .nan) (hb : minv.le maxv = true) :
    (minv.le x = true → x.le maxv = true → std_min (std_max x minv) maxv = x) ∧
    (x.lt minv = true → std_min (std_max x minv) maxv = minv) ∧
    (maxv.lt x = true → std_min (std_max x minv) maxv = maxv) ∧
    minv.le (std_min (std_max x minv) maxv) = true ∧
    (std_min (std_max x minv) maxv).le maxv = true := by
  cases x with
  | nan => exact absurd rfl hnan
  | negInf =>
    cases minv <;> cases maxv <;> simp_all [LuaNumber.lt, LuaNumber.le, std_max, std_min]
    rename_i a b
    rw [if_neg (not_lt.2 hb)]
    simp [hb]
  | posInf =>
    cases minv <;> cases maxv <;> simp_all [LuaNumber.lt, LuaNumber.le, std_max, std_min]
  | fin q =>
    cases minv with
    | nan => simp [LuaNumber.le] at hb
    | posInf => cases maxv <;> simp_all [LuaNumber.lt, LuaNumber.le, std_max, std_min]
    | negInf =>
      cases maxv with
      | nan => simp [LuaNumber.le] at hb
      | negInf => simp [LuaNumber.lt, LuaNumber.le, std_max, std_min]
      | posInf => simp [LuaNumber.lt, LuaNumber.le, std_max, std_min]
      | fin b =>
        rcases lt_or_le b q with h | h <;>
          simp [LuaNumber.lt, LuaNumber.le, std_max, std_min, h, not_lt.2, le_of_lt]
    | fin a =>
      cases maxv with
      | nan => simp [LuaNumber.le] at hb
      | negInf => simp [LuaNumber.le] at hb
      | posInf =>
        rcases lt_or_le q a with h | h <;>
          simp [LuaNumber.lt, LuaNumber.le, std_max, std_min, h, not_lt.2, le_of_lt]
      | fin b =>
        have hab : a ≤ b := by simpa [LuaNumber.le] using hb
        rcases lt_or_le q a with h | h <;> rcases lt_or_le b q with h2 | h2 <;>
          first
          | (exfalso; linarith)
          | simp [LuaNumber.lt, LuaNumber.le, std_max, std_min, h, h2, hab, not_lt.2, le_of_lt]

/-- C4, as stated, fails: a NaN argument is a number, and with the bounds 0 and 1 the result is
NaN, which does not lie between the bounds. -/
theorem luax_checknumberclamped_counterexample :
    luax_checknumberclamped { str2d := fun _ => none, fmtnum := fun _ => "" }
        { stack := [.number .nan], where1 := "" } 1 (.fin 0) (.fin 1) = .ok .nan ∧
    ¬ ((LuaNumber.fin 0).le .nan = true ∧ LuaNumber.nan.le (.fin 1) = true) := by
  constructor
  · rfl
  · simp [LuaNumber.le]

/-- C4, amended: for a number `x` at `idx` that is not NaN and bounds `minv <= maxv`,
`luax_checknumberclamped` returns `x` when `minv <= x <= maxv`, `minv` when `x < minv` and
`maxv` when `x > maxv`, so it returns without error a result within the bounds; a NaN is
returned as it is, whatever the bounds; with the bounds 0 and 1 the inputs -5, 0.5 and 5 give
0, 0.5 and 1; `luax_checknumberclamped01` agrees with `luax_checknumberclamped` with the bounds
0 and 1 on every stack. -/
theorem luax_checknumberclamped_spec (lib : LuaLib) (L : LuaState) (idx : Int) :
    (∀ x minv maxv, index2value L idx = some (.number x) → x ≠ .nan → minv.le maxv = true →
      (minv.le x = true → x.le maxv = true →
        luax_checknumberclamped lib L idx minv maxv = .ok x) ∧
      (x.lt minv = true → luax_checknumberclamped lib L idx minv maxv = .ok minv) ∧
      (maxv.lt x = true → luax_checknumberclamped lib L idx minv maxv = .ok maxv) ∧
      (∃ r, luax_checknumberclamped lib L idx minv maxv = .ok r ∧ minv.le r = true ∧
        r.le maxv = true)) ∧
    (∀ minv maxv, index2value L idx = some (.number .nan) →
      luax_checknumberclamped lib L idx minv maxv = .ok .nan) ∧
    (index2value L idx = some (.number (.fin (-5))) →
      luax_checknumberclamped lib L idx (.fin 0) (.fin 1) = .ok (.fin 0)) ∧
    (index2value L idx = some (.number (.fin (1 / 2))) →
      luax_checknumberclamped lib L idx (.fin 0) (.fin 1) = .ok (.fin (1 / 2))) ∧
    (index2value L idx = some (.number (.fin 5)) →
      luax_checknumberclamped lib L idx (.fin 0) (.fin 1) = .ok (.fin 1)) ∧
    luax_checknumberclamped01 lib L idx = luax_checknumberclamped lib L idx (.fin 0) (.fin 1) := by
  have key : ∀ x minv maxv, index2value L idx = some (.number x) →
      luax_checknumberclamped lib L idx minv maxv = .ok (std_min (std_max x minv) maxv) := by
    intro x minv maxv hx
    simp [luax_checknumberclamped, luaL_checknumber, lua_tonumber, hx]
  refine ⟨?_, ?_, ?_, ?_, ?_, rfl⟩
  · intro x minv maxv hx hnan hb
    obtain ⟨h1, h2, h3, h4, h5⟩ := clamp_cases x minv maxv hnan hb
    rw [key x minv maxv hx]
    exact ⟨fun a b => by rw [h1 a b], fun a => by rw [h2 a], fun a => by rw [h3 a],
      _, rfl, h4, h5⟩
  · intro minv maxv hx
    rw [key _ minv maxv hx]
    cases minv <;> cases maxv <;> simp [std_min, std_max, LuaNumber.lt]
  · intro hx
    rw [key _ _ _ hx, (clamp_cases (.fin (-5)) (.fin 0) (.fin 1) (by simp)
      (by norm_num [LuaNumber.le])).2.1 (by norm_num [LuaNumber.lt])]
  · intro hx
    rw [key _ _ _ hx, (clamp_cases (.fin (1 / 2)) (.fin 0) (.fin 1) (by simp)
      (by norm_num [LuaNumber.le])).1 (by norm_num [LuaNumber.le]) (by norm_num [LuaNumber.le])]
  · intro hx
    rw [key _ _ _ hx, (clamp_cases (.fin 5) (.fin 0) (.fin 1) (by simp)
      (by norm_num [LuaNumber.le])).2.2.1 (by norm_num [LuaNumber.lt])]

/-- C4, amended, at a concrete stack: the number 5 clamped between 0 and 1 is 1. -/
theorem luax_checknumberclamped_spec_witness :
    luax_checknumberclamped { str2d := fun _ => none, fmtnum := fun _ => "" }
        { stack := [.number (.fin 5)], where1 := "" } 1 (.fin 0) (.fin 1) = .ok (.fin 1) :=
  ((luax_checknumberclamped_spec { str2d := fun _ => none, fmtnum := fun _ => "" }
      { stack := [.number (.fin 5)], where1 := "" } 1).1 (.fin 5) (.fin 0) (.fin 1) rfl
      (by simp) (by simp [LuaNumber.le])).2.2.1 (by simp [LuaNumber.lt])

/-! ### The exception bridge -/

/-- The error raised by `luaL_error(L, "%s", m)` contains `m`. -/
theorem luaL_error_contains (L : LuaState) (m : String) : (luaL_error L m).contains m := by
  simp only [luaL_error, LuaError.contains, String.data_append]
  exact (List.suffix_append L.where1.data m.data).isInfix

/-- Pushing a string keeps the position prefix. -/
theorem lua_pushstring_where1 (L : LuaState) (m : String) :
    (lua_pushstring L m).where1 = L.where1 := rfl

/-- After `lua_pushstring(L, m)` the string at index -1 is `m`. -/
theorem lua_tostring_pushstring (lib : LuaLib) (L : LuaState) (m : String) :
    lua_tostring lib (lua_pushstring L m) (-1) = some m := by
  simp [lua_tostring, lua_pushstring, index2value]

/-- Reading the string on top of a stack that ends with a string leaves the state as it is. -/
theorem lua_tolstring_top_string (lib : LuaLib) (L L0 : LuaState) (m : String)
    (h : L.stack = (lua_pushstring L0 m).stack) : (lua_tolstring lib L (-1)).2 = L := by
  have hi : index2value L (-1) = some (.string m) := by
    simp [index2value, h, lua_pushstring]
  simp [lua_tolstring, hi]

/-- The string at index -1 depends on the stack only. -/
theorem lua_tostring_congr (lib : LuaLib) (L1 L2 : LuaState) (h : L1.stack = L2.stack)
    (idx : Int) : lua_tostring lib L1 idx = lua_tostring lib L2 idx := by
  simp [lua_tostring, index2value, h]

/-- C5, as stated, fails for the two-callback overload: when `func` throws "disk full" and
`finallyfunc` pushes the string "x", the script error raised carries the message "x", which does
not contain "disk full". -/
theorem luax_catchexcept_finally_counterexample :
    (luax_catchexcept_finally { str2d := fun _ => none, fmtnum := fun _ => "" }
        (fun w => .throw (.love "disk full") w)
        (fun _ w => .ret () { w with lua := lua_pushstring w.lua "x" })
        ({ lua := { stack := [], where1 := "" }, native := () } : World Unit)).2 =
      .raise (.error "x")
        { lua := { stack := [.string "disk full", .string "x"], where1 := "" }, native := () } ∧
    ¬ (LuaError.error "x").contains "disk full" := by
  constructor
  · rfl
  · intro h
    have hlen := List.IsInfix.length_le h
    simp at hlen

/-- C5, amended: when `func` throws an exception derived from `std::exception` with message
`m`, the one-callback `luax_catchexcept` ends by raising a script error whose message contains
`m` (the position prefix followed by `m`), and so does the two-callback overload provided
`finallyfunc` returns normally and leaves the Lua stack as it found it; when `func` returns
normally, the one-callback overload raises nothing and returns 0, and so does the two-callback
overload provided `finallyfunc` returns normally. -/
theorem luax_catchexcept_spec {H : Type} (lib : LuaLib) (func : World H → Outcome H Unit)
    (finallyfunc : Bool → World H → Outcome H Unit) (w : World H) :
    (∀ e m w1, func w = .throw e w1 → e.stdWhat = some m →
      (luax_catchexcept lib func w).2 =
          .raise (.error (w1.lua.where1 ++ m)) { w1 with lua := lua_pushstring w1.lua m } ∧
        (LuaError.error (w1.lua.where1 ++ m)).contains m) ∧
    (∀ u w1, func w = .ret u w1 → (luax_catchexcept lib func w).2 = .ret 0 w1) ∧
    (∀ e m w1 u w2, func w = .throw e w1 → e.stdWhat = some m →
      finallyfunc true { w1 with lua := lua_pushstring w1.lua m } = .ret u w2 →
      w2.lua.stack = (lua_pushstring w1.lua m).stack →
      (luax_catchexcept_finally lib func finallyfunc w).2 =
          .raise (.error (w2.lua.where1 ++ m)) w2 ∧
        (LuaError.error (w2.lua.where1 ++ m)).contains m) ∧
    (∀ u w1 u2 w2, func w = .ret u w1 → finallyfunc false w1 = .ret u2 w2 →
      (luax_catchexcept_finally lib func finallyfunc w).2 = .ret 0 w2) := by
  refine ⟨?_, ?_, ?_, ?_⟩
  · intro e m w1 hf hm
    refine ⟨?_, luaL_error_contains w1.lua m⟩
    simp [luax_catchexcept, try_func, hf, hm, lua_tostring_pushstring, fmt_s, luaL_error,
      lua_pushstring_where1]
  · intro u w1 hf
    simp [luax_catchexcept, try_func, hf]
  · intro e m w1 u w2 hf hm hfin hstack
    refine ⟨?_, luaL_error_contains w2.lua m⟩
    have htop : lua_tostring lib w2.lua (-1) = some m := by
      rw [lua_tostring_congr lib w2.lua (lua_pushstring w1.lua m) hstack,
        lua_tostring_pushstring]
    simp [luax_catchexcept_finally, try_func, hf, hm, hfin, htop, fmt_s, luaL_error,
      lua_tolstring_top_string lib w2.lua w1.lua m hstack]
  · intro u w1 u2 w2 hf hfin
    simp [luax_catchexcept_finally, try_func, hf, hfin]

/-- C5, amended, at a concrete call: `func` throws "disk full", `finallyfunc` does nothing, and
the script error raised is "main.lua:1: disk full". -/
theorem luax_catchexcept_spec_witness :
    (luax_catchexcept_finally { str2d := fun _ => none, fmtnum := fun _ => "" }
        (fun w => .throw (.love "disk full") w) (fun _ w => .ret () w)
        ({ lua := { stack := [], where1 := "main.lua:1: " }, native := () } : World Unit)).2 =
      .raise (.error ("main.lua:1: " ++ "disk full"))
        { lua := { stack := [.string "disk full"], where1 := "main.lua:1: " }, native := () } :=
  ((luax_catchexcept_spec { str2d := fun _ => none, fmtnum := fun _ => "" }
      (fun w => .throw (.love "disk full") w) (fun _ w => .ret () w)
      ({ lua := { stack := [], where1 := "main.lua:1: " }, native := () } : World Unit)).2.2.1
    (.love "disk full") "disk full" _ () _ rfl rfl rfl rfl).1

/-- C6: when `func` returns normally or throws an exception derived from `std::exception`, the
two-callback `luax_catchexcept` applies `finallyfunc` exactly once, to the state that `func`
(and the handler, when `func` threw) left, with the argument true iff `func` threw: the call
ends as that one application of `finallyfunc` ends, in the state it leaves, returning 0 or,
when `func` threw and `finallyfunc` returned, raising the script error read from that state.
In the log there is exactly one call of `finallyfunc`; it comes after the call of `func` (and
after the `catch` handler has been left, when `func` threw), and no call of `luaL_error` comes
before it. -/
theorem luax_catchexcept_finally_once {H : Type} (lib : LuaLib) (func : World H → Outcome H Unit)
    (finallyfunc : Bool → World H → Outcome H Unit) (w : World H)
    (hfunc : (∃ u w1, func w = .ret u w1) ∨
      (∃ e m w1, func w = .throw e w1 ∧ e.stdWhat = some m)) :
    (∀ u w1, func w = .ret u w1 →
      (luax_catchexcept_finally lib func finallyfunc w).2 =
        match finallyfunc false w1 with
        | .ret _ w2 => .ret 0 w2
        | .throw e w2 => .throw e w2
        | .raise e w2 => .raise e w2) ∧
    (∀ e m w1, func w = .throw e w1 → e.stdWhat = some m →
      (luax_catchexcept_finally lib func finallyfunc w).2 =
        match finallyfunc true { w1 with lua := lua_pushstring w1.lua m } with
        | .ret _ w2 =>
          .raise (luaL_error w2.lua (fmt_s (lua_tostring lib w2.lua (-1))))
            { w2 with lua := (lua_tolstring lib w2.lua (-1)).2 }
        | .throw e2 w2 => .throw e2 w2
        | .raise e2 w2 => .raise e2 w2) ∧
    ∃ pre post b,
      (luax_catchexcept_finally lib func finallyfunc w).1 = pre ++ [.call_finallyfunc b] ++ post ∧
      List.countP Event.isFinally (luax_catchexcept_finally lib func finallyfunc w).1 = 1 ∧
      Event.call_func ∈ pre ∧
      (∀ e ∈ pre, e.isErrorTransfer = false) ∧
      (∀ e ∈ post, e ≠ Event.call_func) ∧
      (b = true ↔ ∃ e w1, func w = .throw e w1) ∧
      (b = true → Event.catch_exit ∈ pre) := by
  refine ⟨?_, ?_, ?_⟩
  · intro u w1 hf
    rcases hfin : finallyfunc false w1 with ⟨u2, w2⟩ | ⟨e2, w2⟩ | ⟨e2, w2⟩ <;>
      simp [luax_catchexcept_finally, try_func, hf, hfin]
  · intro e m w1 hf hm
    rcases hfin : finallyfunc true { w1 with lua := lua_pushstring w1.lua m } with
      ⟨u2, w2⟩ | ⟨e2, w2⟩ | ⟨e2, w2⟩ <;>
      simp [luax_catchexcept_finally, try_func, hf, hm, hfin]
  rcases hfunc with ⟨u, w1, hf⟩ | ⟨e, m, w1, hf, hm⟩
  · refine ⟨[.call_func], [], false, ?_⟩
    rcases hfin : finallyfunc false w1 with ⟨u2, w2⟩ | ⟨e2, w2⟩ | ⟨e2, w2⟩ <;>
      simp [luax_catchexcept_finally, try_func, hf, hfin, Event.isFinally, Event.isErrorTransfer,
        List.countP_cons]
  · rcases hfin : finallyfunc true { w1 with lua := lua_pushstring w1.lua m } with
      ⟨u2, w2⟩ | ⟨e2, w2⟩ | ⟨e2, w2⟩
    · refine ⟨[.call_func, .catch_enter, .set_should_error, .pushstring m, .catch_exit],
        [.error_transfer (luaL_error w2.lua (fmt_s (lua_tostring lib w2.lua (-1))))], true, ?_⟩
      simp [luax_catchexcept_finally, try_func, hf, hm, hfin, Event.isFinally,
        Event.isErrorTransfer, List.countP_cons]
    · refine ⟨[.call_func, .catch_enter, .set_should_error, .pushstring m, .catch_exit],
        [], true, ?_⟩
      simp [luax_catchexcept_finally, try_func, hf, hm, hfin, Event.isFinally,
        Event.isErrorTransfer, List.countP_cons]
    · refine ⟨[.call_func, .catch_enter, .set_should_error, .pushstring m, .catch_exit],
        [], true, ?_⟩
      simp [luax_catchexcept_finally, try_func, hf, hm, hfin, Event.isFinally,
        Event.isErrorTransfer, List.countP_cons]

/-- C6, at a concrete call: the native state counts the calls of `finallyfunc`, adding 1 for the
argument false and 10 for the argument true; `func` throws "disk full", and the call ends by
the script error in the state where the count is 10: one call, with the argument true. -/
theorem luax_catchexcept_finally_once_witness :
    (luax_catchexcept_finally { str2d := fun _ => none, fmtnum := fun _ => "" }
        (fun w => .throw (.love "disk full") w)
        (fun b w => .ret () { w with native := w.native + (if b = true then 10 else 1) })
        ({ lua := { stack := [], where1 := "" }, native := 0 } : World Nat)).2 =
      .raise (.error "disk full")
        { lua := { stack := [.string "disk full"], where1 := "" }, native := 10 } :=
  ((luax_catchexcept_finally_once { str2d := fun _ => none, fmtnum := fun _ => "" }
    (fun w => .throw (.love "disk full") w)
    (fun b w => .ret () { w with native := w.native + (if b = true then 10 else 1) })
    ({ lua := { stack := [], where1 := "" }, native := 0 } : World Nat)
    (Or.inr ⟨.love "disk full", "disk full", _, rfl, rfl⟩)).2.1
    (.love "disk full") "disk full" _ rfl rfl).trans rfl

/-- With no instance registered and a constructor that does not throw, the instance is
constructed with a count of one. -/
theorem acquire_instance_none (lib : LuaLib) (t : ModuleType) (w : World Modules)
    (h : Module_getInstance w.native t = none) :
    acquire_instance lib t none w =
      .ret 0 { lua := w.lua,
               native := ({ w.native with objects := w.native.objects ++ [⟨t, 1⟩] },
                 some w.native.objects.length) } := by
  simp [acquire_instance, h, luax_catchexcept, try_func, new_module_lambda, Modules.construct]

/-- With an instance registered, nothing is constructed and the instance is retained once. -/
theorem acquire_instance_some (lib : LuaLib) (t : ModuleType) (ctor : Option CppException)
    (w : World Modules) (p : ObjPtr) (h : Module_getInstance w.native t = some p) :
    acquire_instance lib t ctor w =
      .ret 0 { lua := w.lua, native := (w.native.retain p, some p) } := by
  simp [acquire_instance, h]

/-- With a constructor that throws, nothing is constructed and nothing is registered. -/
theorem acquire_instance_throw (lib : LuaLib) (t : ModuleType) (e : CppException)
    (w : World Modules) (h : Module_getInstance w.native t = none) :
    (acquire_instance lib t (some e) w).world.native = (w.native, none) ∧
    ∀ r w1, acquire_instance lib t (some e) w ≠ .ret r w1 := by
  cases hm : e.stdWhat <;>
    simp [acquire_instance, h, luax_catchexcept, try_func, new_module_lambda, hm, Outcome.world]

/-- Repeating an open call that retains the registered instance adds one to its count each
time. -/
theorem open_calls_retain (f : World Modules → Outcome Modules Int) (t : ModuleType)
    (pre : List ModuleObject)
    (step : ∀ w k, w.native.objects = pre ++ [⟨t, k⟩] → w.native.instances t = some pre.length →
      ∃ r w1, f w = .ret r w1 ∧ w1.native.objects = pre ++ [⟨t, k + 1⟩] ∧
        w1.native.instances t = some pre.length) :
    ∀ n w k, w.native.objects = pre ++ [⟨t, k⟩] → w.native.instances t = some pre.length →
      ∃ w1, open_calls f n w = some w1 ∧ w1.native.objects = pre ++ [⟨t, k + n⟩] ∧
        w1.native.instances t = some pre.length := by
  intro n
  induction n with
  | zero => intro w k h1 h2; exact ⟨w, rfl, by simpa using h1, h2⟩
  | succ n ih =>
    intro w k h1 h2
    obtain ⟨r, w1, hf, h3, h4⟩ := step w k h1 h2
    obtain ⟨w2, hw2, h5, h6⟩ := ih w1 (k + 1) h3 h4
    refine ⟨w2, ?_, ?_, h6⟩
    · simp [open_calls, hf, hw2]
    · rw [h5]
      have : k + 1 + n = k + (n + 1) := by omega
      rw [this]

/-- The objects after the registered instance, the last one constructed, is retained. -/
theorem retain_last (m : Modules) (pre : List ModuleObject) (t : ModuleType) (k : Nat)
    (h : m.objects = pre ++ [⟨t, k⟩]) :
    (m.retain pre.length).objects = pre ++ [⟨t, k + 1⟩] := by
  simp [Modules.retain, h]

/-- What `luax_register_module` does to the native memory when handed a constructed object. -/
theorem luax_register_module_native (m : WrappedModule) (tbl : Nat) (w : World Modules)
    (p : ObjPtr) (ob : ModuleObject) (hm : m.module = some p)
    (hob : w.native.objects.get? p = some ob) :
    (luax_register_module m tbl w).2.native =
      { w.native with instances := Function.update w.native.instances ob.moduleType (some p) } := by
  simp only [luax_register_module, hm, hob]

/-- The last object of a list sits at the position given by the length of the others. -/
theorem get_last (pre : List ModuleObject) (ob : ModuleObject) :
    (pre ++ [ob]).get? pre.length = some ob := by
  simp

/-- An open call of the math module with its instance registered as the last object. -/
theorem luaopen_love_math_again (lib : LuaLib) (ctor : Option CppException) (tbl : Nat)
    (pre : List ModuleObject) (w : World Modules) (k : Nat)
    (h1 : w.native.objects = pre ++ [⟨.M_MATH, k⟩])
    (h2 : w.native.instances .M_MATH = some pre.length) :
    ∃ r w1, luaopen_love_math lib ctor tbl none w = .ret r w1 ∧
      w1.native.objects = pre ++ [⟨.M_MATH, k + 1⟩] ∧
      w1.native.instances .M_MATH = some pre.length := by
  have h3 := retain_last w.native pre .M_MATH k h1
  have heq : luaopen_love_math lib ctor tbl none w =
      .ret 1 (luax_register_module
        { module := some pre.length, name := "math", type := Module_type, functions := 11,
          types := 3 }
        tbl { lua := w.lua, native := w.native.retain pre.length }).2 := by
    simp only [luaopen_love_math, acquire_instance_some lib .M_MATH ctor w pre.length h2]
    rfl
  have h4 := luax_register_module_native
    { module := some pre.length, name := "math", type := Module_type, functions := 11, types := 3 }
    tbl { lua := w.lua, native := w.native.retain pre.length } pre.length _ rfl
    (by rw [h3]; exact get_last pre _)
  refine ⟨1, _, heq, ?_, ?_⟩
  · rw [h4]; exact h3
  · rw [h4]; simp

/-- An open call of the filesystem module with its instance registered as the last object. -/
theorem luaopen_love_filesystem_again (lib : LuaLib) (ctor : Option CppException) (tbl : Nat)
    (pre : List ModuleObject) (w : World Modules) (k : Nat)
    (h1 : w.native.objects = pre ++ [⟨.M_FILESYSTEM, k⟩])
    (h2 : w.native.instances .M_FILESYSTEM = some pre.length) :
    ∃ r w1, luaopen_love_filesystem lib ctor tbl w = .ret r w1 ∧
      w1.native.objects = pre ++ [⟨.M_FILESYSTEM, k + 1⟩] ∧
      w1.native.instances .M_FILESYSTEM = some pre.length := by
  have h3 := retain_last w.native pre .M_FILESYSTEM k h1
  have heq : luaopen_love_filesystem lib ctor tbl w =
      .ret 1 (luax_register_module
        { module := some pre.length, name := "filesystem", type := Filesystem_type, functions := 43,
          types := 3 }
        tbl { lua := w.lua, native := w.native.retain pre.length }).2 := by
    simp only [luaopen_love_filesystem, acquire_instance_some lib .M_FILESYSTEM ctor w pre.length h2]
    rfl
  have h4 := luax_register_module_native
    { module := some pre.length, name := "filesystem", type := Filesystem_type, functions := 43, types := 3 }
    tbl { lua := w.lua, native := w.native.retain pre.length } pre.length _ rfl
    (by rw [h3]; exact get_last pre _)
  refine ⟨1, _, heq, ?_, ?_⟩
  · rw [h4]; exact h3
  · rw [h4]; simp

/-- The registration constructs nothing and retains nothing: the objects are as before. -/
theorem luax_register_module_objects (m : WrappedModule) (tbl : Nat) (w : World Modules) :
    (luax_register_module m tbl w).2.native.objects = w.native.objects := by
  simp only [luax_register_module]
  split
  · rfl
  · split <;> rfl

/-- The first open call of the math module. -/
theorem luaopen_love_math_first (lib : LuaLib) (tbl : Nat) (w : World Modules)
    (h : Module_getInstance w.native .M_MATH = none) :
    ∃ r w1, luaopen_love_math lib none tbl none w = .ret r w1 ∧
      w1.native.objects = w.native.objects ++ [⟨.M_MATH, 1⟩] ∧
      w1.native.instances .M_MATH = some w.native.objects.length := by
  have h4 := luax_register_module_native
    { module := some w.native.objects.length, name := "math", type := Module_type,
      functions := 11, types := 3 }
    tbl { lua := w.lua, native := { w.native with objects := w.native.objects ++ [⟨.M_MATH, 1⟩] } }
    w.native.objects.length _ rfl (get_last w.native.objects _)
  have heq : luaopen_love_math lib none tbl none w =
      .ret 1 (luax_register_module
        { module := some w.native.objects.length, name := "math", type := Module_type,
          functions := 11, types := 3 }
        tbl { lua := w.lua,
              native := { w.native with objects := w.native.objects ++ [⟨.M_MATH, 1⟩] } }).2 := by
    simp only [luaopen_love_math, acquire_instance_none lib .M_MATH w h]
    rfl
  refine ⟨1, _, heq, ?_, ?_⟩
  · rw [h4]
  · rw [h4]; simp

/-- The first open call of the filesystem module. -/
theorem luaopen_love_filesystem_first (lib : LuaLib) (tbl : Nat) (w : World Modules)
    (h : Module_getInstance w.native .M_FILESYSTEM = none) :
    ∃ r w1, luaopen_love_filesystem lib none tbl w = .ret r w1 ∧
      w1.native.objects = w.native.objects ++ [⟨.M_FILESYSTEM, 1⟩] ∧
      w1.native.instances .M_FILESYSTEM = some w.native.objects.length := by
  have h4 := luax_register_module_native
    { module := some w.native.objects.length, name := "filesystem", type := Filesystem_type,
      functions := 43, types := 3 }
    tbl { lua := w.lua,
          native := { w.native with objects := w.native.objects ++ [⟨.M_FILESYSTEM, 1⟩] } }
    w.native.objects.length _ rfl (get_last w.native.objects _)
  have heq : luaopen_love_filesystem lib none tbl w =
      .ret 1 (luax_register_module
        { module := some w.native.objects.length, name := "filesystem", type := Filesystem_type,
          functions := 43, types := 3 }
        tbl { lua := w.lua,
              native :=
                { w.native with objects := w.native.objects ++ [⟨.M_FILESYSTEM, 1⟩] } }).2 := by
    simp only [luaopen_love_filesystem, acquire_instance_none lib .M_FILESYSTEM w h]
    rfl
  refine ⟨1, _, heq, ?_, ?_⟩
  · rw [h4]
  · rw [h4]; simp

/-- After a first open call that constructs the instance, `n` calls in all leave one more
object than before, with a count of `n`. -/
theorem open_calls_first (f : World Modules → Outcome Modules Int) (t : ModuleType)
    (w : World Modules)
    (first : ∃ r w1, f w = .ret r w1 ∧ w1.native.objects = w.native.objects ++ [⟨t, 1⟩] ∧
      w1.native.instances t = some w.native.objects.length)
    (step : ∀ (w2 : World Modules) k, w2.native.objects = w.native.objects ++ [⟨t, k⟩] →
      w2.native.instances t = some w.native.objects.length →
      ∃ r w1, f w2 = .ret r w1 ∧ w1.native.objects = w.native.objects ++ [⟨t, k + 1⟩] ∧
        w1.native.instances t = some w.native.objects.length)
    (n : Nat) (hn : 1 ≤ n) :
    ∃ w1, open_calls f n w = some w1 ∧ w1.native.objects = w.native.objects ++ [⟨t, n⟩] ∧
      w1.native.instances t = some w.native.objects.length := by
  obtain ⟨m, rfl⟩ : ∃ m, n = m + 1 := ⟨n - 1, by omega⟩
  obtain ⟨r, w1, hf, h1, h2⟩ := first
  obtain ⟨w2, hw2, h3, h4⟩ := open_calls_retain f t w.native.objects step m w1 1 h1 h2
  refine ⟨w2, ?_, ?_, h4⟩
  · simp [open_calls, hf, hw2]
  · rw [h3, Nat.add_comm]

/-- C8: starting with no instance registered, `n >= 1` successful open calls of the math
module (of the filesystem module) construct exactly one instance, registered as the module's
instance, whose reference count is `n`: one from its construction by the first call, one more
from each later call, none from the registration. A call made with an instance registered
constructs nothing, whatever the constructor would do, and adds exactly one to the count of that
instance. A call made with no instance registered whose constructor throws constructs nothing
and does not return. -/
theorem luaopen_module_once (lib : LuaLib) (tbl : Nat) (w : World Modules) :
    (∀ n, 1 ≤ n → Module_getInstance w.native .M_MATH = none →
      ∃ w1, open_calls (luaopen_love_math lib none tbl none) n w = some w1 ∧
        w1.native.objects = w.native.objects ++ [⟨.M_MATH, n⟩] ∧
        Module_getInstance w1.native .M_MATH = some w.native.objects.length) ∧
    (∀ n, 1 ≤ n → Module_getInstance w.native .M_FILESYSTEM = none →
      ∃ w1, open_calls (luaopen_love_filesystem lib none tbl) n w = some w1 ∧
        w1.native.objects = w.native.objects ++ [⟨.M_FILESYSTEM, n⟩] ∧
        Module_getInstance w1.native .M_FILESYSTEM = some w.native.objects.length) ∧
    (∀ ctor chunk p ob, Module_getInstance w.native .M_MATH = some p →
      w.native.objects.get? p = some ob →
      (luaopen_love_math lib ctor tbl chunk w).world.native.objects =
        w.native.objects.set p { ob with count := ob.count + 1 }) ∧
    (∀ ctor p ob, Module_getInstance w.native .M_FILESYSTEM = some p →
      w.native.objects.get? p = some ob →
      (luaopen_love_filesystem lib ctor tbl w).world.native.objects =
        w.native.objects.set p { ob with count := ob.count + 1 }) ∧
    (∀ e chunk, Module_getInstance w.native .M_MATH = none →
      (luaopen_love_math lib (some e) tbl chunk w).world.native.objects = w.native.objects ∧
      ∀ r w1, luaopen_love_math lib (some e) tbl chunk w ≠ .ret r w1) ∧
    (∀ e, Module_getInstance w.native .M_FILESYSTEM = none →
      (luaopen_love_filesystem lib (some e) tbl w).world.native.objects = w.native.objects ∧
      ∀ r w1, luaopen_love_filesystem lib (some e) tbl w ≠ .ret r w1) := by
  refine ⟨?_, ?_, ?_, ?_, ?_, ?_⟩
  · intro n hn h
    exact open_calls_first _ .M_MATH w (luaopen_love_math_first lib tbl w h)
      (fun w2 k a b => luaopen_love_math_again lib none tbl w.native.objects w2 k a b) n hn
  · intro n hn h
    exact open_calls_first _ .M_FILESYSTEM w (luaopen_love_filesystem_first lib tbl w h)
      (fun w2 k a b => luaopen_love_filesystem_again lib none tbl w.native.objects w2 k a b) n hn
  · intro ctor chunk p ob h hob
    have hob2 : w.native.objects[p]? = some ob := by simpa using hob
    simp only [luaopen_love_math, acquire_instance_some lib .M_MATH ctor w p h]
    cases chunk <;>
      simp [Outcome.world, luax_register_module_objects, Modules.retain, hob2]
  · intro ctor p ob h hob
    have hob2 : w.native.objects[p]? = some ob := by simpa using hob
    simp only [luaopen_love_filesystem, acquire_instance_some lib .M_FILESYSTEM ctor w p h]
    simp [Outcome.world, luax_register_module_objects, Modules.retain, hob2]
  · intro e chunk h
    obtain ⟨h1, h2⟩ := acquire_instance_throw lib .M_MATH e w h
    unfold luaopen_love_math
    rcases hq : acquire_instance lib .M_MATH (some e) w with ⟨r, w1⟩ | ⟨e1, w1⟩ | ⟨e1, w1⟩
    · exact absurd hq (h2 r w1)
    · rw [hq] at h1
      simp only [Outcome.world] at h1
      simp [Outcome.world, h1]
    · rw [hq] at h1
      simp only [Outcome.world] at h1
      simp [Outcome.world, h1]
  · intro e h
    obtain ⟨h1, h2⟩ := acquire_instance_throw lib .M_FILESYSTEM e w h
    unfold luaopen_love_filesystem
    rcases hq : acquire_instance lib .M_FILESYSTEM (some e) w with ⟨r, w1⟩ | ⟨e1, w1⟩ | ⟨e1, w1⟩
    · exact absurd hq (h2 r w1)
    · rw [hq] at h1
      simp only [Outcome.world] at h1
      simp [Outcome.world, h1]
    · rw [hq] at h1
      simp only [Outcome.world] at h1
      simp [Outcome.world, h1]

/-- C8, at a concrete state: with no module constructed, two open calls of the math module
leave a single instance, with a count of two. -/
theorem luaopen_module_once_witness :
    ∃ w1, open_calls (luaopen_love_math { str2d := fun _ => none, fmtnum := fun _ => "" } none 0
        none) 2
        { lua := { stack := [], where1 := "" },
          native := { objects := [], instances := fun _ => none } } = some w1 ∧
      w1.native.objects = [] ++ [⟨.M_MATH, 2⟩] ∧
      Module_getInstance w1.native .M_MATH = some 0 :=
  (luaopen_module_once { str2d := fun _ => none, fmtnum := fun _ => "" } 0
    { lua := { stack := [], where1 := "" },
      native := { objects := [], instances := fun _ => none } }).1 2 (by decide) rfl

/-! ### The object registry -/

/-- Pushing a handle does not change what the registry finds. -/
theorem find_push (s : ObjectRegistry) (o : ObjPtr) (st : List Nat) :
    ({ s with stack := st } : ObjectRegistry).find o = s.find o := rfl

/-- A call that finds a live Proxy pushes its handle and changes nothing else. -/
theorem luax_pushtype_found (s : ObjectRegistry) (type : LoveType) (o : ObjPtr) (h : Nat)
    (hf : s.find o = some h) :
    luax_pushtype s type (some o) = some { s with stack := s.stack ++ [h] } := by
  simp [luax_pushtype, hf]

/-- Repeated calls that find a live Proxy push its handle each time and change nothing else. -/
theorem push_calls_found (type : LoveType) (o : ObjPtr) (h : Nat) :
    ∀ n (s : ObjectRegistry), s.find o = some h →
      push_calls type (some o) n s = some { s with stack := s.stack ++ List.replicate n h } := by
  intro n
  induction n with
  | zero => intro s _; simp [push_calls]
  | succ n ih =>
    intro s hf
    have h2 : ({ s with stack := s.stack ++ [h] } : ObjectRegistry).find o = some h := hf
    simp only [push_calls, luax_pushtype_found s type o h hf, ih _ h2]
    simp [List.replicate_succ]

/-- A call that finds no live Proxy creates one, retains the object once and registers the
Proxy, which the registry finds from then on. -/
theorem luax_pushtype_absent (s : ObjectRegistry) (type : LoveType) (o : ObjPtr)
    (hf : s.find o = none) :
    ∃ s1, luax_pushtype s type (some o) = some s1 ∧
      s1.proxies = s.proxies ++ [some { type := some type, object := some o }] ∧
      s1.refcount o = s.refcount o + 1 ∧
      (∀ o2, o2 ≠ o → s1.refcount o2 = s.refcount o2) ∧
      s1.find o = some s.proxies.length ∧
      s1.stack = s.stack ++ [s.proxies.length] := by
  refine ⟨{ refcount := Function.update s.refcount o (s.refcount o + 1),
            proxies := s.proxies ++ [some { type := some type, object := some o }],
            registry := (o, s.proxies.length) :: s.registry.filter (fun e => decide (e.1 ≠ o)),
            stack := s.stack ++ [s.proxies.length] }, ?_, rfl, ?_, ?_, ?_, rfl⟩
  · simp only [luax_pushtype, hf]
  · simp
  · intro o2 h2
    simp [Function.update, h2]
  · simp [ObjectRegistry.find, List.find?]

/-- C9: for every registry state, type and object `o`: a call of `luax_pushtype` that finds no
live Proxy for `o` creates one Proxy (for this type and object), retains `o` once, leaving the
other counts alone, stores the Proxy in the registry and pushes it; a call that finds a live
Proxy pushes that Proxy and changes nothing else; hence `n >= 1` calls in a row push `n` times
the same handle, and in all create at most one Proxy and retain `o` at most once, namely when
no live Proxy was registered before the first call. -/
theorem luax_pushtype_identity (s : ObjectRegistry) (type : LoveType) (o : ObjPtr) :
    (s.find o = none →
      ∃ s1, luax_pushtype s type (some o) = some s1 ∧
        s1.proxies = s.proxies ++ [some { type := some type, object := some o }] ∧
        s1.refcount o = s.refcount o + 1 ∧
        (∀ o2, o2 ≠ o → s1.refcount o2 = s.refcount o2) ∧
        s1.find o = some s.proxies.length ∧
        s1.stack = s.stack ++ [s.proxies.length]) ∧
    (∀ h, s.find o = some h →
      luax_pushtype s type (some o) = some { s with stack := s.stack ++ [h] }) ∧
    (∀ n, 1 ≤ n →
      ∃ h sn, push_calls type (some o) n s = some sn ∧
        sn.stack = s.stack ++ List.replicate n h ∧
        sn.find o = some h ∧
        ((s.find o = some h ∧ sn.proxies = s.proxies ∧ sn.refcount = s.refcount) ∨
          (s.find o = none ∧ h = s.proxies.length ∧
            sn.proxies = s.proxies ++ [some { type := some type, object := some o }] ∧
            sn.refcount o = s.refcount o + 1 ∧
            ∀ o2, o2 ≠ o → sn.refcount o2 = s.refcount o2))) := by
  refine ⟨luax_pushtype_absent s type o, luax_pushtype_found s type o, ?_⟩
  intro n hn
  cases hf : s.find o with
  | some h =>
    exact ⟨h, _, push_calls_found type o h n s hf, rfl, hf, Or.inl ⟨rfl, rfl, rfl⟩⟩
  | none =>
    obtain ⟨m, rfl⟩ : ∃ m, n = m + 1 := ⟨n - 1, by omega⟩
    obtain ⟨s1, h1, h2, h3, h4, h5, h6⟩ := luax_pushtype_absent s type o hf
    refine ⟨s.proxies.length, { s1 with stack := s1.stack ++ List.replicate m s.proxies.length },
      ?_, ?_, h5, Or.inr ⟨rfl, rfl, h2, h3, h4⟩⟩
    · simp only [push_calls, h1, push_calls_found type o s.proxies.length m s1 h5]
    · simp [h6, List.replicate_succ]

/-- C9, at a concrete state: three calls for object 5 from an empty registry push three times
the handle of the one Proxy created by the first call. -/
theorem luax_pushtype_identity_witness :
    ∃ h sn, push_calls (.root "Object") (some 5) 3
        { refcount := fun _ => 1, proxies := [], registry := [], stack := [] } = some sn ∧
      sn.stack = [] ++ List.replicate 3 h ∧
      sn.find 5 = some h ∧
      (((ObjectRegistry.mk (fun _ => 1) [] [] []).find 5 = some h ∧ sn.proxies = [] ∧
          sn.refcount = fun _ => 1) ∨
        ((ObjectRegistry.mk (fun _ => 1) [] [] []).find 5 = none ∧ h = 0 ∧
          sn.proxies = [] ++ [some { type := some (.root "Object"), object := some 5 }] ∧
          sn.refcount 5 = 1 + 1 ∧
          ∀ o2, o2 ≠ 5 → sn.refcount o2 = 1)) :=
  (luax_pushtype_identity { refcount := fun _ => 1, proxies := [], registry := [], stack := [] }
    (.root "Object") 5).2.2 3 (by decide)

/-! ### The RevoluteJoint wrappers -/

/-- The wrapper `getJointAngle` keeps the calling convention of a getter. -/
theorem w_RevoluteJoint_getJointAngle_contract {H : Type} (api : RevoluteJointApi H) (w : World H) :
    WrapperContract api 1 (w_RevoluteJoint_getJointAngle api) w := by
  unfold WrapperContract w_RevoluteJoint_getJointAngle
  rcases hc : luax_checkrevolutejoint api w 1 with e | t
  · simp
  · simp only [reduceCtorEq, false_implies, implies_true, ne_eq, not_false_eq_true, true_and]
    intro n w1 h
    cases h
    exact ⟨⟨t, rfl⟩, rfl, [_], rfl, rfl⟩

/-- The wrapper `getJointSpeed` keeps the calling convention of a getter. -/
theorem w_RevoluteJoint_getJointSpeed_contract {H : Type} (api : RevoluteJointApi H) (w : World H) :
    WrapperContract api 1 (w_RevoluteJoint_getJointSpeed api) w := by
  unfold WrapperContract w_RevoluteJoint_getJointSpeed
  rcases hc : luax_checkrevolutejoint api w 1 with e | t
  · simp
  · simp only [reduceCtorEq, false_implies, implies_true, ne_eq, not_false_eq_true, true_and]
    intro n w1 h
    cases h
    exact ⟨⟨t, rfl⟩, rfl, [_], rfl, rfl⟩

/-- The wrapper `getMotorSpeed` keeps the calling convention of a getter. -/
theorem w_RevoluteJoint_getMotorSpeed_contract {H : Type} (api : RevoluteJointApi H) (w : World H) :
    WrapperContract api 1 (w_RevoluteJoint_getMotorSpeed api) w := by
  unfold WrapperContract w_RevoluteJoint_getMotorSpeed
  rcases hc : luax_checkrevolutejoint api w 1 with e | t
  · simp
  · simp only [reduceCtorEq, false_implies, implies_true, ne_eq, not_false_eq_true, true_and]
    intro n w1 h
    cases h
    exact ⟨⟨t, rfl⟩, rfl, [_], rfl, rfl⟩

/-- The wrapper `getMaxMotorTorque` keeps the calling convention of a getter. -/
theorem w_RevoluteJoint_getMaxMotorTorque_contract {H : Type} (api : RevoluteJointApi H) (w : World H) :
    WrapperContract api 1 (w_RevoluteJoint_getMaxMotorTorque api) w := by
  unfold WrapperContract w_RevoluteJoint_getMaxMotorTorque
  rcases hc : luax_checkrevolutejoint api w 1 with e | t
  · simp
  · simp only [reduceCtorEq, false_implies, implies_true, ne_eq, not_false_eq_true, true_and]
    intro n w1 h
    cases h
    exact ⟨⟨t, rfl⟩, rfl, [_], rfl, rfl⟩

/-- The wrapper `getLowerLimit` keeps the calling convention of a getter. -/
theorem w_RevoluteJoint_getLowerLimit_contract {H : Type} (api : RevoluteJointApi H) (w : World H) :
    WrapperContract api 1 (w_RevoluteJoint_getLowerLimit api) w := by
  unfold WrapperContract w_RevoluteJoint_getLowerLimit
  rcases hc : luax_checkrevolutejoint api w 1 with e | t
  · simp
  · simp only [reduceCtorEq, false_implies, implies_true, ne_eq, not_false_eq_true, true_and]
    intro n w1 h
    cases h
    exact ⟨⟨t, rfl⟩, rfl, [_], rfl, rfl⟩

/-- The wrapper `getUpperLimit` keeps the calling convention of a getter. -/
theorem w_RevoluteJoint_getUpperLimit_contract {H : Type} (api : RevoluteJointApi H) (w : World H) :
    WrapperContract api 1 (w_RevoluteJoint_getUpperLimit api) w := by
  unfold WrapperContract w_RevoluteJoint_getUpperLimit
  rcases hc : luax_checkrevolutejoint api w 1 with e | t
  · simp
  · simp only [reduceCtorEq, false_implies, implies_true, ne_eq, not_false_eq_true, true_and]
    intro n w1 h
    cases h
    exact ⟨⟨t, rfl⟩, rfl, [_], rfl, rfl⟩

/-- The wrapper `getReferenceAngle` keeps the calling convention of a getter. -/
theorem w_RevoluteJoint_getReferenceAngle_contract {H : Type} (api : RevoluteJointApi H) (w : World H) :
    WrapperContract api 1 (w_RevoluteJoint_getReferenceAngle api) w := by
  unfold WrapperContract w_RevoluteJoint_getReferenceAngle
  rcases hc : luax_checkrevolutejoint api w 1 with e | t
  · simp
  · simp only [reduceCtorEq, false_implies, implies_true, ne_eq, not_false_eq_true, true_and]
    intro n w1 h
    cases h
    exact ⟨⟨t, rfl⟩, rfl, [_], rfl, rfl⟩

/-- The wrapper `isMotorEnabled` keeps the calling convention of a getter. -/
theorem w_RevoluteJoint_isMotorEnabled_contract {H : Type} (api : RevoluteJointApi H) (w : World H) :
    WrapperContract api 1 (w_RevoluteJoint_isMotorEnabled api) w := by
  unfold WrapperContract w_RevoluteJoint_isMotorEnabled
  rcases hc : luax_checkrevolutejoint api w 1 with e | t
  · simp
  · simp only [reduceCtorEq, false_implies, implies_true, ne_eq, not_false_eq_true, true_and]
    intro n w1 h
    cases h
    exact ⟨⟨t, rfl⟩, rfl, [_], rfl, rfl⟩

/-- The wrapper `areLimitsEnabled` keeps the calling convention of a getter. -/
theorem w_RevoluteJoint_areLimitsEnabled_contract {H : Type} (api : RevoluteJointApi H) (w : World H) :
    WrapperContract api 1 (w_RevoluteJoint_areLimitsEnabled api) w := by
  unfold WrapperContract w_RevoluteJoint_areLimitsEnabled
  rcases hc : luax_checkrevolutejoint api w 1 with e | t
  · simp
  · simp only [reduceCtorEq, false_implies, implies_true, ne_eq, not_false_eq_true, true_and]
    intro n w1 h
    cases h
    exact ⟨⟨t, rfl⟩, rfl, [_], rfl, rfl⟩

/-- The wrapper `getMotorTorque` keeps the calling convention of a getter. -/
theorem w_RevoluteJoint_getMotorTorque_contract {H : Type} (lib : LuaLib)
    (api : RevoluteJointApi H) (w : World H) :
    WrapperContract api 1 (w_RevoluteJoint_getMotorTorque lib api) w := by
  unfold WrapperContract w_RevoluteJoint_getMotorTorque
  rcases hc : luax_checkrevolutejoint api w 1 with e | t
  · simp
  · rcases hn : luaL_checknumber lib w.lua 2 with e2 | d
    · simp
    · simp only [reduceCtorEq, false_implies, implies_true, ne_eq, not_false_eq_true, true_and]
      intro n w1 h
      cases h
      exact ⟨⟨t, rfl⟩, rfl, [_], rfl, rfl⟩

/-- The wrapper `setMotorEnabled` keeps the calling convention of a setter. -/
theorem w_RevoluteJoint_setMotorEnabled_contract {H : Type} (api : RevoluteJointApi H) (w : World H) :
    WrapperContract api 0 (w_RevoluteJoint_setMotorEnabled api) w := by
  unfold WrapperContract w_RevoluteJoint_setMotorEnabled
  rcases hc : luax_checkrevolutejoint api w 1 with e | t
  · simp
  · rcases hn : luax_checkboolean w.lua 2 with e2 | b
    · simp
    · simp only [reduceCtorEq, false_implies, implies_true, ne_eq, not_false_eq_true, true_and]
      intro n w1 h
      cases h
      exact ⟨⟨t, rfl⟩, rfl, [], rfl, by simp⟩

/-- The wrapper `setLimitsEnabled` keeps the calling convention of a setter. -/
theorem w_RevoluteJoint_setLimitsEnabled_contract {H : Type} (api : RevoluteJointApi H) (w : World H) :
    WrapperContract api 0 (w_RevoluteJoint_setLimitsEnabled api) w := by
  unfold WrapperContract w_RevoluteJoint_setLimitsEnabled
  rcases hc : luax_checkrevolutejoint api w 1 with e | t
  · simp
  · rcases hn : luax_checkboolean w.lua 2 with e2 | b
    · simp
    · simp only [reduceCtorEq, false_implies, implies_true, ne_eq, not_false_eq_true, true_and]
      intro n w1 h
      cases h
      exact ⟨⟨t, rfl⟩, rfl, [], rfl, by simp⟩

/-- The wrapper `setMaxMotorTorque` keeps the calling convention of a setter. -/
theorem w_RevoluteJoint_setMaxMotorTorque_contract {H : Type} (lib : LuaLib) (api : RevoluteJointApi H)
    (w : World H) : WrapperContract api 0 (w_RevoluteJoint_setMaxMotorTorque lib api) w := by
  unfold WrapperContract w_RevoluteJoint_setMaxMotorTorque
  rcases hc : luax_checkrevolutejoint api w 1 with e | t
  · simp
  · rcases hn : luaL_checknumber lib w.lua 2 with e2 | d
    · simp
    · simp only [reduceCtorEq, false_implies, implies_true, ne_eq, not_false_eq_true, true_and]
      intro n w1 h
      cases h
      exact ⟨⟨t, rfl⟩, rfl, [], rfl, by simp⟩

/-- The wrapper `setMotorSpeed` keeps the calling convention of a setter. -/
theorem w_RevoluteJoint_setMotorSpeed_contract {H : Type} (lib : LuaLib) (api : RevoluteJointApi H)
    (w : World H) : WrapperContract api 0 (w_RevoluteJoint_setMotorSpeed lib api) w := by
  unfold WrapperContract w_RevoluteJoint_setMotorSpeed
  rcases hc : luax_checkrevolutejoint api w 1 with e | t
  · simp
  · rcases hn : luaL_checknumber lib w.lua 2 with e2 | d
    · simp
    · simp only [reduceCtorEq, false_implies, implies_true, ne_eq, not_false_eq_true, true_and]
      intro n w1 h
      cases h
      exact ⟨⟨t, rfl⟩, rfl, [], rfl, by simp⟩

/-- A native call run under `luax_catchexcept`: it returns 0 with the stack untouched when the
call succeeds, and raises the script error carrying the message when the call throws. -/
theorem luax_catchexcept_native_call {H : Type} (lib : LuaLib) (r : H → Except String H)
    (w : World H) :
    (∀ h, r w.native = .ok h →
      (luax_catchexcept lib (native_call r) w).2 = .ret 0 { w with native := h }) ∧
    (∀ m, r w.native = .error m →
      (luax_catchexcept lib (native_call r) w).2 =
        .raise (.error (w.lua.where1 ++ m)) { w with lua := lua_pushstring w.lua m }) := by
  constructor
  · intro h hr
    simp [luax_catchexcept, try_func, native_call, hr]
  · intro m hr
    simp [luax_catchexcept, try_func, native_call, hr, CppException.stdWhat,
      lua_tostring_pushstring, fmt_s, luaL_error, lua_pushstring_where1]

/-- The wrapper `setUpperLimit` keeps the calling convention of a setter. -/
theorem w_RevoluteJoint_setUpperLimit_contract {H : Type} (lib : LuaLib) (api : RevoluteJointApi H)
    (w : World H) : WrapperContract api 0 (w_RevoluteJoint_setUpperLimit lib api) w := by
  unfold WrapperContract w_RevoluteJoint_setUpperLimit
  rcases hc : luax_checkrevolutejoint api w 1 with e | t
  · simp
  · rcases hn : luaL_checknumber lib w.lua 2 with e2 | d
    · simp
    · obtain ⟨h1, h2⟩ :=
        luax_catchexcept_native_call lib (fun h => api.setUpperLimit h t (api.toFloat d)) w
      rcases hr : api.setUpperLimit w.native t (api.toFloat d) with m | h
      · simp [h2 m hr]
      · simp only [h1 h hr, reduceCtorEq, false_implies, implies_true, ne_eq,
          not_false_eq_true, true_and]
        intro n w1 hh
        cases hh
        exact ⟨⟨t, rfl⟩, rfl, [], rfl, by simp⟩

/-- The wrapper `setLowerLimit` keeps the calling convention of a setter. -/
theorem w_RevoluteJoint_setLowerLimit_contract {H : Type} (lib : LuaLib) (api : RevoluteJointApi H)
    (w : World H) : WrapperContract api 0 (w_RevoluteJoint_setLowerLimit lib api) w := by
  unfold WrapperContract w_RevoluteJoint_setLowerLimit
  rcases hc : luax_checkrevolutejoint api w 1 with e | t
  · simp
  · rcases hn : luaL_checknumber lib w.lua 2 with e2 | d
    · simp
    · obtain ⟨h1, h2⟩ :=
        luax_catchexcept_native_call lib (fun h => api.setLowerLimit h t (api.toFloat d)) w
      rcases hr : api.setLowerLimit w.native t (api.toFloat d) with m | h
      · simp [h2 m hr]
      · simp only [h1 h hr, reduceCtorEq, false_implies, implies_true, ne_eq,
          not_false_eq_true, true_and]
        intro n w1 hh
        cases hh
        exact ⟨⟨t, rfl⟩, rfl, [], rfl, by simp⟩

/-- The wrapper `setLimits` keeps the calling convention of a setter. -/
theorem w_RevoluteJoint_setLimits_contract {H : Type} (lib : LuaLib) (api : RevoluteJointApi H)
    (w : World H) : WrapperContract api 0 (w_RevoluteJoint_setLimits lib api) w := by
  unfold WrapperContract w_RevoluteJoint_setLimits
  rcases hc : luax_checkrevolutejoint api w 1 with e | t
  · simp
  · rcases hn : luaL_checknumber lib w.lua 2 with e2 | d1
    · simp
    · rcases hn2 : luaL_checknumber lib w.lua 3 with e3 | d2
      · simp
      · obtain ⟨h1, h2⟩ := luax_catchexcept_native_call lib
          (fun h => api.setLimits h t (api.toFloat d1) (api.toFloat d2)) w
        rcases hr : api.setLimits w.native t (api.toFloat d1) (api.toFloat d2) with m | h
        · simp [h2 m hr]
        · simp only [h1 h hr, reduceCtorEq, false_implies, implies_true, ne_eq,
            not_false_eq_true, true_and]
          intro n w1 hh
          cases hh
          exact ⟨⟨t, rfl⟩, rfl, [], rfl, by simp⟩

/-- The calling convention of a getter, spelled out. -/
theorem contract_getter {H : Type} (api : RevoluteJointApi H) (name : String)
    (f : World H → Outcome H Int) (w : World H) (hn : name ∉ RevoluteJoint_setters)
    (h : WrapperContract api 1 f w) :
    (∀ e, luax_checkrevolutejoint api w 1 = .error e → f w = .raise e w) ∧
    (∀ e w1, f w ≠ .throw e w1) ∧
    (∀ n w1, f w = .ret n w1 →
      (∃ t, luax_checkrevolutejoint api w 1 = .ok t) ∧
      (name ∈ RevoluteJoint_setters → n = 0 ∧ w1.lua.stack = w.lua.stack) ∧
      (name ∉ RevoluteJoint_setters → n = 1 ∧ ∃ v, w1.lua.stack = w.lua.stack ++ [v])) := by
  refine ⟨h.1, h.2.1, ?_⟩
  intro n w1 hf
  obtain ⟨h1, h2, vs, h3, h4⟩ := h.2.2 n w1 hf
  refine ⟨h1, fun hs => absurd hs hn, fun _ => ⟨by simpa using h2, ?_⟩⟩
  match vs, h3 with
  | [v], _ => exact ⟨v, h4⟩

/-- The calling convention of a setter, spelled out. -/
theorem contract_setter {H : Type} (api : RevoluteJointApi H) (name : String)
    (f : World H → Outcome H Int) (w : World H) (hn : name ∈ RevoluteJoint_setters)
    (h : WrapperContract api 0 f w) :
    (∀ e, luax_checkrevolutejoint api w 1 = .error e → f w = .raise e w) ∧
    (∀ e w1, f w ≠ .throw e w1) ∧
    (∀ n w1, f w = .ret n w1 →
      (∃ t, luax_checkrevolutejoint api w 1 = .ok t) ∧
      (name ∈ RevoluteJoint_setters → n = 0 ∧ w1.lua.stack = w.lua.stack) ∧
      (name ∉ RevoluteJoint_setters → n = 1 ∧ ∃ v, w1.lua.stack = w.lua.stack ++ [v])) := by
  refine ⟨h.1, h.2.1, ?_⟩
  intro n w1 hf
  obtain ⟨h1, h2, vs, h3, h4⟩ := h.2.2 n w1 hf
  refine ⟨h1, fun _ => ⟨by simpa using h2, ?_⟩, fun hs => absurd hn hs⟩
  match vs, h3 with
  | [], _ => simpa using h4

/-- Every wrapper of the table but `getLimits` keeps the calling convention. -/
theorem w_RevoluteJoint_functions_contract {H : Type} (lib : LuaLib) (api : RevoluteJointApi H)
    (w : World H) (name : String) (f : World H → Outcome H Int)
    (hmem : (name, f) ∈ w_RevoluteJoint_functions lib api) (hname : name ≠ "getLimits") :
    (∀ e, luax_checkrevolutejoint api w 1 = .error e → f w = .raise e w) ∧
    (∀ e w1, f w ≠ .throw e w1) ∧
    (∀ n w1, f w = .ret n w1 →
      (∃ t, luax_checkrevolutejoint api w 1 = .ok t) ∧
      (name ∈ RevoluteJoint_setters → n = 0 ∧ w1.lua.stack = w.lua.stack) ∧
      (name ∉ RevoluteJoint_setters → n = 1 ∧ ∃ v, w1.lua.stack = w.lua.stack ++ [v])) := by
  have all : ∀ p ∈ w_RevoluteJoint_functions lib api, p.1 ≠ "getLimits" →
      (∀ e, luax_checkrevolutejoint api w 1 = .error e → p.2 w = .raise e w) ∧
      (∀ e w1, p.2 w ≠ .throw e w1) ∧
      (∀ n w1, p.2 w = .ret n w1 →
        (∃ t, luax_checkrevolutejoint api w 1 = .ok t) ∧
        (p.1 ∈ RevoluteJoint_setters → n = 0 ∧ w1.lua.stack = w.lua.stack) ∧
        (p.1 ∉ RevoluteJoint_setters → n = 1 ∧ ∃ v, w1.lua.stack = w.lua.stack ++ [v])) := by
    simp only [w_RevoluteJoint_functions, List.forall_mem_cons]
    exact ⟨fun _ => contract_getter api _ _ w (by decide) (w_RevoluteJoint_getJointAngle_contract api w),
      fun _ => contract_getter api _ _ w (by decide) (w_RevoluteJoint_getJointSpeed_contract api w),
      fun _ => contract_setter api _ _ w (by decide) (w_RevoluteJoint_setMotorEnabled_contract api w),
      fun _ => contract_getter api _ _ w (by decide) (w_RevoluteJoint_isMotorEnabled_contract api w),
      fun _ => contract_setter api _ _ w (by decide) (w_RevoluteJoint_setMaxMotorTorque_contract lib api w),
      fun _ => contract_setter api _ _ w (by decide) (w_RevoluteJoint_setMotorSpeed_contract lib api w),
      fun _ => contract_getter api _ _ w (by decide) (w_RevoluteJoint_getMotorSpeed_contract api w),
      fun _ => contract_getter api _ _ w (by decide) (w_RevoluteJoint_getMotorTorque_contract lib api w),
      fun _ => contract_getter api _ _ w (by decide) (w_RevoluteJoint_getMaxMotorTorque_contract api w),
      fun _ => contract_setter api _ _ w (by decide) (w_RevoluteJoint_setLimitsEnabled_contract api w),
      fun _ => contract_getter api _ _ w (by decide) (w_RevoluteJoint_areLimitsEnabled_contract api w),
      fun _ => contract_setter api _ _ w (by decide) (w_RevoluteJoint_setUpperLimit_contract lib api w),
      fun _ => contract_setter api _ _ w (by decide) (w_RevoluteJoint_setLowerLimit_contract lib api w),
      fun _ => contract_setter api _ _ w (by decide) (w_RevoluteJoint_setLimits_contract lib api w),
      fun _ => contract_getter api _ _ w (by decide) (w_RevoluteJoint_getLowerLimit_contract api w),
      fun _ => contract_getter api _ _ w (by decide) (w_RevoluteJoint_getUpperLimit_contract api w),
      fun hne => absurd rfl hne,
      fun _ => contract_getter api _ _ w (by decide) (w_RevoluteJoint_getReferenceAngle_contract api w),
      fun _ hnil => absurd hnil (List.not_mem_nil _)⟩
  exact all (name, f) hmem hname

/-- Every wrapper of the table but `getLimits`, on a joint that passes the check: the first
failing check of another argument is raised as it is; when all pass, a getter returns 1 with
one value pushed, a setter returns 0 with the stack as it was, and a limit setter does so or
raises the script error of the exception of the native method. -/
theorem w_RevoluteJoint_functions_return {H : Type} (lib : LuaLib) (api : RevoluteJointApi H)
    (w : World H) (t : ObjPtr) (hc : luax_checkrevolutejoint api w 1 = .ok t) :
    ∀ p ∈ w_RevoluteJoint_functions lib api, p.1 ≠ "getLimits" →
      (∀ e, check_arguments lib w.lua (RevoluteJoint_arguments p.1) 2 = some e →
        p.2 w = .raise e w) ∧
      (check_arguments lib w.lua (RevoluteJoint_arguments p.1) 2 = none →
        (p.1 ∉ RevoluteJoint_setters →
          ∃ v, p.2 w = .ret 1 { w with lua := { w.lua with stack := w.lua.stack ++ [v] } }) ∧
        (p.1 ∈ RevoluteJoint_setters → p.1 ∉ RevoluteJoint_throwing →
          ∃ h, p.2 w = .ret 0 { w with native := h }) ∧
        (p.1 ∈ RevoluteJoint_throwing →
          (∃ h, p.2 w = .ret 0 { w with native := h }) ∨
          ∃ m, p.2 w = .raise (.error (w.lua.where1 ++ m))
            { w with lua := lua_pushstring w.lua m })) := by
  simp only [w_RevoluteJoint_functions, List.forall_mem_cons]
  refine ⟨?_, ?_, ?_, ?_, ?_, ?_, ?_, ?_, ?_, ?_, ?_, ?_, ?_, ?_, ?_, ?_, ?_, ?_, ?_⟩
  all_goals first
    | (intro hne; exact absurd rfl hne)
    | (intro _
       simp only [RevoluteJoint_arguments, check_arguments, RevoluteJoint_setters,
         RevoluteJoint_throwing]
       simp [w_RevoluteJoint_getJointAngle, w_RevoluteJoint_getJointSpeed,
         w_RevoluteJoint_isMotorEnabled, w_RevoluteJoint_getMotorSpeed,
         w_RevoluteJoint_getMaxMotorTorque, w_RevoluteJoint_areLimitsEnabled,
         w_RevoluteJoint_getLowerLimit, w_RevoluteJoint_getUpperLimit,
         w_RevoluteJoint_getReferenceAngle, hc, lua_pushnumber, luax_pushboolean]
       done)
    | (intro _
       simp only [RevoluteJoint_arguments, check_arguments, RevoluteJoint_setters,
         RevoluteJoint_throwing]
       simp only [w_RevoluteJoint_getMotorTorque, w_RevoluteJoint_setMotorEnabled,
         w_RevoluteJoint_setLimitsEnabled, w_RevoluteJoint_setMaxMotorTorque,
         w_RevoluteJoint_setMotorSpeed, hc]
       first
         | (rcases hn : luaL_checknumber lib w.lua 2 with e2 | d <;>
             simp [lua_pushnumber]
            done)
         | (rcases hn : luax_checkboolean w.lua 2 with e2 | d <;>
             simp))
    | skip
  · intro _
    simp only [RevoluteJoint_arguments, check_arguments, RevoluteJoint_setters,
      RevoluteJoint_throwing]
    simp only [w_RevoluteJoint_setUpperLimit, hc]
    rcases hn : luaL_checknumber lib w.lua 2 with e2 | d
    · simp
    · obtain ⟨h1, h2⟩ :=
        luax_catchexcept_native_call lib (fun h => api.setUpperLimit h t (api.toFloat d)) w
      rcases hr : api.setUpperLimit w.native t (api.toFloat d) with m | h
      · simp only [h2 m hr, reduceCtorEq, false_implies, implies_true, true_and]
        exact fun _ => ⟨fun hs => absurd (by decide) hs, fun _ hs => absurd (by decide) hs,
          fun _ => Or.inr ⟨m, rfl⟩⟩
      · simp [h1 h hr]
  · intro _
    simp only [RevoluteJoint_arguments, check_arguments, RevoluteJoint_setters,
      RevoluteJoint_throwing]
    simp only [w_RevoluteJoint_setLowerLimit, hc]
    rcases hn : luaL_checknumber lib w.lua 2 with e2 | d
    · simp
    · obtain ⟨h1, h2⟩ :=
        luax_catchexcept_native_call lib (fun h => api.setLowerLimit h t (api.toFloat d)) w
      rcases hr : api.setLowerLimit w.native t (api.toFloat d) with m | h
      · simp only [h2 m hr, reduceCtorEq, false_implies, implies_true, true_and]
        exact fun _ => ⟨fun hs => absurd (by decide) hs, fun _ hs => absurd (by decide) hs,
          fun _ => Or.inr ⟨m, rfl⟩⟩
      · simp [h1 h hr]
  · intro _
    simp only [RevoluteJoint_arguments, check_arguments, RevoluteJoint_setters,
      RevoluteJoint_throwing]
    simp only [w_RevoluteJoint_setLimits, hc]
    rcases hn : luaL_checknumber lib w.lua 2 with e2 | d1
    · simp
    · rcases hn2 : luaL_checknumber lib w.lua (2 + 1) with e3 | d2
      · have hn3 : luaL_checknumber lib w.lua 3 = .error e3 := hn2
        simp [hn3]
      · obtain ⟨h1, h2⟩ := luax_catchexcept_native_call lib
          (fun h => api.setLimits h t (api.toFloat d1) (api.toFloat d2)) w
        have hn3 : luaL_checknumber lib w.lua 3 = .ok d2 := hn2
        rcases hr : api.setLimits w.native t (api.toFloat d1) (api.toFloat d2) with m | h
        · simp only [hn3, h2 m hr, reduceCtorEq, false_implies, implies_true, true_and]
          exact fun _ => ⟨fun hs => absurd (by decide) hs, fun _ hs => absurd (by decide) hs,
          fun _ => Or.inr ⟨m, rfl⟩⟩
        · simp [hn3, h1 h hr]

/-- C10: every wrapper of the table `w_RevoluteJoint_functions` other than `getLimits` first
validates argument 1 with `luax_checkrevolutejoint` (a failed check is raised as it is, nothing
being done before), never lets a C++ exception out, and when it returns, returns the number of
values it pushed: a setter returns 0 with the stack as it was, a getter returns 1 with exactly
one value pushed. And it does return: on a joint that passes the check, with the other
arguments passing the checks of the wrapper (the first failing one is raised as it is), a
getter returns 1 with one value pushed and a setter returns 0, the three limit setters when
the native method does not throw. The check fails by a raised script error for a value of the
wrong type, for a released object and for a destroyed joint, and a `love::Exception` thrown by
the native `setUpperLimit`, `setLowerLimit` or `setLimits` ends the wrapper by a raised script
error that carries its message. -/
theorem w_RevoluteJoint_calling_convention {H : Type} (lib : LuaLib) (api : RevoluteJointApi H)
    (w : World H) :
    (∀ name f, (name, f) ∈ w_RevoluteJoint_functions lib api → name ≠ "getLimits" →
      (∀ e, luax_checkrevolutejoint api w 1 = .error e → f w = .raise e w) ∧
      (∀ e w1, f w ≠ .throw e w1) ∧
      (∀ n w1, f w = .ret n w1 →
        (∃ t, luax_checkrevolutejoint api w 1 = .ok t) ∧
        (name ∈ RevoluteJoint_setters → n = 0 ∧ w1.lua.stack = w.lua.stack) ∧
        (name ∉ RevoluteJoint_setters → n = 1 ∧ ∃ v, w1.lua.stack = w.lua.stack ++ [v]))) ∧
    (∀ name f t, (name, f) ∈ w_RevoluteJoint_functions lib api → name ≠ "getLimits" →
      luax_checkrevolutejoint api w 1 = .ok t →
      (∀ e, check_arguments lib w.lua (RevoluteJoint_arguments name) 2 = some e →
        f w = .raise e w) ∧
      (check_arguments lib w.lua (RevoluteJoint_arguments name) 2 = none →
        (name ∉ RevoluteJoint_setters →
          ∃ v, f w = .ret 1 { w with lua := { w.lua with stack := w.lua.stack ++ [v] } }) ∧
        (name ∈ RevoluteJoint_setters → name ∉ RevoluteJoint_throwing →
          ∃ h, f w = .ret 0 { w with native := h }) ∧
        (name ∈ RevoluteJoint_throwing →
          (∃ h, f w = .ret 0 { w with native := h }) ∨
          ∃ m, f w = .raise (.error (w.lua.where1 ++ m))
            { w with lua := lua_pushstring w.lua m }))) ∧
    (∀ t d h, luax_checkrevolutejoint api w 1 = .ok t → luaL_checknumber lib w.lua 2 = .ok d →
      api.setUpperLimit w.native t (api.toFloat d) = .ok h →
      w_RevoluteJoint_setUpperLimit lib api w = .ret 0 { w with native := h }) ∧
    (∀ t d h, luax_checkrevolutejoint api w 1 = .ok t → luaL_checknumber lib w.lua 2 = .ok d →
      api.setLowerLimit w.native t (api.toFloat d) = .ok h →
      w_RevoluteJoint_setLowerLimit lib api w = .ret 0 { w with native := h }) ∧
    (∀ t d1 d2 h, luax_checkrevolutejoint api w 1 = .ok t →
      luaL_checknumber lib w.lua 2 = .ok d1 → luaL_checknumber lib w.lua 3 = .ok d2 →
      api.setLimits w.native t (api.toFloat d1) (api.toFloat d2) = .ok h →
      w_RevoluteJoint_setLimits lib api w = .ret 0 { w with native := h }) ∧
    (lua_type w.lua 1 ≠ .LUA_TUSERDATA →
      luax_checkrevolutejoint api w 1 = .error (.typerror 1 api.type.getName)) ∧
    (∀ u t, index2value w.lua 1 = some (.userdata u) → u.type = some t →
      t.isa api.type = false →
      luax_checkrevolutejoint api w 1 = .error (.typerror 1 api.type.getName)) ∧
    (∀ u t, index2value w.lua 1 = some (.userdata u) → u.type = some t →
      t.isa api.type = true → u.object = none →
      luax_checkrevolutejoint api w 1 =
        .error (.error (w.lua.where1 ++ "Cannot use object after it has been released."))) ∧
    (∀ u t j, index2value w.lua 1 = some (.userdata u) → u.type = some t →
      t.isa api.type = true → u.object = some j → api.isValid w.native j = false →
      luax_checkrevolutejoint api w 1 =
        .error (.error (w.lua.where1 ++ "Attempt to use destroyed joint."))) ∧
    (∀ t d m, luax_checkrevolutejoint api w 1 = .ok t → luaL_checknumber lib w.lua 2 = .ok d →
      api.setUpperLimit w.native t (api.toFloat d) = .error m →
      w_RevoluteJoint_setUpperLimit lib api w =
        .raise (.error (w.lua.where1 ++ m)) { w with lua := lua_pushstring w.lua m }) ∧
    (∀ t d m, luax_checkrevolutejoint api w 1 = .ok t → luaL_checknumber lib w.lua 2 = .ok d →
      api.setLowerLimit w.native t (api.toFloat d) = .error m →
      w_RevoluteJoint_setLowerLimit lib api w =
        .raise (.error (w.lua.where1 ++ m)) { w with lua := lua_pushstring w.lua m }) ∧
    (∀ t d1 d2 m, luax_checkrevolutejoint api w 1 = .ok t →
      luaL_checknumber lib w.lua 2 = .ok d1 → luaL_checknumber lib w.lua 3 = .ok d2 →
      api.setLimits w.native t (api.toFloat d1) (api.toFloat d2) = .error m →
      w_RevoluteJoint_setLimits lib api w =
        .raise (.error (w.lua.where1 ++ m)) { w with lua := lua_pushstring w.lua m }) := by
  refine ⟨fun name f hmem hname => w_RevoluteJoint_functions_contract lib api w name f hmem hname,
    fun name f t hmem hname hc =>
      w_RevoluteJoint_functions_return lib api w t hc (name, f) hmem hname,
    ?_, ?_, ?_, ?_, ?_, ?_, ?_, ?_, ?_, ?_⟩
  · intro t d h hc hn hr
    simp [w_RevoluteJoint_setUpperLimit, hc, hn,
      (luax_catchexcept_native_call lib (fun h => api.setUpperLimit h t (api.toFloat d)) w).1 h hr]
  · intro t d h hc hn hr
    simp [w_RevoluteJoint_setLowerLimit, hc, hn,
      (luax_catchexcept_native_call lib (fun h => api.setLowerLimit h t (api.toFloat d)) w).1 h hr]
  · intro t d1 d2 h hc hn hn2 hr
    simp [w_RevoluteJoint_setLimits, hc, hn, hn2,
      (luax_catchexcept_native_call lib
        (fun h => api.setLimits h t (api.toFloat d1) (api.toFloat d2)) w).1 h hr]
  · intro hty
    simp [luax_checkrevolutejoint, (luax_checktype_cases w.lua 1 api.type).2.2.2.2.1 hty]
  · intro u t hu ht hisa
    simp [luax_checkrevolutejoint, (luax_checktype_cases w.lua 1 api.type).2.2.2.2.2 u t hu ht hisa]
  · intro u t hu ht hisa hobj
    simp [luax_checkrevolutejoint, (luax_checktype_null_object w.lua 1 api.type u hu hobj).1 t ht hisa]
  · intro u t j hu ht hisa hobj hvalid
    have hok : luax_checktype w.lua 1 api.type = .ok j :=
      ((luax_checktype_cases w.lua 1 api.type).1 j).2 ⟨u, t, hu, ht, hisa, hobj⟩
    simp [luax_checkrevolutejoint, hok, hvalid, luaL_error]
  · intro t d m hc hn hr
    simp [w_RevoluteJoint_setUpperLimit, hc, hn,
      (luax_catchexcept_native_call lib (fun h => api.setUpperLimit h t (api.toFloat d)) w).2 m hr]
  · intro t d m hc hn hr
    simp [w_RevoluteJoint_setLowerLimit, hc, hn,
      (luax_catchexcept_native_call lib (fun h => api.setLowerLimit h t (api.toFloat d)) w).2 m hr]
  · intro t d1 d2 m hc hn hn2 hr
    simp [w_RevoluteJoint_setLimits, hc, hn, hn2,
      (luax_catchexcept_native_call lib
        (fun h => api.setLimits h t (api.toFloat d1) (api.toFloat d2)) w).2 m hr]

/-- C10, at concrete calls on a live joint: `getJointAngle` returns 1 with exactly one value
pushed, and `setMotorEnabled` with `true` as argument 2 returns 0 with the stack as it was. -/
theorem w_RevoluteJoint_calling_convention_witness :
    (∃ v, w_RevoluteJoint_getJointAngle exampleJointApi exampleJointWorld =
      .ret 1 { exampleJointWorld with
        lua := { exampleJointWorld.lua with stack := exampleJointWorld.lua.stack ++ [v] } }) ∧
    (∃ h, w_RevoluteJoint_setMotorEnabled exampleJointApi
        { exampleJointWorld with
          lua := { exampleJointWorld.lua with
            stack := exampleJointWorld.lua.stack ++ [.boolean true] } } =
      .ret 0 { lua := { exampleJointWorld.lua with
          stack := exampleJointWorld.lua.stack ++ [.boolean true] }, native := h }) :=
  ⟨(((w_RevoluteJoint_calling_convention { str2d := fun _ => none, fmtnum := fun _ => "" }
      exampleJointApi exampleJointWorld).2.1 "getJointAngle"
      (w_RevoluteJoint_getJointAngle exampleJointApi) 3 (List.mem_cons_self _ _) (by decide)
      rfl).2 rfl).1 (by decide),
    (((w_RevoluteJoint_calling_convention { str2d := fun _ => none, fmtnum := fun _ => "" }
      exampleJointApi
      { exampleJointWorld with
        lua := { exampleJointWorld.lua with
          stack := exampleJointWorld.lua.stack ++ [.boolean true] } }).2.1 "setMotorEnabled"
      (w_RevoluteJoint_setMotorEnabled exampleJointApi) 3
      (List.mem_cons_of_mem _ (List.mem_cons_of_mem _ (List.mem_cons_self _ _))) (by decide)
      rfl).2 rfl).2.1 (by decide) (by decide)⟩

/-! ### Module lookup -/

/-- The value pushed last is at index -1. -/
theorem index2value_push_top (st : List LuaValue) (w1 : String) (v : LuaValue) :
    index2value { stack := st ++ [v], where1 := w1 } (-1) = some v := by
  simp [index2value]

/-- The value found under the name is on top of the stack after the two pushes. -/
theorem registry_top (reg : ModuleRegistry) (L : LuaState) (name : String) :
    index2value (lua_getfield_registry reg (luax_insistregistry reg L) name) (-1) =
      some (reg.fields name) :=
  index2value_push_top (L.stack ++ [LuaValue.table reg.ref]) L.where1 (reg.fields name)

/-- Popping the two values pushed by the lookup gives the Lua state back. -/
theorem registry_pop (reg : ModuleRegistry) (L : LuaState) (name : String) :
    lua_pop (lua_getfield_registry reg (luax_insistregistry reg L) name) 2 = L := by
  simp [lua_pop, lua_getfield_registry, luax_insistregistry]

/-- Two script errors raised by `luaL_error` in the same state are equal only if their
messages are. -/
theorem luaL_error_inj (L : LuaState) (a b : String) (h : luaL_error L a = luaL_error L b) :
    a = b := by
  simp only [luaL_error, LuaError.error.injEq] at h
  have h2 := congrArg String.data h
  simp only [String.data_append] at h2
  exact String.ext (List.append_cancel_left h2)

/-- The two messages of `luax_getmodule` differ. -/
theorem getmodule_messages_ne (name : String) :
    "Tried to get nonexistent module " ++ name ++ "." ≠ "Incorrect module " ++ name := by
  intro h
  have h2 := congrArg String.data h
  simp only [String.data_append] at h2
  have h3 := congrArg List.head? h2
  simp at h3

/-- The results of `luax_getmodule`, by the value registered under the name of the type. -/
theorem luax_getmodule_cases (reg : ModuleRegistry) (L : LuaState) (T : LoveType) :
    ((∀ u, reg.fields T.getName ≠ .userdata u) → (∀ p, reg.fields T.getName ≠ .lightuserdata p) →
      luax_getmodule reg L T =
        .raise (.error (L.where1 ++ ("Tried to get nonexistent module " ++ T.getName ++ ".")))
          (lua_getfield_registry reg (luax_insistregistry reg L) T.getName)) ∧
    (∀ p, reg.fields T.getName = .lightuserdata p → luax_getmodule reg L T = .undefined) ∧
    (∀ u, reg.fields T.getName = .userdata u → u.type = none →
      luax_getmodule reg L T =
        .raise (.error (L.where1 ++ ("Incorrect module " ++ T.getName)))
          (lua_getfield_registry reg (luax_insistregistry reg L) T.getName)) ∧
    (∀ u t, reg.fields T.getName = .userdata u → u.type = some t → t.isa T = false →
      luax_getmodule reg L T =
        .raise (.error (L.where1 ++ ("Incorrect module " ++ T.getName)))
          (lua_getfield_registry reg (luax_insistregistry reg L) T.getName)) ∧
    (∀ u t, reg.fields T.getName = .userdata u → u.type = some t → t.isa T = true →
      luax_getmodule reg L T = .ret u.object L) := by
  have htop := registry_top reg L T.getName
  have hpop := registry_pop reg L T.getName
  refine ⟨?_, ?_, ?_, ?_, ?_⟩
  · intro h1 h2
    have : lua_isuserdata (lua_getfield_registry reg (luax_insistregistry reg L) T.getName) (-1)
        = false := by
      simp only [lua_isuserdata, htop]
      cases hv : reg.fields T.getName <;> simp_all
    simp only [luax_getmodule, this, if_true]
    rfl
  · intro p hp
    simp [luax_getmodule, lua_isuserdata, lua_touserdata, htop, hp]
  · intro u hu ht
    simp only [luax_getmodule, lua_isuserdata, lua_touserdata, htop, hu, ht]
    rfl
  · intro u t hu ht hisa
    simp only [luax_getmodule, lua_isuserdata, lua_touserdata, htop, hu, ht, hisa]
    rfl
  · intro u t hu ht hisa
    simp [luax_getmodule, lua_isuserdata, lua_touserdata, htop, hu, ht, hisa, hpop]

/-- C14: `luax_getmodule` raises "Tried to get nonexistent module <name>." iff no userdata
(full or light) is registered under the name of `T`; it raises "Incorrect module <name>" iff a
userdata Proxy is registered whose type is null or does not satisfy `isa(T)`; and when a Proxy
is registered whose type satisfies `isa(T)` it returns the object of that Proxy and leaves the
Lua stack as it found it. -/
theorem luax_getmodule_spec (reg : ModuleRegistry) (L : LuaState) (T : LoveType) :
    ((∃ L1, luax_getmodule reg L T =
        .raise (.error (L.where1 ++ ("Tried to get nonexistent module " ++ T.getName ++ "."))) L1) ↔
      ((∀ u, reg.fields T.getName ≠ .userdata u) ∧
        ∀ p, reg.fields T.getName ≠ .lightuserdata p)) ∧
    ((∃ L1, luax_getmodule reg L T =
        .raise (.error (L.where1 ++ ("Incorrect module " ++ T.getName))) L1) ↔
      ∃ u, reg.fields T.getName = .userdata u ∧
        (u.type = none ∨ ∃ t, u.type = some t ∧ t.isa T = false)) ∧
    (∀ u t, reg.fields T.getName = .userdata u → u.type = some t → t.isa T = true →
      luax_getmodule reg L T = .ret u.object L) := by
  obtain ⟨h1, h2, h3, h4, h5⟩ := luax_getmodule_cases reg L T
  have hne : LuaError.error (L.where1 ++ ("Tried to get nonexistent module " ++ T.getName ++ "."))
      ≠ LuaError.error (L.where1 ++ ("Incorrect module " ++ T.getName)) :=
    fun h => getmodule_messages_ne T.getName (luaL_error_inj L _ _ h)
  refine ⟨⟨?_, fun h => ⟨_, h1 h.1 h.2⟩⟩, ⟨?_, ?_⟩, h5⟩
  · rintro ⟨L1, hr⟩
    refine ⟨fun u hu => ?_, fun p hp => ?_⟩
    · rcases u with ⟨ty, ob⟩
      cases ty with
      | none =>
        rw [h3 _ hu rfl] at hr
        exact hne (LuaResult.raise.inj hr).1.symm
      | some t =>
        cases hisa : t.isa T
        · rw [h4 _ t hu rfl hisa] at hr
          exact hne (LuaResult.raise.inj hr).1.symm
        · rw [h5 _ t hu rfl hisa] at hr
          cases hr
    · rw [h2 p hp] at hr
      cases hr
  · rintro ⟨L1, hr⟩
    cases hv : reg.fields T.getName with
    | userdata u =>
      refine ⟨u, rfl, ?_⟩
      rcases u with ⟨ty, ob⟩
      cases ty with
      | none => exact Or.inl rfl
      | some t =>
        cases hisa : t.isa T
        · exact Or.inr ⟨t, rfl, hisa⟩
        · rw [h5 _ t hv rfl hisa] at hr
          cases hr
    | lightuserdata p =>
      rw [h2 p hv] at hr
      cases hr
    | _ =>
      rw [h1 (by simp [hv]) (by simp [hv])] at hr
      exact absurd (LuaResult.raise.inj hr).1 hne
  · rintro ⟨u, hu, ht | ⟨t, ht, hisa⟩⟩
    · exact ⟨_, h3 u hu ht⟩
    · exact ⟨_, h4 u t hu ht hisa⟩

/-- C14, at a concrete registry: the filesystem module registered under "filesystem" is found
when looked up by the type of all modules, and the stack is as before. -/
theorem luax_getmodule_spec_witness :
    luax_getmodule { ref := 0, fields := fun _ => .userdata ⟨some Filesystem_type, some 4⟩ }
        { stack := [.number (.fin 1)], where1 := "" } Module_type =
      .ret (some 4) { stack := [.number (.fin 1)], where1 := "" } :=
  (luax_getmodule_spec { ref := 0, fields := fun _ => .userdata ⟨some Filesystem_type, some 4⟩ }
    { stack := [.number (.fin 1)], where1 := "" } Module_type).2.2
    ⟨some Filesystem_type, some 4⟩ Filesystem_type rfl rfl (by decide)

/-- The results of `luax_optmodule`, by the value registered under the name of the type. -/
theorem luax_optmodule_cases (reg : ModuleRegistry) (L : LuaState) (T : LoveType) :
    ((∀ u, reg.fields T.getName ≠ .userdata u) → (∀ p, reg.fields T.getName ≠ .lightuserdata p) →
      luax_optmodule reg L T = .ret none L) ∧
    (∀ u t, reg.fields T.getName = .userdata u → u.type = some t → t.isa T = true →
      luax_optmodule reg L T = .ret u.object L) ∧
    (∀ u t, reg.fields T.getName = .userdata u → u.type = some t → t.isa T = false →
      luax_optmodule reg L T =
        .raise (.error (L.where1 ++ ("Incorrect module " ++ T.getName)))
          { L with stack := L.stack ++ [.table reg.ref, .userdata u] }) := by
  have htop := registry_top reg L T.getName
  have hpop := registry_pop reg L T.getName
  refine ⟨?_, ?_, ?_⟩
  · intro h1 h2
    have : lua_isuserdata (lua_getfield_registry reg (luax_insistregistry reg L) T.getName) (-1)
        = false := by
      simp only [lua_isuserdata, htop]
      cases hv : reg.fields T.getName <;> simp_all
    simp only [luax_optmodule, this, if_true, hpop]
  · intro u t hu ht hisa
    simp [luax_optmodule, lua_isuserdata, lua_touserdata, htop, hu, ht, hisa, hpop]
  · intro u t hu ht hisa
    simp only [luax_optmodule, lua_isuserdata, lua_touserdata, htop, hu, ht, hisa]
    simp [luaL_error, lua_getfield_registry, luax_insistregistry, hu]

/-- C11, as stated, fails: with a Proxy of an unrelated type registered under the name of the
type looked up, `luax_optmodule` raises the script error "Incorrect module <name>". -/
theorem luax_optmodule_counterexample :
    luax_optmodule { ref := 0, fields := fun _ => .userdata ⟨some (.root "Object"), some 4⟩ }
        { stack := [], where1 := "" } Filesystem_type =
      .raise (.error "Incorrect module filesystem")
        { stack := [.table 0, .userdata ⟨some (.root "Object"), some 4⟩], where1 := "" } := by
  rfl

/-- C11, amended: `luax_optmodule` returns null, with the Lua stack as it found it, when no
userdata (full or light) is registered under the name of `T`; it returns the object of the
registered Proxy, with the stack as it found it, when the type of that Proxy is non-null and
satisfies `isa(T)`; and it raises the script error "Incorrect module <name>", with the registry
table and the Proxy still on the stack, when the type of the registered Proxy is non-null and
does not satisfy `isa(T)`. -/
theorem luax_optmodule_spec (reg : ModuleRegistry) (L : LuaState) (T : LoveType) :
    ((∀ u, reg.fields T.getName ≠ .userdata u) → (∀ p, reg.fields T.getName ≠ .lightuserdata p) →
      luax_optmodule reg L T = .ret none L) ∧
    (∀ u t, reg.fields T.getName = .userdata u → u.type = some t → t.isa T = true →
      luax_optmodule reg L T = .ret u.object L) ∧
    (∀ u t, reg.fields T.getName = .userdata u → u.type = some t → t.isa T = false →
      luax_optmodule reg L T =
        .raise (.error (L.where1 ++ ("Incorrect module " ++ T.getName)))
          { L with stack := L.stack ++ [.table reg.ref, .userdata u] }) :=
  luax_optmodule_cases reg L T

/-- C11, amended, at a concrete registry: nothing is registered and the lookup returns null with
the stack as before. -/
theorem luax_optmodule_spec_witness :
    luax_optmodule { ref := 0, fields := fun _ => .nil }
        { stack := [.number (.fin 1)], where1 := "" } Filesystem_type =
      .ret none { stack := [.number (.fin 1)], where1 := "" } :=
  (luax_optmodule_spec { ref := 0, fields := fun _ => .nil }
    { stack := [.number (.fin 1)], where1 := "" } Filesystem_type).1
    (fun _ h => by cases h) (fun _ h => by cases h)

/-! ### Checking the fields of a table -/

/-- The key of the pair on top of the stack is at index -2. -/
theorem index2value_pair_key (st : List LuaValue) (w1 : String) (k v : LuaValue) :
    index2value { stack := st ++ [k, v], where1 := w1 } (-2) = some k := by
  simp only [index2value]
  norm_num
  rw [List.getElem_append_right (by omega)]
  simp

/-- Pushing a value does not change what a positive index within the stack holds. -/
theorem index2value_push_pos (L : LuaState) (v : LuaValue) (idx : Int) (hidx : 0 < idx)
    (x : LuaValue) (hx : index2value L idx = some x) :
    index2value { L with stack := L.stack ++ [v] } idx = some x := by
  simp only [index2value, hidx, if_true] at hx ⊢
  rw [List.get?_eq_getElem?] at hx ⊢
  obtain ⟨hlt, hget⟩ := List.getElem?_eq_some_iff.1 hx
  rw [List.getElem?_append_left hlt]
  exact hx

/-- One pass of the loop over a pair whose key is a string accepted by `getConstant`. -/
theorem checktablefields_loop_step (lib : LuaLib) (L : LuaState) (enumName : String)
    (getConstant : String → Bool) (s : String) (v : LuaValue) (rest : LuaTable)
    (hs : getConstant s = true) :
    checktablefields_loop lib L enumName getConstant ((.string s, v) :: rest) =
      checktablefields_loop lib L enumName getConstant rest := by
  have hk := index2value_pair_key L.stack L.where1 (.string s) v
  simp [checktablefields_loop, lua_type, luaL_checkstring, lua_tolstring, hk, hs]

/-- The loop skips the pairs whose keys are strings accepted by `getConstant`. -/
theorem checktablefields_loop_skip (lib : LuaLib) (L : LuaState) (enumName : String)
    (getConstant : String → Bool) (pre rest : LuaTable)
    (hpre : ∀ kv ∈ pre, ∃ s, kv.1 = .string s ∧ getConstant s = true) :
    checktablefields_loop lib L enumName getConstant (pre ++ rest) =
      checktablefields_loop lib L enumName getConstant rest := by
  induction pre with
  | nil => rfl
  | cons kv pre ih =>
    obtain ⟨s, hk, hs⟩ := hpre kv (List.mem_cons_self _ _)
    obtain ⟨k, v⟩ := kv
    simp only at hk
    subst hk
    rw [List.cons_append, checktablefields_loop_step lib L enumName getConstant s v _ hs]
    exact ih (fun kv h => hpre kv (List.mem_cons_of_mem _ h))

/-- The loop stops at a pair whose key is no string, with the type error. -/
theorem checktablefields_loop_nonstring (lib : LuaLib) (L : LuaState) (enumName : String)
    (getConstant : String → Bool) (k v : LuaValue) (rest : LuaTable)
    (hk : ∀ s, k ≠ .string s) :
    checktablefields_loop lib L enumName getConstant ((k, v) :: rest) =
      .raise (.typerror (-2) "string") { L with stack := L.stack ++ [k, v] } := by
  have hkey := index2value_pair_key L.stack L.where1 k v
  cases k <;> simp_all [checktablefields_loop, lua_type, luax_typerror]

/-- The loop stops at a pair whose key is a string rejected by `getConstant`, with the enum
error. -/
theorem checktablefields_loop_rejected (lib : LuaLib) (L : LuaState) (enumName : String)
    (getConstant : String → Bool) (s : String) (v : LuaValue) (rest : LuaTable)
    (hs : getConstant s = false) :
    checktablefields_loop lib L enumName getConstant ((.string s, v) :: rest) =
      .raise (.enumerror enumName s) { L with stack := L.stack ++ [.string s, v] } := by
  have hk := index2value_pair_key L.stack L.where1 (.string s) v
  simp [checktablefields_loop, lua_type, luaL_checkstring, lua_tolstring, hk, hs, luax_enumerror]

/-- The loop returns only if every key is a string accepted by `getConstant`, and then with
the state it started from. -/
theorem checktablefields_loop_ret (lib : LuaLib) (L : LuaState) (enumName : String)
    (getConstant : String → Bool) (t : LuaTable) (L1 : LuaState)
    (h : checktablefields_loop lib L enumName getConstant t = .ret () L1) :
    L1 = L ∧ ∀ kv ∈ t, ∃ s, kv.1 = .string s ∧ getConstant s = true := by
  induction t with
  | nil =>
    simp only [checktablefields_loop, LuaResult.ret.injEq, true_and] at h
    exact ⟨h.symm, fun kv hkv => absurd hkv (List.not_mem_nil _)⟩
  | cons kv t ih =>
    obtain ⟨k, v⟩ := kv
    by_cases hk : ∃ s, k = .string s
    · obtain ⟨s, rfl⟩ := hk
      cases hs : getConstant s
      · rw [checktablefields_loop_rejected lib L enumName getConstant s v t hs] at h
        cases h
      · rw [checktablefields_loop_step lib L enumName getConstant s v t hs] at h
        obtain ⟨h1, h2⟩ := ih h
        refine ⟨h1, fun kv hkv => ?_⟩
        rcases List.mem_cons.1 hkv with rfl | hmem
        · exact ⟨s, rfl, hs⟩
        · exact h2 kv hmem
    · rw [checktablefields_loop_nonstring lib L enumName getConstant k v t
        (fun s hs => hk ⟨s, hs⟩)] at h
      cases h

/-- With a table at a positive index, the check runs the loop over the pairs of that table. -/
theorem luax_checktablefields_table (lib : LuaLib) (heap : LuaHeap) (L : LuaState) (idx : Int)
    (enumName : String) (getConstant : String → Bool) (hidx : 0 < idx) (ref : Nat)
    (ht : index2value L idx = some (.table ref)) :
    luax_checktablefields lib heap L idx enumName getConstant =
      checktablefields_loop lib L enumName getConstant (heap.get ref) := by
  have h1 : lua_type L idx = .LUA_TTABLE := by simp [lua_type, ht]
  have h2 := index2value_push_pos L .nil idx hidx _ ht
  simp only [luax_checktablefields, h1, ne_eq, not_true_eq_false, if_false, lua_pushnil, h2]

/-- A value of type table is a table. -/
theorem lua_type_table_iff (L : LuaState) (idx : Int) :
    lua_type L idx = .LUA_TTABLE ↔ ∃ ref, index2value L idx = some (.table ref) := by
  unfold lua_type
  cases h : index2value L idx with
  | none => simp
  | some v => cases v <;> simp

/-- C12: for a positive stack index `idx`, `luax_checktablefields` completes without error iff
the value at `idx` is a table all of whose keys are strings accepted by `getConstant`, and then
the Lua stack is as it was; a value that is no table raises a type error; and in a table, the
first key in traversal order that is not a string accepted by `getConstant` decides: a key that
is no string raises the type error asking for a string, a string key rejected by `getConstant`
raises the enum error naming `enumName` and that key. -/
theorem luax_checktablefields_spec (lib : LuaLib) (heap : LuaHeap) (L : LuaState) (idx : Int)
    (enumName : String) (getConstant : String → Bool) (hidx : 0 < idx) :
    ((∃ L1, luax_checktablefields lib heap L idx enumName getConstant = .ret () L1) ↔
      ∃ ref, index2value L idx = some (.table ref) ∧
        ∀ kv ∈ heap.get ref, ∃ s, kv.1 = .string s ∧ getConstant s = true) ∧
    (∀ L1, luax_checktablefields lib heap L idx enumName getConstant = .ret () L1 → L1 = L) ∧
    (lua_type L idx ≠ .LUA_TTABLE →
      luax_checktablefields lib heap L idx enumName getConstant =
        .raise (.argtype idx .LUA_TTABLE) L) ∧
    (∀ ref pre k v post, index2value L idx = some (.table ref) →
      heap.get ref = pre ++ (k, v) :: post →
      (∀ kv ∈ pre, ∃ s, kv.1 = .string s ∧ getConstant s = true) →
      ((∀ s, k ≠ .string s) →
        luax_checktablefields lib heap L idx enumName getConstant =
          .raise (.typerror (-2) "string") { L with stack := L.stack ++ [k, v] }) ∧
      (∀ s, k = .string s → getConstant s = false →
        luax_checktablefields lib heap L idx enumName getConstant =
          .raise (.enumerror enumName s) { L with stack := L.stack ++ [k, v] })) := by
  have hnot : lua_type L idx ≠ .LUA_TTABLE →
      luax_checktablefields lib heap L idx enumName getConstant =
        .raise (.argtype idx .LUA_TTABLE) L := by
    intro h
    simp [luax_checktablefields, h]
  refine ⟨⟨?_, ?_⟩, ?_, hnot, ?_⟩
  · rintro ⟨L1, h⟩
    by_cases hty : lua_type L idx = .LUA_TTABLE
    · obtain ⟨ref, ht⟩ := (lua_type_table_iff L idx).1 hty
      rw [luax_checktablefields_table lib heap L idx enumName getConstant hidx ref ht] at h
      exact ⟨ref, ht, (checktablefields_loop_ret lib L enumName getConstant _ L1 h).2⟩
    · rw [hnot hty] at h
      cases h
  · rintro ⟨ref, ht, hall⟩
    rw [luax_checktablefields_table lib heap L idx enumName getConstant hidx ref ht]
    have := checktablefields_loop_skip lib L enumName getConstant (heap.get ref) [] hall
    rw [List.append_nil] at this
    exact ⟨L, this⟩
  · intro L1 h
    by_cases hty : lua_type L idx = .LUA_TTABLE
    · obtain ⟨ref, ht⟩ := (lua_type_table_iff L idx).1 hty
      rw [luax_checktablefields_table lib heap L idx enumName getConstant hidx ref ht] at h
      exact (checktablefields_loop_ret lib L enumName getConstant _ L1 h).1
    · rw [hnot hty] at h
      cases h
  · intro ref pre k v post ht hget hpre
    rw [luax_checktablefields_table lib heap L idx enumName getConstant hidx ref ht, hget,
      checktablefields_loop_skip lib L enumName getConstant pre _ hpre]
    refine ⟨fun hk => checktablefields_loop_nonstring lib L enumName getConstant k v post hk, ?_⟩
    intro s hk hs
    subst hk
    exact checktablefields_loop_rejected lib L enumName getConstant s v post hs

/-- C12, at a concrete table: with the fields `linear` and `mipmaps`, of which `getConstant`
knows the first only, the check raises the enum error naming the second. -/
theorem luax_checktablefields_spec_witness :
    luax_checktablefields { str2d := fun _ => none, fmtnum := fun _ => "" }
        { tables := [[(.string "linear", .boolean true), (.string "mipmaps", .boolean true)]] }
        { stack := [.table 0], where1 := "" } 1 "texture setting name"
        (fun s => decide (s = "linear")) =
      .raise (.enumerror "texture setting name" "mipmaps")
        { stack := [.table 0] ++ [.string "mipmaps", .boolean true], where1 := "" } :=
  ((luax_checktablefields_spec { str2d := fun _ => none, fmtnum := fun _ => "" }
      { tables := [[(.string "linear", .boolean true), (.string "mipmaps", .boolean true)]] }
      { stack := [.table 0], where1 := "" } 1 "texture setting name"
      (fun s => decide (s = "linear")) (by decide)).2.2.2 0
      [(.string "linear", .boolean true)] (.string "mipmaps") (.boolean true) [] rfl rfl
      (fun kv h => by
        have : kv = (.string "linear", .boolean true) := by simpa using h
        exact ⟨"linear", by rw [this], by decide⟩)).2 "mipmaps" rfl (by decide)

/-! ### Reading a file argument -/

/-- With a filename or a File as argument, the file comes from `luax_getfile`. -/
theorem luax_getfile_or_data_file (lib : LuaLib) (api : FilesystemApi) (other : LoveType)
    (idx : Int) (w w1 : World RefCounts) (file : ObjPtr)
    (harg : lua_isstring w.lua idx = true ∨ luax_istype w.lua idx api.File_type = true)
    (hfile : luax_getfile lib api idx w = .ret (some file) w1) :
    luax_getfile_or_data lib api other idx w = .ret (some file, none) w1 := by
  simp only [luax_getfile_or_data, harg, if_true, hfile]

/-- One release takes one reference away, from the object released only. -/
theorem RefCounts.release_count (rc : RefCounts) (o : ObjPtr) :
    (rc.release o) o = rc o - 1 ∧ ∀ o2, o2 ≠ o → (rc.release o) o2 = rc o2 := by
  constructor
  · simp [RefCounts.release]
  · intro o2 h
    simp [RefCounts.release, Function.update, h]

/-- C13: for an argument that is a filename or a File, from which `luax_getfile` has obtained
the File reference `file`: when `read()` succeeds, `luax_getdata` and `luax_getfiledata` return
the data read with `file` released once after the read; when `read()` throws, `file` is
released once and the error is reported after that: `luax_getdata` calls `finallyfunc`, which
releases, and then `luaL_error`; `luax_getfiledata` releases in its handler and then calls
`luax_ioError` or `luaL_error`, as `ioerror` tells. In every case the state left is the state
after `read()` (the state before it, when it throws) with one release of `file` applied, which
takes exactly one reference away. -/
theorem luax_getdata_release (lib : LuaLib) (api : FilesystemApi) (idx : Int)
    (w w1 : World RefCounts) (file : ObjPtr)
    (harg : lua_isstring w.lua idx = true ∨ luax_istype w.lua idx api.File_type = true)
    (hfile : luax_getfile lib api idx w = .ret (some file) w1) :
    (∀ data h2, api.read file w1.native = .ok (data, h2) →
      luax_getdata lib api idx w =
        ([.call_func, .call_finallyfunc false],
          .ret (some data) { lua := w1.lua, native := h2.release file }) ∧
      (∀ ioerror, luax_getfiledata lib api idx ioerror w =
        ([.call_func, .release file],
          .ret (some data, 0) { lua := w1.lua, native := h2.release file })) ∧
      (h2.release file) file = h2 file - 1) ∧
    (∀ m, api.read file w1.native = .error m →
      luax_getdata lib api idx w =
        ([.call_func, .catch_enter, .set_should_error, .pushstring m, .catch_exit,
            .call_finallyfunc true, .error_transfer (.error (w1.lua.where1 ++ m))],
          .raise (.error (w1.lua.where1 ++ m))
            { lua := lua_pushstring w1.lua m, native := w1.native.release file }) ∧
      luax_getfiledata lib api idx false w =
        ([.call_func, .catch_enter, .release file,
            .error_transfer (.error (w1.lua.where1 ++ m))],
          .raise (.error (w1.lua.where1 ++ m))
            { lua := w1.lua, native := w1.native.release file }) ∧
      luax_getfiledata lib api idx true w =
        ([.call_func, .catch_enter, .release file, .report_io_error m, .catch_exit],
          .ret (none, (api.luax_ioError m w1.lua).1)
            { lua := (api.luax_ioError m w1.lua).2, native := w1.native.release file }) ∧
      (w1.native.release file) file = w1.native file - 1) := by
  have hd := luax_getfile_or_data_file lib api api.Data_type idx w w1 file harg hfile
  have hfd := luax_getfile_or_data_file lib api api.FileData_type idx w w1 file harg hfile
  refine ⟨?_, ?_⟩
  · intro data h2 hread
    refine ⟨?_, ?_, (RefCounts.release_count h2 file).1⟩
    · simp [luax_getdata, hd, luax_catchexcept_finally, try_func, read_lambda, release_lambda,
        hread]
    · intro ioerror
      simp [luax_getfiledata, hfd, hread]
  · intro m hread
    refine ⟨?_, ?_, ?_, (RefCounts.release_count w1.native file).1⟩
    · simp [luax_getdata, hd, luax_catchexcept_finally, try_func, read_lambda, release_lambda,
        hread, CppException.stdWhat, lua_tostring_congr lib
          { stack := (lua_pushstring w1.lua m).stack, where1 := w1.lua.where1 }
          (lua_pushstring w1.lua m) rfl, lua_tostring_pushstring, fmt_s, luaL_error,
        lua_pushstring_where1,
        lua_tolstring_top_string lib (lua_pushstring w1.lua m) w1.lua m rfl]
    · simp [luax_getfiledata, hfd, hread, luaL_error]
    · simp [luax_getfiledata, hfd, hread]

/-- C13, at a concrete call: the file named by the argument opens with one reference and cannot
be read; `luax_getfiledata` reports the error through `luax_ioError` after the release, and the
file is left without reference. -/
theorem luax_getdata_release_witness :
    luax_getfiledata { str2d := fun _ => none, fmtnum := fun _ => "" } exampleFilesystemApi 1
        true { lua := { stack := [.string "a.txt"], where1 := "" }, native := fun _ => 0 } =
      ([.call_func, .catch_enter, .release 5, .report_io_error "Could not open file.",
          .catch_exit],
        .ret (none, 2)
          { lua := { stack := [.string "a.txt", .nil, .string "Could not open file."],
                     where1 := "" },
            native := RefCounts.release (Function.update (fun _ => 0) 5 1) 5 }) ∧
    RefCounts.release (Function.update (fun _ => 0) 5 1) 5 5 = 1 - 1 :=
  ⟨((luax_getdata_release { str2d := fun _ => none, fmtnum := fun _ => "" }
      exampleFilesystemApi 1
      { lua := { stack := [.string "a.txt"], where1 := "" }, native := fun _ => 0 }
      { lua := { stack := [.string "a.txt"], where1 := "" },
        native := Function.update (fun _ => 0) 5 1 } 5 (Or.inl rfl) rfl).2
      "Could not open file." rfl).2.2.1,
    ((luax_getdata_release { str2d := fun _ => none, fmtnum := fun _ => "" }
      exampleFilesystemApi 1
      { lua := { stack := [.string "a.txt"], where1 := "" }, native := fun _ => 0 }
      { lua := { stack := [.string "a.txt"], where1 := "" },
        native := Function.update (fun _ => 0) 5 1 } 5 (Or.inl rfl) rfl).2
      "Could not open file." rfl).2.2.2⟩

/-! ### The modal draw -/

/-- What `modalDraw` does, case by case: nothing when an exception message or a first return
value is pending or when no callback is set; otherwise it invokes the modal callback if set,
else the default one, never both; a `std::exception` of the callback does not leave the call
and its message is stored. -/
theorem Event_modalDraw_cases (s : EventState) :
    (s.deferredExceptionMessage ≠ "" → Event_modalDraw s = ([], none, s)) ∧
    (s.deferredReturnValues.1 ≠ .nil → Event_modalDraw s = ([], none, s)) ∧
    (s.deferredExceptionMessage = "" → s.deferredReturnValues.1 = .nil →
      (∀ draw, s.modalDraw = some draw → (Event_modalDraw s).1 = [.modal]) ∧
      (∀ draw, s.modalDraw = none → s.defaultModalDraw = some draw →
        (Event_modalDraw s).1 = [.defaultModal]) ∧
      (s.modalDraw = none → s.defaultModalDraw = none → Event_modalDraw s = ([], none, s))) ∧
    (∀ e m, (Event_modalDraw s).2.1 = some e → e.stdWhat ≠ some m) ∧
    (∀ draw vals m, s.deferredExceptionMessage = "" → s.deferredReturnValues.1 = .nil →
      s.modalDraw = some draw → draw s.deferredReturnValues = (vals, some (.std m)) →
      Event_modalDraw s =
        ([.modal], none, { s with deferredReturnValues := vals, deferredExceptionMessage := m })) := by
  refine ⟨?_, ?_, ?_, ?_, ?_⟩
  · intro h
    simp [Event_modalDraw, h]
  · intro h
    have : s.deferredReturnValues.1.isNil = false := by
      cases hv : s.deferredReturnValues.1 <;> simp_all [Variant.isNil]
    by_cases hm : s.deferredExceptionMessage = "" <;> simp [Event_modalDraw, hm, this]
  · intro hm hv
    have hn : s.deferredReturnValues.1.isNil = true := by simp [hv, Variant.isNil]
    refine ⟨?_, ?_, ?_⟩
    · intro draw hd
      simp [Event_modalDraw, hm, hn, hd]
    · intro draw hd1 hd2
      simp [Event_modalDraw, hm, hn, hd1, hd2]
    · intro hd1 hd2
      simp [Event_modalDraw, hm, hn, hd1, hd2]
  · intro e m h
    have key : ∀ r, (Event_afterDraw s r).1 = some e → e.stdWhat ≠ some m := by
      intro r hr
      unfold Event_afterDraw at hr
      split at hr
      · cases hr
      · split at hr
        · cases hr
        · rename_i e2 _ hnone
          simp only [Option.some.injEq] at hr
          subst hr
          simp [hnone]
    unfold Event_modalDraw at h
    split at h
    · cases h
    · split at h
      · cases h
      · split at h
        · exact key _ h
        · split at h
          · exact key _ h
          · cases h
  · intro draw vals m hm hv hd hr
    have hn : s.deferredReturnValues.1.isNil = true := by simp [hv, Variant.isNil]
    simp [Event_modalDraw, hm, hn, hd, hr, Event_afterDraw, CppException.stdWhat]

/-- C15 at the failing input: a modal draw callback that throws a `std::exception` whose
message is empty. The first `modalDraw` invokes it and stores the empty message; the second
`modalDraw` is not skipped: it invokes the callback again. -/
theorem Event_modalDraw_empty_message :
    (Event_modalDraw
        { modalDraw := some (fun v => (v, some (.std ""))), defaultModalDraw := none,
          deferredExceptionMessage := "", deferredReturnValues := (.nil, .nil) }).1 = [.modal] ∧
    (Event_modalDraw
        { modalDraw := some (fun v => (v, some (.std ""))), defaultModalDraw := none,
          deferredExceptionMessage := "", deferredReturnValues := (.nil, .nil) }).2.1 = none ∧
    (Event_modalDraw
        { modalDraw := some (fun v => (v, some (.std ""))), defaultModalDraw := none,
          deferredExceptionMessage := "",
          deferredReturnValues := (.nil, .nil) }).2.2.deferredExceptionMessage = "" ∧
    (Event_modalDraw
      (Event_modalDraw
        { modalDraw := some (fun v => (v, some (.std ""))), defaultModalDraw := none,
          deferredExceptionMessage := "", deferredReturnValues := (.nil, .nil) }).2.2).1 =
      [.modal] := by
  refine ⟨rfl, rfl, rfl, rfl⟩

/-! ### Tables on the Lua heap -/

/-- The search skips the characters that differ from the one sought. -/
theorem find_from_skip (c : Char) : ∀ (M Y : List Char) (i : Nat), c ∉ M →
    find_from (M ++ Y) c i = find_from Y c (i + M.length) := by
  intro M
  induction M with
  | nil => intro Y i _; simp
  | cons x M ih =>
    intro Y i h
    have hx : x ≠ c := fun e => h (by simp [e])
    have hM : c ∉ M := fun e => h (by simp [e])
    rw [List.cons_append, find_from, if_neg hx, ih Y (i + 1) hM, List.length_cons,
      show i + 1 + M.length = i + (M.length + 1) by omega]

/-- The first `c` from `pos` on, when the characters between are other ones. -/
theorem CppString.find_eq (line X M Y : List Char) (c : Char) (pos : Nat)
    (hl : line = X ++ M ++ c :: Y) (hpos : pos = X.length) (hM : c ∉ M) :
    CppString.find line c pos = X.length + M.length := by
  subst hl hpos
  simp only [CppString.find, List.append_assoc, List.drop_left]
  rw [find_from_skip c M _ _ hM]
  simp [find_from]

/-- No `c` from `pos` on. -/
theorem CppString.find_none (line X M : List Char) (c : Char) (pos : Nat)
    (hl : line = X ++ M) (hpos : pos = X.length) (hM : c ∉ M) :
    CppString.find line c pos = npos := by
  subst hl hpos
  simp only [CppString.find, List.drop_left]
  have h := find_from_skip c M [] X.length hM
  simp only [List.append_nil] at h
  rw [h]
  rfl

/-- The backward search keeps what it found over the characters that differ. -/
theorem rfind_from_skip (c : Char) : ∀ (M : List Char) (i found : Nat), c ∉ M →
    rfind_from M c i found = found := by
  intro M
  induction M with
  | nil => intro i found _; rfl
  | cons x M ih =>
    intro i found h
    have hx : x ≠ c := fun e => h (by simp [e])
    have hM : c ∉ M := fun e => h (by simp [e])
    simp only [rfind_from, if_neg hx, ih _ _ hM]

/-- The backward search finds the last `c`. -/
theorem rfind_from_last (c : Char) : ∀ (X M : List Char) (i found : Nat), c ∉ M →
    rfind_from (X ++ c :: M) c i found = i + X.length := by
  intro X
  induction X with
  | nil =>
    intro M i found h
    simp [rfind_from, rfind_from_skip c M _ _ h]
  | cons x X ih =>
    intro M i found h
    rw [List.cons_append, rfind_from, ih M _ _ h, List.length_cons]
    omega

/-- The last `c` at or before `pos`, when the characters between are other ones. -/
theorem CppString.rfind_eq (line X M Z : List Char) (c : Char) (pos : Nat)
    (hl : line = X ++ c :: M ++ Z) (hpos : pos = X.length + M.length) (hM : c ∉ M) :
    CppString.rfind line c pos = X.length := by
  subst hl hpos
  have ht : List.take (X.length + M.length + 1) (X ++ c :: M ++ Z) = X ++ c :: M := by
    rw [show X ++ c :: M ++ Z = (X ++ c :: M) ++ Z by simp]
    exact List.take_left' (by simp; omega)
  simp only [CppString.rfind, ht]
  rw [rfind_from_last c X M 0 npos hM]
  omega

/-- The piece of a string between two others. -/
theorem CppString.substr_eq (line X M Z : List Char) (pos n : Nat)
    (hl : line = X ++ M ++ Z) (hpos : pos = X.length) (hn : n = M.length) :
    CppString.substr line pos n = some M := by
  subst hl hpos hn
  have h : ¬ X.length > (X ++ M ++ Z).length := by simp
  simp only [CppString.substr, if_neg h, List.append_assoc, List.drop_left]
  simp

/-- The character after a piece of a string. -/
theorem CppString.index_eq (line X Y : List Char) (c : Char) (pos : Nat)
    (hl : line = X ++ c :: Y) (hpos : pos = X.length) :
    CppString.index line pos = c := by
  subst hl hpos
  simp only [CppString.index, List.getD, List.get?_eq_getElem?]
  rw [List.getElem?_append_right (le_refl _)]
  simp

/-- The bounds of a quoted value: from after the opening quote to before the closing one. -/
theorem value_bounds_quoted (line A key value R : List Char)
    (hl : line = A ++ (' ' :: key ++ '=' :: (dquote :: value ++ [dquote])) ++ R)
    (hv : dquote ∉ value) (hlen : line.length < npos) :
    value_bounds line (A.length + 1 + key.length) =
      (A.length + 1 + key.length + 2, A.length + 1 + key.length + 1 + value.length) := by
  have hL : line.length = A.length + 1 + key.length + 1 + (value.length + 2) + R.length := by
    subst hl
    simp
    omega
  unfold npos at hlen
  have h1 : size_add (A.length + 1 + key.length) 1 = A.length + 1 + key.length + 1 := by
    unfold size_add
    omega
  have h2 : size_add (A.length + 1 + key.length + 1) 1 = A.length + 1 + key.length + 2 := by
    unfold size_add
    omega
  have hi : CppString.index line (A.length + 1 + key.length + 1) = dquote :=
    CppString.index_eq line (A ++ ' ' :: key ++ ['=']) (value ++ [dquote] ++ R) dquote _
      (by subst hl; simp) (by simp; omega)
  have hf : CppString.find line dquote (A.length + 1 + key.length + 2) =
      A.length + 1 + key.length + 2 + value.length := by
    rw [CppString.find_eq line (A ++ ' ' :: key ++ ['=', dquote]) value R dquote _
      (by subst hl; simp) (by simp; omega) hv]
    simp
    omega
  have h3 : size_sub (A.length + 1 + key.length + 2 + value.length) 1 =
      A.length + 1 + key.length + 1 + value.length := by
    unfold size_sub
    omega
  have h4 : size_sub line.length 1 = line.length - 1 := by
    unfold size_sub
    omega
  simp only [value_bounds, h1, h2, hi, if_true, hf, h3, h4]
  rw [Nat.min_eq_left (by omega)]

/-- The bounds of a bare value: from after the `=` to before the next space, or to the end of
the line. -/
theorem value_bounds_bare (line A key value R : List Char)
    (hl : line = A ++ (' ' :: key ++ '=' :: value) ++ R)
    (hne : value ≠ []) (hsp : ' ' ∉ value) (hq : dquote ∉ value)
    (hR : R = [] ∨ ∃ R2, R = ' ' :: R2) (hlen : line.length < npos) :
    value_bounds line (A.length + 1 + key.length) =
      (A.length + 1 + key.length + 1, A.length + 1 + key.length + value.length) := by
  obtain ⟨v0, vt, rfl⟩ := List.exists_cons_of_ne_nil hne
  have hv0 : v0 ≠ dquote := fun e => hq (by simp [e])
  have hvt : ' ' ∉ vt := fun e => hsp (by simp [e])
  have hL : line.length = A.length + 1 + key.length + 1 + (vt.length + 1) + R.length := by
    subst hl
    simp
    omega
  unfold npos at hlen
  have h1 : size_add (A.length + 1 + key.length) 1 = A.length + 1 + key.length + 1 := by
    unfold size_add
    omega
  have h2 : size_add (A.length + 1 + key.length + 1) 1 = A.length + 1 + key.length + 2 := by
    unfold size_add
    omega
  have hi : CppString.index line (A.length + 1 + key.length + 1) = v0 :=
    CppString.index_eq line (A ++ ' ' :: key ++ ['=']) (vt ++ R) v0 _
      (by subst hl; simp) (by simp; omega)
  have h4 : size_sub line.length 1 = line.length - 1 := by
    unfold size_sub
    omega
  simp only [value_bounds, h1, h2, hi, if_neg hv0, h4, List.length_cons]
  rcases hR with rfl | ⟨R2, rfl⟩
  · have hf : CppString.find line ' ' (A.length + 1 + key.length + 2) = npos :=
      CppString.find_none line (A ++ ' ' :: key ++ ['=', v0]) vt ' ' _
        (by subst hl; simp) (by simp; omega) hvt
    have h3 : size_sub npos 1 = 18446744073709551614 := by decide
    simp only [hf, h3]
    simp only [List.length_nil] at hL
    rw [Nat.min_eq_right (by omega)]
    refine Prod.ext rfl ?_
    dsimp only
    omega
  · have hf : CppString.find line ' ' (A.length + 1 + key.length + 2) =
        A.length + 1 + key.length + 2 + vt.length := by
      rw [CppString.find_eq line (A ++ ' ' :: key ++ ['=', v0]) vt R2 ' ' _
        (by subst hl; simp) (by simp; omega) hvt]
      simp
      omega
    have h3 : size_sub (A.length + 1 + key.length + 2 + vt.length) 1 =
        A.length + 1 + key.length + 1 + vt.length := by
      unfold size_sub
      omega
    simp only [hf, h3]
    simp only [List.length_cons] at hL
    rw [Nat.min_eq_left (by omega)]
    refine Prod.ext rfl ?_
    dsimp only
    omega

/-- One pass of the loop over a well-formed group: when `startpos` is at or before the start
of the group with no `=` between, the pass records the key with the value and leaves
`startpos` at or before the end of the group with no `=` between. -/
theorem BMFontLine_loop_step (line A R : List Char) (g : Group) (fuel p : Nat)
    (attrs : Attributes) (hl : line = A ++ g.render ++ R) (hg : g.wellFormed)
    (hR : R = [] ∨ ∃ R2, R = ' ' :: R2) (hp : p ≤ A.length) (hA : '=' ∉ A.drop p)
    (hlen : line.length < npos) :
    ∃ p2, BMFontLine_loop line (fuel + 1) p attrs =
        BMFontLine_loop line fuel p2 (attrs.assign g.key g.value) ∧
      p2 ≤ (A ++ g.render).length ∧ '=' ∉ (A ++ g.render).drop p2 := by
  obtain ⟨key, value, quoted⟩ := g
  obtain ⟨hk1, hk2, hv⟩ := hg
  simp only at hk1 hk2 hv hl ⊢
  have hnp := hlen
  unfold npos at hnp
  have hfpos : CppString.find line '=' p = A.length + 1 + key.length := by
    rw [CppString.find_eq line (A.take p) (A.drop p ++ ' ' :: key)
      ((if quoted = true then dquote :: value ++ [dquote] else value) ++ R) '=' p
      (by subst hl; simp [Group.render]; rw [← List.append_assoc, List.take_append_drop])
      (by simp [hp])
      (by simp only [List.mem_append, List.mem_cons, not_or]
          exact ⟨hA, by decide, hk2⟩)]
    simp
    omega
  have hrf : CppString.rfind line ' ' (A.length + 1 + key.length) = A.length :=
    CppString.rfind_eq line A (key ++ ['='])
      ((if quoted = true then dquote :: value ++ [dquote] else value) ++ R) ' ' _
      (by subst hl; simp [Group.render]) (by simp; omega)
      (by simp only [List.mem_append, List.mem_singleton, not_or]
          exact ⟨hk1, by decide⟩)
  have hkey : CppString.substr line (A.length + 1) key.length = some key :=
    CppString.substr_eq line (A ++ [' ']) key
      ('=' :: (if quoted = true then dquote :: value ++ [dquote] else value) ++ R) _ _
      (by subst hl; simp [Group.render]) (by simp) rfl
  cases quoted with
  | true =>
    simp only [if_true] at hv hl
    have hL : line.length = A.length + 1 + key.length + 1 + (value.length + 2) + R.length := by
      subst hl
      simp [Group.render]
      omega
    have hvb := value_bounds_quoted line A key value R (by subst hl; simp [Group.render]) hv hlen
    have hval : CppString.substr line (A.length + 1 + key.length + 2) value.length =
        some value :=
      CppString.substr_eq line (A ++ ' ' :: key ++ ['=', dquote]) value (dquote :: R) _ _
        (by subst hl; simp [Group.render]) (by simp; omega) rfl
    have e1 : size_add (A.length + 1 + key.length) 1 = A.length + 1 + key.length + 1 := by
      unfold size_add
      omega
    have e2 : size_add A.length 1 = A.length + 1 := by
      unfold size_add
      omega
    have e3 : size_sub (A.length + 1 + key.length) (A.length + 1) = key.length := by
      unfold size_sub
      omega
    have e4 : size_add (size_sub (A.length + 1 + key.length + 1 + value.length)
        (A.length + 1 + key.length + 2)) 1 = value.length := by
      unfold size_add size_sub
      omega
    refine ⟨size_add (A.length + 1 + key.length + 1 + value.length) 1, ?_, ?_, ?_⟩
    · rw [BMFontLine_loop, if_pos (by omega), hfpos, e1, hrf, e2, e3, hkey, hvb]
      simp only [e4, hval]
      rw [if_neg (by omega), if_neg (by omega)]
    · unfold size_add
      simp [Group.render]
      omega
    · have e5 : size_add (A.length + 1 + key.length + 1 + value.length) 1 =
          A.length + 1 + key.length + 2 + value.length := by
        unfold size_add
        omega
      rw [e5, show A ++ Group.render ⟨key, value, true⟩ =
        (A ++ ' ' :: key ++ '=' :: dquote :: value) ++ [dquote] by simp [Group.render],
        List.drop_left' (by simp; omega)]
      decide
  | false =>
    simp only [Bool.false_eq_true, if_false] at hv hl
    obtain ⟨hne, hsp, heq, hq⟩ := hv
    have hpos : 0 < value.length := List.length_pos.2 hne
    have hL : line.length = A.length + 1 + key.length + 1 + value.length + R.length := by
      subst hl
      simp [Group.render]
      omega
    have hvb := value_bounds_bare line A key value R (by subst hl; simp [Group.render])
      hne hsp hq hR hlen
    have hval : CppString.substr line (A.length + 1 + key.length + 1) value.length =
        some value :=
      CppString.substr_eq line (A ++ ' ' :: key ++ ['=']) value R _ _
        (by subst hl; simp [Group.render]) (by simp; omega) rfl
    have e1 : size_add (A.length + 1 + key.length) 1 = A.length + 1 + key.length + 1 := by
      unfold size_add
      omega
    have e2 : size_add A.length 1 = A.length + 1 := by
      unfold size_add
      omega
    have e3 : size_sub (A.length + 1 + key.length) (A.length + 1) = key.length := by
      unfold size_sub
      omega
    have e4 : size_add (size_sub (A.length + 1 + key.length + value.length)
        (A.length + 1 + key.length + 1)) 1 = value.length := by
      unfold size_add size_sub
      omega
    refine ⟨size_add (A.length + 1 + key.length + value.length) 1, ?_, ?_, ?_⟩
    · rw [BMFontLine_loop, if_pos (by omega), hfpos, e1, hrf, e2, e3, hkey, hvb]
      simp only [e4, hval]
      rw [if_neg (by omega), if_neg (by omega)]
    · unfold size_add
      simp [Group.render]
      omega
    · have e5 : size_add (A.length + 1 + key.length + value.length) 1 =
          A.length + 1 + key.length + 1 + value.length := by
        unfold size_add
        omega
      rw [e5, List.drop_of_length_le (by simp [Group.render]; omega)]
      simp

/-- The text of a line is its first part followed by the text of the groups. -/
theorem render_line_append (gs : List Group) : ∀ A, render_line A gs = A ++ render_line [] gs := by
  induction gs with
  | nil => intro A; simp [render_line]
  | cons g gs ih =>
    intro A
    rw [render_line, ih, render_line, List.nil_append, ih g.render]
    simp

/-- The text of the groups is empty or starts with a space. -/
theorem render_line_head (gs : List Group) :
    render_line [] gs = [] ∨ ∃ R2, render_line [] gs = ' ' :: R2 := by
  cases gs with
  | nil => exact Or.inl rfl
  | cons g gs =>
    refine Or.inr ⟨g.key ++ '=' :: (if g.quoted then dquote :: g.value ++ [dquote]
      else g.value) ++ render_line [] gs, ?_⟩
    rw [render_line, render_line_append]
    simp [Group.render]

/-- The loop over the well-formed groups of a line records each key with its value, in order,
and ends. -/
theorem BMFontLine_loop_groups (line : List Char) (hlen : line.length < npos) :
    ∀ (gs : List Group) (A : List Char) (p fuel : Nat) (attrs : Attributes),
      line = A ++ render_line [] gs → (∀ g ∈ gs, g.wellFormed) → p ≤ A.length →
      '=' ∉ A.drop p → gs.length < fuel →
      BMFontLine_loop line fuel p attrs =
        .done (gs.foldl (fun m g => m.assign g.key g.value) attrs) := by
  intro gs
  induction gs with
  | nil =>
    intro A p fuel attrs hl _ hp hA hfuel
    obtain ⟨f, rfl⟩ : ∃ f, fuel = f + 1 := ⟨fuel - 1, by simp at hfuel; omega⟩
    simp only [render_line, List.append_nil] at hl
    have hf : CppString.find line '=' p = npos :=
      CppString.find_none line (A.take p) (A.drop p) '=' p
        (by rw [List.take_append_drop]; exact hl) (by simp [hp]) hA
    rw [BMFontLine_loop, hf]
    simp
  | cons g gs ih =>
    intro A p fuel attrs hl hg hp hA hfuel
    obtain ⟨f, rfl⟩ : ∃ f, fuel = f + 1 := ⟨fuel - 1, by simp at hfuel; omega⟩
    have hl2 : line = A ++ g.render ++ render_line [] gs := by
      rw [hl, render_line, render_line_append]
      simp
    obtain ⟨p2, hstep, hp2, hA2⟩ := BMFontLine_loop_step line A (render_line [] gs) g f p attrs
      hl2 (hg g (List.mem_cons_self _ _)) (render_line_head gs) hp hA hlen
    rw [hstep, ih (A ++ g.render) p2 f _ hl2 (fun g2 h2 => hg g2 (List.mem_cons_of_mem _ h2))
      hp2 hA2 (by simp at hfuel; omega)]
    rfl

/-- The value under a key after an assignment. -/
theorem Attributes.lookup_assign (m : Attributes) (k v k2 : CppString) :
    (m.assign k v).lookup k2 = if k = k2 then some v else m.lookup k2 := by
  induction m with
  | nil => simp [Attributes.assign, Attributes.lookup]
  | cons q m ih =>
    obtain ⟨k1, v1⟩ := q
    by_cases h1 : k1 = k
    · subst h1
      by_cases h2 : k1 = k2 <;> simp [Attributes.assign, Attributes.lookup, h2]
    · by_cases h2 : k1 = k2
      · subst h2
        simp [Attributes.assign, Attributes.lookup, h1, Ne.symm h1]
      · simp [Attributes.assign, Attributes.lookup, h1, h2, ih]

/-- The value under a key after the assignments of the groups: the last one listed for the key,
or the value before. -/
theorem Attributes.lookup_groups (gs : List Group) (k : CppString) : ∀ attrs : Attributes,
    (gs.foldl (fun m g => m.assign g.key g.value) attrs).lookup k =
      match listed_value gs k with
      | some v => some v
      | none => attrs.lookup k := by
  induction gs with
  | nil => intro attrs; rfl
  | cons g gs ih =>
    intro attrs
    rw [List.foldl_cons, ih, listed_value]
    cases h : listed_value gs k with
    | some v => rfl
    | none =>
      simp only [Attributes.lookup_assign]
      by_cases hk : g.key = k <;> simp [hk]

/-- The number accumulated from a run of digits, started from `a`. -/
theorem digits_value_fold (ds : List Char) : ∀ a : Nat,
    ds.foldl (fun a c => 10 * a + (c.toNat - 48)) a = a * 10 ^ ds.length + decimal ds := by
  induction ds with
  | nil => intro a; simp [decimal]
  | cons c ds ih =>
    intro a
    rw [List.foldl_cons, ih]
    simp only [decimal, List.reverse_cons, List.map_append, List.map_cons, List.map_nil,
      Nat.ofDigits_append, Nat.ofDigits_singleton, List.length_map, List.length_reverse,
      List.length_cons]
    ring

/-- The number accumulated from a run of digits is the number that they denote. -/
theorem digits_value_eq (ds : List Char) : digits_value ds = decimal ds := by
  rw [digits_value, digits_value_fold]
  simp

/-- A run of digits is read whole. -/
theorem takeWhile_digits (ds : List Char) (h : ∀ c ∈ ds, isdigit c = true) :
    ds.takeWhile isdigit = ds := by
  induction ds with
  | nil => rfl
  | cons c ds ih =>
    rw [List.takeWhile_cons, h c (List.mem_cons_self _ _),
      ih (fun c2 h2 => h c2 (List.mem_cons_of_mem _ h2))]
    rfl

/-- A run of digits has no null character. -/
theorem takeWhile_not_null (ds : List Char) (h : ∀ c ∈ ds, isdigit c = true) :
    ds.takeWhile (fun c => c ≠ Char.ofNat 0) = ds := by
  induction ds with
  | nil => rfl
  | cons c ds ih =>
    have hc : c ≠ Char.ofNat 0 := by
      intro e
      have := h c (List.mem_cons_self _ _)
      rw [e] at this
      revert this
      decide
    rw [List.takeWhile_cons, ih (fun c2 h2 => h c2 (List.mem_cons_of_mem _ h2))]
    simp [hc]

/-- What `strtol` gives for a run of digits, with or without a minus sign: the number denoted,
clamped to the range of `long`. -/
theorem strtol_decimal (long_bits : Nat) (ds : List Char) (hne : ds ≠ [])
    (h : ∀ c ∈ ds, isdigit c = true) :
    strtol long_bits ds =
      max (-(2 ^ (long_bits - 1))) (min (decimal ds : Int) (2 ^ (long_bits - 1) - 1)) ∧
    strtol long_bits ('-' :: ds) =
      max (-(2 ^ (long_bits - 1))) (min (-(decimal ds : Int)) (2 ^ (long_bits - 1) - 1)) := by
  obtain ⟨d0, dt, rfl⟩ := List.exists_cons_of_ne_nil hne
  have hd0 : isdigit d0 = true := h d0 (List.mem_cons_self _ _)
  have hsp : isspace d0 = false := by
    unfold isdigit at hd0
    unfold isspace
    have h32 : d0 ≠ ' ' := by
      rintro rfl
      revert hd0
      decide
    simp only [Bool.and_eq_true, decide_eq_true_eq] at hd0
    simp only [h32, decide_False, Bool.false_or, Bool.and_eq_false_imp, decide_eq_true_eq,
      decide_eq_false_iff_not]
    omega
  have hminus : d0 ≠ '-' := by
    rintro rfl
    revert hd0
    decide
  have hplus : d0 ≠ '+' := by
    rintro rfl
    revert hd0
    decide
  constructor
  · have hb : ((d0 :: dt).takeWhile (fun c => c ≠ Char.ofNat 0)).dropWhile isspace = d0 :: dt := by
      rw [takeWhile_not_null _ h, List.dropWhile_cons, hsp]
      rfl
    unfold strtol
    simp only [hb]
    split
    · rename_i t ht
      exact absurd (List.cons.inj ht).1 hminus
    · split
      · rename_i t ht
        exact absurd (List.cons.inj ht).1 hminus
      · rename_i t ht
        exact absurd (List.cons.inj ht).1 hplus
      · rw [takeWhile_digits _ h, digits_value_eq]
  · have hnull : ('-' :: d0 :: dt).takeWhile (fun c => c ≠ Char.ofNat 0) = '-' :: d0 :: dt := by
      rw [List.takeWhile_cons, takeWhile_not_null _ h]
      rfl
    have hb : (('-' :: d0 :: dt).takeWhile (fun c => c ≠ Char.ofNat 0)).dropWhile isspace =
        '-' :: d0 :: dt := by
      rw [hnull, List.dropWhile_cons]
      rfl
    unfold strtol
    simp only [hb]
    rw [takeWhile_digits _ h, digits_value_eq]

/-- The conversion to `int` keeps a value in the range of `int`. -/
theorem to_int_id (z : Int) (h1 : -2147483648 ≤ z) (h2 : z < 2147483648) : to_int z = z := by
  unfold to_int
  omega

/-- The text of the groups has at least one character for each group. -/
theorem render_line_length (gs : List Group) : gs.length ≤ (render_line [] gs).length := by
  induction gs with
  | nil => simp
  | cons g gs ih =>
    rw [render_line, render_line_append]
    simp [Group.render]
    omega

/-- The constructor on a line made of a tag and well-formed groups: the tag, and the keys
assigned their values in order. -/
theorem BMFontLine_ctor_groups (tag : CppString) (gs : List Group) (htag1 : ' ' ∉ tag)
    (htag2 : '=' ∉ tag) (hgs : ∀ g ∈ gs, g.wellFormed)
    (hlen : (render_line tag gs).length < npos) :
    BMFontLine_ctor (render_line tag gs) =
      .done ⟨tag, gs.foldl (fun m g => m.assign g.key g.value) []⟩ := by
  have hl := render_line_append gs tag
  have hloop := BMFontLine_loop_groups (render_line tag gs) hlen gs tag 0
    ((render_line tag gs).length + 1) [] hl hgs (Nat.zero_le _) (by simpa using htag2)
    (by rw [hl]; simp; have := render_line_length gs; omega)
  have htag : CppString.substr (render_line tag gs) 0
      (CppString.find (render_line tag gs) ' ' 0) = some tag := by
    rcases render_line_head gs with h0 | ⟨R2, h2⟩
    · rw [h0, List.append_nil] at hl
      rw [hl, CppString.find_none tag [] tag ' ' 0 rfl rfl htag1]
      rw [hl] at hlen
      simp only [CppString.substr, List.drop_zero]
      simp [List.take_of_length_le (Nat.le_of_lt hlen)]
    · rw [h2] at hl
      rw [CppString.find_eq (render_line tag gs) [] tag R2 ' ' 0 (by simpa using hl) rfl htag1]
      exact CppString.substr_eq _ [] tag (' ' :: R2) 0 _ (by simpa using hl) rfl (by simp)
  simp only [BMFontLine_ctor, htag, hloop]

/-- C16, counterexample: on the line `char id=4294967296` the attribute `id` is present with
the value `4294967296`, and `getAttributeInt` returns 0 where `long` has 64 bits and 2147483647
where it has 32, not the integer 4294967296. -/
theorem getAttributeInt_counterexample :
    ∃ l, BMFontLine_ctor "char id=4294967296".toList = .done l ∧
      l.attributes.lookup "id".toList = some "4294967296".toList ∧
      decimal "4294967296".toList = 4294967296 ∧
      l.getAttributeInt 64 "id".toList = 0 ∧
      l.getAttributeInt 32 "id".toList = 2147483647 := by
  refine ⟨⟨"char".toList, [("id".toList, "4294967296".toList)]⟩, by decide, by decide, ?_,
    by decide, by decide⟩
  simp [decimal, Nat.ofDigits]

/-- C16, amended: for every line made of a tag and of ` key=value` groups, where the tag and
the keys have no space or `=`, and each value is either bare (not empty, without space, `=` or
double quote) or between double quotes (without double quote), the constructor of `BMFontLine`
yields the tag and an attribute map holding exactly the listed keys, each with its value, the
last one when a key is repeated. For an absent attribute `getAttributeInt` returns 0 and
`getAttributeString` the empty string; for a present one `getAttributeString` returns its
value, and `getAttributeInt` returns the integer that the value denotes when the value is a
run of decimal digits, with or without a minus sign, that denotes an integer in the range of
`int` (`long` having at least 32 bits). -/
theorem BMFontLine_spec (long_bits : Nat) (tag : CppString) (gs : List Group)
    (htag1 : ' ' ∉ tag) (htag2 : '=' ∉ tag) (hgs : ∀ g ∈ gs, g.wellFormed)
    (hlen : (render_line tag gs).length < npos) (hlong : 32 ≤ long_bits) :
    ∃ l, BMFontLine_ctor (render_line tag gs) = .done l ∧ l.tag = tag ∧
      (∀ k, l.attributes.lookup k = listed_value gs k) ∧
      (∀ k, listed_value gs k = none →
        l.getAttributeInt long_bits k = 0 ∧ l.getAttributeString k = []) ∧
      (∀ k v, listed_value gs k = some v → l.getAttributeString k = v) ∧
      (∀ k ds, ds ≠ [] → (∀ c ∈ ds, isdigit c = true) →
        (listed_value gs k = some ds → (decimal ds : Int) < 2147483648 →
          l.getAttributeInt long_bits k = decimal ds) ∧
        (listed_value gs k = some ('-' :: ds) → (decimal ds : Int) ≤ 2147483648 →
          l.getAttributeInt long_bits k = -(decimal ds : Int))) := by
  have hlook : ∀ k, Attributes.lookup (gs.foldl (fun m g => m.assign g.key g.value) []) k =
      listed_value gs k := by
    intro k
    rw [Attributes.lookup_groups]
    cases listed_value gs k <;> rfl
  have hpow : (2147483648 : Int) ≤ 2 ^ (long_bits - 1) := by
    have h31 : (2 : Int) ^ 31 ≤ 2 ^ (long_bits - 1) :=
      pow_le_pow_right₀ (by norm_num) (by omega)
    norm_num at h31
    exact h31
  refine ⟨_, BMFontLine_ctor_groups tag gs htag1 htag2 hgs hlen, rfl, hlook, ?_, ?_, ?_⟩
  · intro k hk
    simp [BMFontLine.getAttributeInt, BMFontLine.getAttributeString, hlook, hk]
  · intro k v hk
    simp [BMFontLine.getAttributeString, hlook, hk]
  · intro k ds hne hds
    have hnn : (0 : Int) ≤ decimal ds := Int.natCast_nonneg _
    constructor
    · intro hk hr
      simp only [BMFontLine.getAttributeInt, hlook, hk, (strtol_decimal long_bits ds hne hds).1]
      rw [min_eq_left (by omega), max_eq_right (by omega)]
      exact to_int_id _ (by omega) hr
    · intro hk hr
      simp only [BMFontLine.getAttributeInt, hlook, hk, (strtol_decimal long_bits ds hne hds).2]
      rw [min_eq_left (by omega), max_eq_right (by omega)]
      exact to_int_id _ (by omega) (by omega)

/-- C16, at a concrete line: the tag `info`, the quoted `face` with a space in it and the bare
`size` with a minus sign. -/
theorem BMFontLine_spec_witness :
    ∃ l, BMFontLine_ctor (render_line "info".toList
        [⟨"face".toList, "Arial Bold".toList, true⟩, ⟨"size".toList, "-12".toList, false⟩]) =
        .done l ∧
      l.tag = "info".toList ∧
      l.getAttributeString "face".toList = "Arial Bold".toList ∧
      l.getAttributeInt 64 "size".toList = -12 ∧
      l.getAttributeInt 64 "base".toList = 0 := by
  obtain ⟨l, h1, h2, _, h4, h5, h6⟩ := BMFontLine_spec 64 "info".toList
    [⟨"face".toList, "Arial Bold".toList, true⟩, ⟨"size".toList, "-12".toList, false⟩]
    (by decide) (by decide)
    (by
      intro g hg
      simp only [List.mem_cons, List.mem_singleton, List.not_mem_nil, or_false] at hg
      rcases hg with rfl | rfl
      · exact ⟨by decide, by decide, by decide⟩
      · exact ⟨by decide, by decide, by decide, by decide, by decide, by decide⟩)
    (by decide) (by decide)
  have hd : decimal "12".toList = 12 := by simp [decimal, Nat.ofDigits]
  refine ⟨l, h1, h2, h5 _ _ (by decide), ?_, (h4 "base".toList (by decide)).1⟩
  have h := (h6 "size".toList "12".toList (by decide) (by decide)).2 (by decide)
    (by rw [hd]; decide)
  rw [h, hd]
  rfl

/-! ### `BMFontRasterizer::parseConfig` -/

/-- What one line changes of the characters, of the line height and of the metrics. -/
theorem parse_line_effect (long_bits : Nat) (env : PageEnv) (r r1 : BMFontRasterizer)
    (cline : BMFontLine) (h : parse_line long_bits env r cline = .ok r1) :
    r1.characters = r.characters ++
      (if cline.tag = "char".toList then [char_of_line long_bits cline] else []) ∧
    r1.lineHeight = (if cline.tag = "common".toList then
      cline.getAttributeInt long_bits "lineHeight".toList else r.lineHeight) ∧
    r1.metrics.descent = (if cline.tag = "common".toList then
      to_int (cline.getAttributeInt long_bits "base".toList -
        cline.getAttributeInt long_bits "lineHeight".toList) else r.metrics.descent) ∧
    r1.metrics.height = r.metrics.height := by
  unfold parse_line at h
  split at h
  · rename_i ht
    simp only [Except.ok.injEq] at h
    subst h
    simp [ht]
  · split at h
    · rename_i ht
      simp only [Except.ok.injEq] at h
      subst h
      simp [ht]
    · rename_i hc
      split at h
      · rename_i ht
        have hr : r1.characters = r.characters ∧ r1.lineHeight = r.lineHeight ∧
            r1.metrics = r.metrics := by
          unfold parse_page at h
          split at h
          · simp only [Except.ok.injEq] at h
            subst h
            exact ⟨rfl, rfl, rfl⟩
          · split at h
            · cases h
            · split at h
              · cases h
              · split at h
                · cases h
                · split at h
                  · cases h
                  · simp only [Except.ok.injEq] at h
                    subst h
                    exact ⟨rfl, rfl, rfl⟩
        simp [ht, hc, hr.1, hr.2.1, hr.2.2]
      · split at h
        · rename_i ht
          simp only [Except.ok.injEq] at h
          subst h
          simp [ht, hc]
        · rename_i hch
          split at h
          · simp only [Except.ok.injEq] at h
            subst h
            simp only [if_neg hc, if_neg hch, List.append_nil, and_self]
          · simp only [Except.ok.injEq] at h
            subst h
            simp only [if_neg hc, if_neg hch, List.append_nil, and_self]

/-- The last `common` line of a list of lines with one more line in front. -/
theorem last_common_cons (c : BMFontLine) (rest : List BMFontLine) :
    last_common (c :: rest) =
      match last_common rest with
      | some l => some l
      | none => if c.tag = "common".toList then some c else none := by
  unfold last_common
  rw [List.filter_cons]
  by_cases hc : c.tag = "common".toList
  · simp only [hc, decide_True, if_true]
    cases hr : List.filter (fun l => decide (l.tag = "common".toList)) rest with
    | nil => rfl
    | cons x xs =>
      rw [List.getLast?_cons_cons, List.getLast?_eq_getLast _ (List.cons_ne_nil x xs)]
  · simp only [hc, decide_False, Bool.false_eq_true, if_false]
    generalize (List.filter (fun l => decide (l.tag = "common".toList)) rest).getLast? = o
    cases o <;> rfl

/-- The loop over the lines, when it ends without exception: every line was parsed, the
characters defined were added in order, the line height and the descent are those of the last
`common` line, and the height of the metrics is untouched. -/
theorem parse_lines_effect (long_bits : Nat) (env : PageEnv) :
    ∀ (lines : List CppString) (r r2 : BMFontRasterizer),
      parse_lines long_bits env r lines = .done (.ok r2) →
      ∃ clines, List.Forall₂ (fun line cline => BMFontLine_ctor line = .done cline) lines clines ∧
        r2.characters = r.characters ++
          (clines.filter (fun l => l.tag = "char".toList)).map (char_of_line long_bits) ∧
        r2.lineHeight = (match last_common clines with
          | some l => l.getAttributeInt long_bits "lineHeight".toList
          | none => r.lineHeight) ∧
        r2.metrics.descent = (match last_common clines with
          | some l => to_int (l.getAttributeInt long_bits "base".toList -
              l.getAttributeInt long_bits "lineHeight".toList)
          | none => r.metrics.descent) ∧
        r2.metrics.height = r.metrics.height := by
  intro lines
  induction lines with
  | nil =>
    intro r r2 h
    simp only [parse_lines, Parsed.done.injEq, Except.ok.injEq] at h
    subst h
    exact ⟨[], List.Forall₂.nil, by simp, rfl, rfl, rfl⟩
  | cons line rest ih =>
    intro r r2 h
    rw [parse_lines] at h
    split at h
    · rename_i cline hcl
      split at h
      · cases h
      · rename_i r1 hr1
        obtain ⟨clines, hfa, hch, hlh, hde, hhe⟩ := ih r1 r2 h
        obtain ⟨e1, e2, e3, e4⟩ := parse_line_effect long_bits env r r1 cline hr1
        refine ⟨cline :: clines, List.Forall₂.cons hcl hfa, ?_, ?_, ?_, by rw [hhe, e4]⟩
        · rw [hch, e1, List.filter_cons]
          by_cases ht : cline.tag = "char".toList
          · simp only [ht, if_true, decide_True, List.map_cons, List.append_assoc,
              List.singleton_append]
          · simp only [ht, if_false, decide_False, Bool.false_eq_true, List.append_nil]
        · rw [hlh, last_common_cons]
          cases last_common clines with
          | some l => rfl
          | none =>
            rw [e2]
            by_cases ht : cline.tag = "common".toList
            · simp only [ht, if_true]
            · simp only [ht, if_false]
        · rw [hde, last_common_cons]
          cases last_common clines with
          | some l => rfl
          | none =>
            rw [e3]
            by_cases ht : cline.tag = "common".toList
            · simp only [ht, if_true]
            · simp only [ht, if_false]
    · cases h
    · cases h

/-- The loop over the characters, when it ends without exception: the line height is as before,
or when it is guessed the greatest of the line height before and of the heights of the
characters with a non-zero glyph. -/
theorem verify_characters_effect (r : BMFontRasterizer) (guessheight : Bool) :
    ∀ (cs : List BMFontCharacter) (lineHeight lh : Int),
      verify_characters r guessheight cs lineHeight = .ok lh →
      lh = if guessheight = true then
          ((cs.filter (fun c => c.glyph ≠ 0)).map (fun c => c.metrics.height)).foldl max lineHeight
        else lineHeight := by
  intro cs
  induction cs with
  | nil =>
    intro lineHeight lh h
    simp only [verify_characters, Except.ok.injEq] at h
    simp [h]
  | cons c cs ih =>
    intro lineHeight lh h
    rw [verify_characters] at h
    split at h
    · rename_i hg
      rw [ih _ _ h, List.filter_cons]
      simp [hg]
    · rename_i hg
      split at h
      · cases h
      · split at h
        · cases h
        · split at h
          · cases h
          · split at h
            · cases h
            · split at h
              · cases h
              · rw [ih _ _ h, List.filter_cons]
                cases guessheight <;> simp [hg]

/-- The heights that the loop over the characters sees: those of the character definitions
with a non-zero id. -/
theorem char_heights_eq (long_bits : Nat) (clines : List BMFontLine) :
    ((([nullchar] ++ (clines.filter (fun l => l.tag = "char".toList)).map
      (char_of_line long_bits)).filter (fun c => c.glyph ≠ 0)).map (fun c => c.metrics.height)) =
      char_heights long_bits clines := by
  have hn : (decide (nullchar.glyph ≠ 0)) = false := by decide
  rw [List.filter_append, List.filter_cons, hn]
  simp only [Bool.false_eq_true, if_false, List.filter_nil, List.nil_append, List.filter_map,
    List.map_map, char_heights]
  rfl

/-- What `parseConfig` leaves when it ends without exception, in terms of the lines of the
config text. -/
theorem parseConfig_effect (long_bits : Nat) (env : PageEnv) (fontFolder : CppString)
    (images : List (Int × ImageData)) (configtext : CppString) (r : BMFontRasterizer)
    (h : parseConfig long_bits env (BMFontRasterizer.init fontFolder images) configtext =
      .done (.ok r)) :
    ∃ clines lh0 de0, ParsedLines configtext clines ∧
      lh0 = (match last_common clines with
        | some l => l.getAttributeInt long_bits "lineHeight".toList
        | none => 0) ∧
      de0 = (match last_common clines with
        | some l => to_int (l.getAttributeInt long_bits "base".toList -
            l.getAttributeInt long_bits "lineHeight".toList)
        | none => 0) ∧
      r.lineHeight = (if lh0 = 0 then (char_heights long_bits clines).foldl max 0 else lh0) ∧
      r.metrics.height = r.lineHeight ∧ r.metrics.descent = de0 := by
  unfold parseConfig at h
  split at h
  · rename_i r2 hr2
    obtain ⟨clines, hfa, hch, hlh, hde, _⟩ := parse_lines_effect long_bits env _ _ _ hr2
    simp only [BMFontRasterizer.init, List.nil_append] at hch hlh hde
    refine ⟨clines, _, _, hfa, rfl, rfl, ?_⟩
    split at h
    · cases h
    · split at h
      · cases h
      · rename_i lh hv
        have hv2 := verify_characters_effect r2 _ _ _ _ hv
        simp only [Parsed.done.injEq, Except.ok.injEq] at h
        subst h
        simp only [and_true, true_and]
        refine ⟨?_, hde⟩
        rw [hv2, hch]
        rw [char_heights_eq long_bits clines, ← hlh]
        by_cases h0 : r2.lineHeight = 0
        · simp [h0]
        · simp [h0]
  · cases h
  · cases h
  · cases h

/-- The lines of a config text are parsed in one way. -/
theorem ParsedLines_unique (configtext : CppString) (a b : List BMFontLine)
    (ha : ParsedLines configtext a) (hb : ParsedLines configtext b) : a = b := by
  unfold ParsedLines at ha hb
  generalize getlines_from configtext [] = lines at ha hb
  induction ha generalizing b with
  | nil => cases hb; rfl
  | cons h1 _ ih =>
    cases hb with
    | cons h2 hrest =>
      rw [h1] at h2
      simp only [Parsed.done.injEq] at h2
      rw [h2, ih _ hrest]

/-- C18, counterexample: for the config text `char id=65 height=-1`, with an image for page 0,
`parseConfig` succeeds; there is no `common` line, the one character definition has a non-zero
id and the height -1, and `getLineHeight()` is 0, not the maximum height -1. -/
theorem parseConfig_lineHeight_counterexample :
    ∃ r, parseConfig 64 examplePageEnv (BMFontRasterizer.init [] [(0, exampleImage)])
        "char id=65 height=-1".toList = .done (.ok r) ∧
      ParsedLines "char id=65 height=-1".toList
        [⟨"char".toList, [("id".toList, "65".toList), ("height".toList, "-1".toList)]⟩] ∧
      last_common
        [⟨"char".toList, [("id".toList, "65".toList), ("height".toList, "-1".toList)]⟩] = none ∧
      char_heights 64
        [⟨"char".toList, [("id".toList, "65".toList), ("height".toList, "-1".toList)]⟩] = [-1] ∧
      r.getLineHeight = 0 := by
  refine ⟨_, rfl, ?_, by decide, by decide, rfl⟩
  exact List.Forall₂.cons (by decide) List.Forall₂.nil

/-- C18, amended: after a successful `parseConfig` on a freshly constructed rasterizer, with
the lines of the config text parsed as `clines`: if the last `common` line gives a non-zero
`lineHeight`, `getLineHeight()` equals it; if it gives zero or none, or there is no `common`
line, `getLineHeight()` is the greatest of 0 and of the `height` attributes of the character
definitions with a non-zero id; in both cases `metrics.height` equals `getLineHeight()`, and
`metrics.descent` is `base` minus `lineHeight` of the last `common` line in `int` arithmetic,
0 without a `common` line. -/
theorem parseConfig_lineHeight_spec (long_bits : Nat) (env : PageEnv) (fontFolder : CppString)
    (images : List (Int × ImageData)) (configtext : CppString) (r : BMFontRasterizer)
    (clines : List BMFontLine)
    (h : parseConfig long_bits env (BMFontRasterizer.init fontFolder images) configtext =
      .done (.ok r))
    (hp : ParsedLines configtext clines) :
    (∀ l, last_common clines = some l →
      l.getAttributeInt long_bits "lineHeight".toList ≠ 0 →
      r.getLineHeight = l.getAttributeInt long_bits "lineHeight".toList) ∧
    ((∀ l, last_common clines = some l →
      l.getAttributeInt long_bits "lineHeight".toList = 0) →
      r.getLineHeight = (char_heights long_bits clines).foldl max 0) ∧
    r.metrics.height = r.getLineHeight ∧
    (∀ l, last_common clines = some l →
      r.metrics.descent = to_int (l.getAttributeInt long_bits "base".toList -
        l.getAttributeInt long_bits "lineHeight".toList)) ∧
    (last_common clines = none → r.metrics.descent = 0) := by
  obtain ⟨clines2, lh0, de0, hp2, hlh0, hde0, hlh, hh, hde⟩ :=
    parseConfig_effect long_bits env fontFolder images configtext r h
  have hc := ParsedLines_unique configtext clines2 clines hp2 hp
  subst hc
  unfold BMFontRasterizer.getLineHeight
  refine ⟨?_, ?_, hh, ?_, ?_⟩
  · intro l hl hne
    rw [hl] at hlh0
    simp only at hlh0
    rw [hlh, if_neg (by rw [hlh0]; exact hne), hlh0]
  · intro hz
    have h0 : lh0 = 0 := by
      cases hl : last_common clines2 with
      | none => rw [hl] at hlh0; exact hlh0
      | some l => rw [hl] at hlh0; exact hlh0.trans (hz l hl)
    rw [hlh, if_pos h0]
  · intro l hl
    rw [hl] at hde0
    rw [hde, hde0]
  · intro hl
    rw [hl] at hde0
    rw [hde, hde0]

/-- C18, at a concrete config text: a `common` line with `lineHeight=32 base=26` and one
character of height 20 give the line height 32, the height 32 and the descent -6. -/
theorem parseConfig_lineHeight_spec_witness :
    parseConfig 64 examplePageEnv (BMFontRasterizer.init [] [(0, exampleImage)])
        "common lineHeight=32 base=26\nchar id=65 height=20".toList =
      .done (.ok ⟨[], [(0, exampleImage)], [nullchar, ⟨0, 0, 0, ⟨20, 0, 0, 0, 0⟩, 65⟩],
        [(0, 0), (65, 1)], [], 0, false, 32, ⟨0, 26, -6, 32⟩⟩) ∧
    BMFontRasterizer.getLineHeight ⟨[], [(0, exampleImage)],
        [nullchar, ⟨0, 0, 0, ⟨20, 0, 0, 0, 0⟩, 65⟩], [(0, 0), (65, 1)], [], 0, false, 32,
        ⟨0, 26, -6, 32⟩⟩ = 32 := by
  have hp : ParsedLines "common lineHeight=32 base=26\nchar id=65 height=20".toList
      [⟨"common".toList, [("lineHeight".toList, "32".toList), ("base".toList, "26".toList)]⟩,
        ⟨"char".toList, [("id".toList, "65".toList), ("height".toList, "20".toList)]⟩] :=
    List.Forall₂.cons (by decide) (List.Forall₂.cons (by decide) List.Forall₂.nil)
  have hr : parseConfig 64 examplePageEnv (BMFontRasterizer.init [] [(0, exampleImage)])
      "common lineHeight=32 base=26\nchar id=65 height=20".toList =
      .done (.ok ⟨[], [(0, exampleImage)], [nullchar, ⟨0, 0, 0, ⟨20, 0, 0, 0, 0⟩, 65⟩],
        [(0, 0), (65, 1)], [], 0, false, 32, ⟨0, 26, -6, 32⟩⟩) := rfl
  have e : BMFontLine.getAttributeInt 64
      ⟨"common".toList, [("lineHeight".toList, "32".toList), ("base".toList, "26".toList)]⟩
      "lineHeight".toList = 32 := by decide
  exact ⟨hr, ((parseConfig_lineHeight_spec 64 examplePageEnv [] [(0, exampleImage)]
    "common lineHeight=32 base=26\nchar id=65 height=20".toList _ _ hr hp).1
    ⟨"common".toList, [("lineHeight".toList, "32".toList), ("base".toList, "26".toList)]⟩
    (by decide) (by decide)).trans e⟩

/-- A line that is not a `page` line throws no exception. -/
theorem parse_line_ok (long_bits : Nat) (env : PageEnv) (r : BMFontRasterizer)
    (cline : BMFontLine) (hpage : cline.tag ≠ "page".toList) :
    ∃ r1, parse_line long_bits env r cline = .ok r1 := by
  unfold parse_line
  split
  · exact ⟨_, rfl⟩
  · split
    · exact ⟨_, rfl⟩
    · split
      · exact ⟨_, rfl⟩
      · split
        · exact ⟨_, rfl⟩
        · exact ⟨_, rfl⟩

/-- The loop over lines that are neither `char` nor `page` lines ends without exception and
adds no character. -/
theorem parse_lines_no_char (long_bits : Nat) (env : PageEnv) :
    ∀ (lines : List CppString) (clines : List BMFontLine) (r : BMFontRasterizer),
      List.Forall₂ (fun line cline => BMFontLine_ctor line = .done cline) lines clines →
      (∀ l ∈ clines, l.tag ≠ "char".toList ∧ l.tag ≠ "page".toList) →
      ∃ r2, parse_lines long_bits env r lines = .done (.ok r2) ∧
        r2.characters = r.characters := by
  intro lines clines r hfa
  induction hfa generalizing r with
  | nil => intro _; exact ⟨r, rfl, rfl⟩
  | @cons line cline lines2 clines2 h1 _ ih =>
    intro hall
    obtain ⟨hchar, hpage⟩ := hall cline (List.mem_cons_self _ _)
    obtain ⟨r1, hr1⟩ := parse_line_ok long_bits env r cline hpage
    obtain ⟨r2, hr2, hc2⟩ := ih r1 (fun l hl => hall l (List.mem_cons_of_mem _ hl))
    refine ⟨r2, ?_, ?_⟩
    · rw [parse_lines, h1]
      simp only [hr1, hr2]
    · rw [hc2, (parse_line_effect long_bits env r r1 cline hr1).1, if_neg hchar,
        List.append_nil]

/-- C17, the claim fails: for a config text whose lines are neither `char` nor `page` lines,
`parseConfig` on a freshly constructed rasterizer throws no exception; it ends with the null
character, which it adds itself before the test `characters.size() == 0`, as the only
character. -/
theorem parseConfig_no_char (long_bits : Nat) (env : PageEnv) (fontFolder : CppString)
    (images : List (Int × ImageData)) (configtext : CppString) (clines : List BMFontLine)
    (hp : ParsedLines configtext clines)
    (hall : ∀ l ∈ clines, l.tag ≠ "char".toList ∧ l.tag ≠ "page".toList) :
    ∃ r, parseConfig long_bits env (BMFontRasterizer.init fontFolder images) configtext =
        .done (.ok r) ∧
      r.characters = [nullchar] := by
  obtain ⟨r2, hr2, hc2⟩ := parse_lines_no_char long_bits env _ clines
    { BMFontRasterizer.init fontFolder images with
      characters := (BMFontRasterizer.init fontFolder images).characters ++ [nullchar],
      characterIndices := map_assign (BMFontRasterizer.init fontFolder images).characterIndices 0
        (to_int (((BMFontRasterizer.init fontFolder images).characters ++
          [nullchar]).length - 1)) }
    hp hall
  have hc : r2.characters = [nullchar] := by
    rw [hc2]
    rfl
  have hv : verify_characters r2 (decide (r2.lineHeight = 0)) [nullchar] r2.lineHeight =
      .ok r2.lineHeight := by
    simp [verify_characters, nullchar]
  refine ⟨{ r2 with
    lineHeight := r2.lineHeight,
    metrics := ⟨r2.metrics.advance, r2.metrics.ascent, r2.metrics.descent, r2.lineHeight⟩ },
    ?_, hc⟩
  unfold parseConfig
  simp only [hr2, hc, hv]
  rfl

/-- C17, at concrete config texts: the empty text, and a text with an `info` and a `common`
line, contain no `char` line, and `parseConfig` throws no exception for them. -/
theorem parseConfig_no_char_witness :
    (∃ r, parseConfig 64 examplePageEnv (BMFontRasterizer.init [] []) [] = .done (.ok r) ∧
      r.characters = [nullchar]) ∧
    (∃ r, parseConfig 64 examplePageEnv (BMFontRasterizer.init [] [])
        "info size=12\ncommon lineHeight=32 base=26\n".toList = .done (.ok r) ∧
      r.characters = [nullchar]) :=
  ⟨parseConfig_no_char 64 examplePageEnv [] [] [] [] List.Forall₂.nil (by decide),
    parseConfig_no_char 64 examplePageEnv [] []
      "info size=12\ncommon lineHeight=32 base=26\n".toList
      [⟨"info".toList, [("size".toList, "12".toList)]⟩,
        ⟨"common".toList, [("lineHeight".toList, "32".toList), ("base".toList, "26".toList)]⟩]
      (List.Forall₂.cons (by decide) (List.Forall₂.cons (by decide) List.Forall₂.nil))
      (by decide)⟩

/-! ### The event queue -/

/-- Pushing messages at the back appends them to the queue in order. -/
theorem Event_push_back_queue (msgs : List ObjPtr) : ∀ s : EventQueue,
    (msgs.foldl Event_push_back s).queue = s.queue ++ msgs := by
  induction msgs with
  | nil => intro s; simp
  | cons m msgs ih =>
    intro s
    rw [List.foldl_cons, ih]
    simp [Event_push_back, Event_push]

/-- Polling a queue once more than it has messages: every message in order, then `false` with
the variable as the last successful call left it. -/
theorem Event_poll_times_queue : ∀ (q : List ObjPtr) (counts : RefCounts) (out : Option ObjPtr),
    Event_poll_times (q.length + 1) ⟨q, counts⟩ out =
      (q.map (fun m => (true, some m)) ++ [(false, q.foldl (fun _ m => some m) out)],
        ⟨[], counts⟩) := by
  intro q
  induction q with
  | nil => intro counts out; rfl
  | cons m q ih =>
    intro counts out
    rw [List.length_cons, Event_poll_times]
    simp only [Event_poll, ih, List.map_cons, List.cons_append, List.foldl_cons]

/-- C21: the event queue is first-in first-out. `push(msg)` is `push(msg, false)`. After the
messages `msgs` are pushed this way onto an empty queue, `msgs.length + 1` successive calls of
`poll` return `true` with each message in push order and then `false`, and leave the queue
empty; the last call leaves its output argument as it found it. After `push(msg, true)` the
next `poll` returns `true` with `msg`. On an empty queue `poll` returns `false` and changes
neither its output argument nor the queue. -/
theorem Event_queue_fifo (msgs : List ObjPtr) (counts : RefCounts) (out : Option ObjPtr)
    (s : EventQueue) (msg : ObjPtr) :
    Event_push_back s msg = Event_push s msg false ∧
    (Event_poll_times (msgs.length + 1) (msgs.foldl Event_push_back ⟨[], counts⟩) out).1 =
      msgs.map (fun m => (true, some m)) ++ [(false, msgs.foldl (fun _ m => some m) out)] ∧
    (Event_poll_times (msgs.length + 1) (msgs.foldl Event_push_back ⟨[], counts⟩) out).2.queue =
      [] ∧
    ((Event_poll (Event_push s msg true) out).1 = true ∧
      (Event_poll (Event_push s msg true) out).2.1 = some msg ∧
      (Event_poll (Event_push s msg true) out).2.2.queue = s.queue) ∧
    (Event_poll ⟨[], counts⟩ out).1 = false ∧
    (Event_poll ⟨[], counts⟩ out).2.1 = out ∧
    (Event_poll ⟨[], counts⟩ out).2.2.queue = [] := by
  have hq := Event_push_back_queue msgs ⟨[], counts⟩
  simp only [List.nil_append] at hq
  generalize msgs.foldl Event_push_back ⟨[], counts⟩ = pushed at hq ⊢
  obtain ⟨q, c⟩ := pushed
  simp only at hq
  subst hq
  rw [Event_poll_times_queue]
  exact ⟨rfl, rfl, rfl, ⟨rfl, rfl, rfl⟩, rfl, rfl, rfl⟩

/-- The loop of `clear` releases each queued message once. -/
theorem Event_clear_loop_count : ∀ (q : List ObjPtr) (counts : RefCounts) (o : ObjPtr),
    Event_clear_loop q counts o = counts o - q.count o := by
  intro q
  induction q with
  | nil => intro counts o; simp [Event_clear_loop]
  | cons m q ih =>
    intro counts o
    rw [Event_clear_loop, ih, List.count_cons]
    by_cases h : m = o
    · subst h
      simp [RefCounts.release]
      omega
    · have h2 : o ≠ m := fun e => h e.symm
      simp [RefCounts.release, Function.update, h, h2]

/-- The references held for the queue: through any calls, the reference count of a message
moves by the number of its entries in the queue and of the times `poll` handed it over. -/
theorem Event_run_count : ∀ (calls : List EventCall) (s : EventQueue) (polled : List ObjPtr)
    (o : ObjPtr),
    (Event_run calls (s, polled)).1.counts o -
        ((Event_run calls (s, polled)).1.queue.count o + (Event_run calls (s, polled)).2.count o) =
      s.counts o - (s.queue.count o + polled.count o) := by
  intro calls
  induction calls with
  | nil => intro s polled o; rfl
  | cons c calls ih =>
    intro s polled o
    cases c with
    | push msg pushFront =>
      rw [Event_run, ih]
      cases pushFront
      · by_cases h : msg = o
        · subst h
          simp [Event_push, RefCounts.retain]
          omega
        · have h2 : o ≠ msg := fun e => h e.symm
          simp [Event_push, RefCounts.retain, Function.update, h, h2, List.count_cons]
      · by_cases h : msg = o
        · subst h
          simp [Event_push, RefCounts.retain]
          omega
        · have h2 : o ≠ msg := fun e => h e.symm
          simp [Event_push, RefCounts.retain, Function.update, h, h2, List.count_cons]
    | poll =>
      rw [Event_run, ih]
      cases hq : s.queue with
      | nil => simp [Event_poll, hq]
      | cons m q =>
        simp only [Event_poll, hq, if_true, Option.toList, List.count_append, List.count_cons,
          List.count_nil]
        omega
    | clear =>
      rw [Event_run, ih]
      simp only [Event_clear, Event_clear_loop_count, List.count_nil]
      omega

/-- C22: the event queue conserves references. `push` retains the message exactly once and no
other object; `poll` leaves every reference count as it is and removes the front message;
`clear` leaves the queue empty and releases every message once for each of its entries in the
queue. So after any sequence of calls on an empty queue, the reference count of every object
exceeds what it was by the number of its entries in the queue plus the number of times `poll`
handed it to a caller. -/
theorem Event_queue_references (s : EventQueue) (msg : ObjPtr) (pushFront : Bool)
    (out : Option ObjPtr) (calls : List EventCall) (counts : RefCounts) (o : ObjPtr) :
    (Event_push s msg pushFront).counts = Function.update s.counts msg (s.counts msg + 1) ∧
    ((Event_poll s out).2.2.counts = s.counts ∧ (Event_poll s out).2.2.queue = s.queue.tail) ∧
    ((Event_clear s).queue = [] ∧ (Event_clear s).counts o = s.counts o - s.queue.count o) ∧
    (Event_run calls (⟨[], counts⟩, [])).1.counts o =
      counts o + (Event_run calls (⟨[], counts⟩, [])).1.queue.count o +
        (Event_run calls (⟨[], counts⟩, [])).2.count o := by
  refine ⟨?_, ?_, ⟨rfl, Event_clear_loop_count s.queue s.counts o⟩, ?_⟩
  · cases pushFront <;> rfl
  · cases hq : s.queue <;> simp [Event_poll, hq]
  · have h := Event_run_count calls ⟨[], counts⟩ [] o
    simp only [List.count_nil] at h
    omega


/-! ### Totality of the constructor of `BMFontLine` -/

/-- Where the search ends: at `npos`, or at an index of the characters searched. -/
theorem find_from_bounds (c : Char) : ∀ (l : List Char) (i : Nat),
    find_from l c i = npos ∨ (i ≤ find_from l c i ∧ find_from l c i < i + l.length) := by
  intro l
  induction l with
  | nil => intro i; exact Or.inl rfl
  | cons x l ih =>
    intro i
    rw [find_from]
    split
    · exact Or.inr ⟨le_refl _, by simp⟩
    · rcases ih (i + 1) with h | ⟨h1, h2⟩
      · exact Or.inl h
      · exact Or.inr ⟨by omega, by simp only [List.length_cons]; omega⟩

/-- What `find` returns: `npos`, or an index of the string at or after `pos`. -/
theorem CppString.find_bounds (s : List Char) (c : Char) (pos : Nat) :
    CppString.find s c pos = npos ∨
      (pos ≤ CppString.find s c pos ∧ CppString.find s c pos < s.length) := by
  unfold CppString.find
  rcases find_from_bounds c (s.drop pos) pos with h | ⟨h1, h2⟩
  · exact Or.inl h
  · refine Or.inr ⟨h1, ?_⟩
    rw [List.length_drop] at h2
    omega

/-- Where the backward search ends: at what was found before, or at an index of the characters
searched. -/
theorem rfind_from_bounds (c : Char) : ∀ (l : List Char) (i found : Nat),
    rfind_from l c i found = found ∨
      (i ≤ rfind_from l c i found ∧ rfind_from l c i found < i + l.length) := by
  intro l
  induction l with
  | nil => intro i found; exact Or.inl rfl
  | cons x l ih =>
    intro i found
    rw [rfind_from]
    rcases ih (i + 1) (if x = c then i else found) with h | ⟨h1, h2⟩
    · rw [h]
      split
      · exact Or.inr ⟨le_refl _, by simp⟩
      · exact Or.inl rfl
    · exact Or.inr ⟨by omega, by simp only [List.length_cons]; omega⟩

/-- What `rfind` returns: `npos`, or an index at or before `pos`. -/
theorem CppString.rfind_bounds (s : List Char) (c : Char) (pos : Nat) :
    CppString.rfind s c pos = npos ∨ CppString.rfind s c pos ≤ pos := by
  unfold CppString.rfind
  rcases rfind_from_bounds c (s.take (pos + 1)) 0 npos with h | ⟨_, h2⟩
  · exact Or.inl h
  · refine Or.inr ?_
    have := List.length_take_le (pos + 1) s
    omega

/-- The bounds of a value: it starts at or before the end of the line, and the position after
it lies beyond the `=` and its next character, at or before the end of the line. -/
theorem value_bounds_progress (line : List Char) (fpos : Nat) (hlen : line.length < npos)
    (hf : fpos + 1 < line.length) :
    (value_bounds line fpos).1 ≤ line.length ∧
    fpos + 2 ≤ size_add (value_bounds line fpos).2 1 ∧
    size_add (value_bounds line fpos).2 1 ≤ line.length := by
  unfold npos at hlen
  have h1 : size_add fpos 1 = fpos + 1 := by
    unfold size_add
    omega
  have h2 : size_add (fpos + 1) 1 = fpos + 2 := by
    unfold size_add
    omega
  have h4 : size_sub line.length 1 = line.length - 1 := by
    unfold size_sub
    omega
  have key : ∀ q : Nat, (q = npos ∨ (fpos + 2 ≤ q ∧ q < line.length)) →
      fpos + 2 ≤ size_add (min (size_sub q 1) (line.length - 1)) 1 ∧
      size_add (min (size_sub q 1) (line.length - 1)) 1 ≤ line.length := by
    intro q hq
    rcases hq with rfl | ⟨hq1, hq2⟩
    · have h3 : size_sub npos 1 = 18446744073709551614 := by decide
      rw [h3, Nat.min_eq_right (by omega)]
      unfold size_add
      omega
    · have h3 : size_sub q 1 = q - 1 := by
        unfold size_sub
        omega
      rw [h3, Nat.min_eq_left (by omega)]
      unfold size_add
      omega
  unfold value_bounds
  rw [h1, h2, h4]
  split
  · exact ⟨by dsimp only; omega, key _ (CppString.find_bounds line dquote (fpos + 2))⟩
  · exact ⟨by dsimp only; omega, key _ (CppString.find_bounds line ' ' (fpos + 2))⟩

/-- The loop ends when it is allowed as many passes as there are characters after
`startpos`. -/
theorem BMFontLine_loop_total (line : List Char) (hlen : line.length < npos) :
    ∀ (fuel startpos : Nat) (attrs : Attributes), line.length ≤ startpos + fuel →
      ∃ a, BMFontLine_loop line fuel startpos attrs = .done a := by
  intro fuel
  induction fuel with
  | zero =>
    intro startpos attrs h
    rw [BMFontLine_loop, if_neg (by omega)]
    exact ⟨_, rfl⟩
  | succ fuel ih =>
    intro startpos attrs h
    rw [BMFontLine_loop]
    split
    · rename_i hs
      split
      · exact ⟨_, rfl⟩
      · rename_i hbreak
        simp only [not_or, not_le] at hbreak
        obtain ⟨hne, hf1⟩ := hbreak
        split
        · exact ⟨_, rfl⟩
        · rename_i hk
          have hnp := hlen
          unfold npos at hnp
          have hfb : CppString.find line '=' startpos < line.length := by
            rcases CppString.find_bounds line '=' startpos with h0 | ⟨_, h2⟩
            · exact absurd h0 hne
            · exact h2
          have hf2 : CppString.find line '=' startpos + 1 < line.length := by
            unfold size_add at hf1
            omega
          have hkb : CppString.rfind line ' ' (CppString.find line '=' startpos) ≤
              CppString.find line '=' startpos := by
            rcases CppString.rfind_bounds line ' ' (CppString.find line '=' startpos) with h0 | h0
            · exact absurd h0 hk
            · exact h0
          obtain ⟨hv1, hv2, hv3⟩ := value_bounds_progress line _ hlen hf2
          have hkey : ¬ size_add (CppString.rfind line ' ' (CppString.find line '=' startpos)) 1 >
              line.length := by
            unfold size_add
            omega
          have hstart : startpos ≤ CppString.find line '=' startpos := by
            rcases CppString.find_bounds line '=' startpos with h0 | ⟨h1, _⟩
            · exact absurd h0 hne
            · exact h1
          simp only [CppString.substr, if_neg hkey, if_neg (not_lt.2 hv1)]
          exact ih _ _ (by omega)
    · exact ⟨_, rfl⟩

/-- The constructor ends with a line, whatever the string. -/
theorem BMFontLine_ctor_done (line : List Char) (hlen : line.length < npos) :
    ∃ l, BMFontLine_ctor line = .done l := by
  obtain ⟨a, ha⟩ := BMFontLine_loop_total line hlen (line.length + 1) 0 [] (by omega)
  refine ⟨⟨(line.drop 0).take (CppString.find line ' ' 0), a⟩, ?_⟩
  simp only [BMFontLine_ctor, CppString.substr, ha]
  rfl

/-- C23: the constructor of `BMFontLine` is total. For every string (shorter than `npos`, as
every `std::string` is) it ends with a line, not with an exception, and so does its loop from
any `startpos` when allowed as many passes as there are characters left. In a pass that
reaches the two calls of `substr`, both start at a position not beyond the end of the line,
and the `startpos` that the pass leaves is greater than the one it found and not beyond the
end of the line. -/
theorem BMFontLine_ctor_total (line : CppString) (hlen : line.length < npos) :
    (∃ l, BMFontLine_ctor line = .done l) ∧
    (∀ fuel startpos attrs, line.length ≤ startpos + fuel →
      ∃ a, BMFontLine_loop line fuel startpos attrs = .done a) ∧
    (∀ startpos, startpos < line.length → line.find '=' startpos ≠ npos →
      size_add (line.find '=' startpos) 1 < line.length →
      line.rfind ' ' (line.find '=' startpos) ≠ npos →
      size_add (line.rfind ' ' (line.find '=' startpos)) 1 ≤ line.length ∧
      (value_bounds line (line.find '=' startpos)).1 ≤ line.length ∧
      startpos < size_add (value_bounds line (line.find '=' startpos)).2 1 ∧
      size_add (value_bounds line (line.find '=' startpos)).2 1 ≤ line.length) := by
  refine ⟨BMFontLine_ctor_done line hlen, BMFontLine_loop_total line hlen, ?_⟩
  intro startpos _ hne hf1 hk
  have hnp := hlen
  unfold npos at hnp
  have hfb : startpos ≤ CppString.find line '=' startpos ∧
      CppString.find line '=' startpos < line.length := by
    rcases CppString.find_bounds line '=' startpos with h0 | h0
    · exact absurd h0 hne
    · exact h0
  have hf2 : CppString.find line '=' startpos + 1 < line.length := by
    unfold size_add at hf1
    omega
  have hkb : CppString.rfind line ' ' (CppString.find line '=' startpos) ≤
      CppString.find line '=' startpos := by
    rcases CppString.rfind_bounds line ' ' (CppString.find line '=' startpos) with h0 | h0
    · exact absurd h0 hk
    · exact h0
  obtain ⟨hv1, hv2, hv3⟩ := value_bounds_progress line _ hlen hf2
  refine ⟨?_, hv1, by omega, hv3⟩
  unfold size_add
  omega

/-- C23, at a concrete line: the constructor ends on a line whose quoted value is not
closed, `char id=` followed by a double quote and `65`. -/
theorem BMFontLine_ctor_total_witness :
    ("char id=".toList ++ [dquote] ++ "65".toList).length < npos ∧
    ∃ l, BMFontLine_ctor ("char id=".toList ++ [dquote] ++ "65".toList) = .done l :=
  ⟨by decide, (BMFontLine_ctor_total ("char id=".toList ++ [dquote] ++ "65".toList)
    (by decide)).1⟩


end Love
